import Mathlib

/-!
# Thermal radiation analysis: view-factor estimator and receiver driver

A shallow embedding of `backend/server.cpp`.  Scalars (`double` in the source)
are elements of an arbitrary linearly ordered field `R` (exact arithmetic, finite
values); the distance `+infinity` used by the ray caster is the top element of
`WithTop R`.  Library routines the source calls but does not define (`std::sqrt`,
`std::cos`, `std::sin`, the Mersenne twister, `strtod`, the conversion of a
`double` to `size_t`, stream formatting of a `double`) are fields of `Platform`.
Container sizes and `size_t` counters are natural numbers (`size_t` and
`std::uint64_t` are 64 bits wide; the one place where the source relies on
wrap-around, the per-point seed, is reduced modulo `2^64`); the emitter index
kept in an `int` (`finalIdx`, `-1` when unset) is an `Option Nat`, which assumes
fewer than `2^31` emitters.  Text written to `std::cout` and `std::cerr` is not
part of the model.  Plane names are compared as Lean strings, which agrees with
the byte order of `std::string` on UTF-8 text.

The file has three parts: the embedding of the source, definitions that state
the properties (`hitDist`, `minDist`, `winner`, ...) with a concrete platform
over the rationals for closed examples, and the theorems.
-/

namespace TRA

/-- Simple 3D vector (`struct Vec3`). -/
structure Vec3 (R : Type) where
  x : R
  y : R
  z : R
deriving DecidableEq, Repr

/-- Library and platform routines used by the source. `G` is the type of
generator states (`std::mt19937_64`). -/
structure Platform (R G : Type) where
  /-- The function `std::sqrt`. -/
  sqrt : R → R
  /-- The function `std::cos`. -/
  cos : R → R
  /-- The function `std::sin`. -/
  sin : R → R
  /-- One draw of `std::uniform_real_distribution<double>(0.0, 1.0)`. -/
  uniform : G → R × G
  /-- Seeding of `std::mt19937_64` with a 64-bit value. -/
  seed : Nat → G
  /-- Construction of `std::mt19937_64` from a `std::seed_seq`. -/
  seedSeq : List Nat → G
  /-- The function `std::strtod` on the characters from the current position:
  the value and the number of characters consumed, `none` when `endptr == start`. -/
  strtod : List Char → Option (R × Nat)
  /-- The function `std::strtoull` in base 10 on the characters from the current
  position: the value and the number of characters consumed, `none` when
  `endptr == start`. -/
  strtoull : List Char → Option (Nat × Nat)
  /-- The conversion `static_cast<size_t>(double)`. -/
  toSize : R → Nat
  /-- Stream output of a `double` (`out << value`). -/
  showDouble : R → String

section Kernel

variable {R : Type} [LinearOrderedField R]

namespace Vec3

/-- Default constructor `Vec3()`. -/
def zero : Vec3 R := ⟨0, 0, 0⟩

/-- Operator `+`. -/
def add (a b : Vec3 R) : Vec3 R := ⟨a.x + b.x, a.y + b.y, a.z + b.z⟩

/-- Operator `-`. -/
def sub (a b : Vec3 R) : Vec3 R := ⟨a.x - b.x, a.y - b.y, a.z - b.z⟩

/-- Operator `* double`. -/
def scale (a : Vec3 R) (s : R) : Vec3 R := ⟨a.x * s, a.y * s, a.z * s⟩

/-- Operator `/ double`. -/
def divide (a : Vec3 R) (s : R) : Vec3 R := ⟨a.x / s, a.y / s, a.z / s⟩

end Vec3

/-- Dot product. -/
def dot (a b : Vec3 R) : R := a.x * b.x + a.y * b.y + a.z * b.z

/-- Cross product. -/
def cross (a b : Vec3 R) : Vec3 R :=
  ⟨a.y * b.z - a.z * b.y, a.z * b.x - a.x * b.z, a.x * b.y - a.y * b.x⟩

variable {G : Type}

/-- Euclidean length `std::sqrt(dot(v, v))`. -/
def length (env : Platform R G) (v : Vec3 R) : R := env.sqrt (dot v v)

/-- Function `normalize`: the zero vector when the length is at most `1e-12`. -/
def normalize (env : Platform R G) (v : Vec3 R) : Vec3 R :=
  let len := length env v
  if len ≤ 1e-12 then ⟨0, 0, 0⟩ else v.divide len

/-- A plane: normal and any point on it (`struct Plane`). -/
structure Plane (R : Type) where
  normal : Vec3 R
  point : Vec3 R

/-- An emitter (`struct PolygonWithTemp`). -/
structure PolygonWithTemp (R : Type) where
  vertices : List (Vec3 R)
  temperature : R
deriving DecidableEq, Repr

/-- A receiver point (`struct ReceiverPoint`). -/
structure ReceiverPoint (R : Type) where
  origin : Vec3 R
  normal : Vec3 R
deriving DecidableEq, Repr

/-- Plane metadata (`struct PlaneData`). -/
structure PlaneData where
  width : Nat
  height : Nat
  numPoints : Nat
deriving DecidableEq, Repr

/-- Function `getPolygonPlane`: the plane through the first three vertices,
`none` for fewer than three vertices or a cross product shorter than `1e-9`. -/
def getPolygonPlane (env : Platform R G) (verts : List (Vec3 R)) : Option (Plane R) :=
  if verts.length < 3 then none
  else
    let v1 := (verts.getD 1 Vec3.zero).sub (verts.getD 0 Vec3.zero)
    let v2 := (verts.getD 2 Vec3.zero).sub (verts.getD 0 Vec3.zero)
    let n := cross v1 v2
    let nmag := length env n
    if nmag < 1e-9 then none
    else some ⟨n.divide nmag, verts.getD 0 Vec3.zero⟩

/-- Function `rayPlaneIntersect`: the hit point and the distance, or no point and
`+infinity` when the ray is parallel to the plane or the hit is not in front. -/
def rayPlaneIntersect (rayOrigin rayDir planeNormal pointOnPlane : Vec3 R) :
    Option (Vec3 R) × WithTop R :=
  let ndotu := dot planeNormal rayDir
  if |ndotu| < 1e-9 then (none, ⊤)
  else
    let w := rayOrigin.sub pointOnPlane
    let t := -dot planeNormal w / ndotu
    if t < 1e-7 then (none, ⊤)
    else (some (rayOrigin.add (rayDir.scale t)), (t : WithTop R))

/-- Function `isPointInPolygon2D`: even-odd rule; the loop runs `i = 0 .. n-1`
with `j` the previous `i`, initially `n - 1`. -/
def isPointInPolygon2D (poly : List (R × R)) (x y : R) : Bool :=
  let n := poly.length
  ((List.range n).foldl
    (fun (st : Nat × Bool) (i : Nat) =>
      let pi := poly.getD i (0, 0)
      let pj := poly.getD st.1 (0, 0)
      let intersect : Bool :=
        (decide (pi.2 > y) != decide (pj.2 > y)) &&
          decide (x < (pj.1 - pi.1) * (y - pi.2) / ((pj.2 - pi.2) + 1e-30) + pi.1)
      (i, if intersect then !st.2 else st.2))
    (n - 1, false)).2

/-- Coordinate `coords[a]` of a vector, for `a` in `0, 1, 2`. -/
def Vec3.coord (v : Vec3 R) (a : Nat) : R :=
  match a with
  | 0 => v.x
  | 1 => v.y
  | _ => v.z

/-- Function `isPointInPolygon3D`: drop the axis of largest absolute normal
component and test in two dimensions. -/
def isPointInPolygon3D (p : Vec3 R) (polygon : List (Vec3 R)) (polygonNormal : Vec3 R) : Bool :=
  let absn : Vec3 R := ⟨|polygonNormal.x|, |polygonNormal.y|, |polygonNormal.z|⟩
  let ab : Nat × Nat :=
    if absn.x ≥ absn.y ∧ absn.x ≥ absn.z then (1, 2)
    else if absn.y ≥ absn.x ∧ absn.y ≥ absn.z then (0, 2)
    else (0, 1)
  let poly2d := polygon.map (fun v => (v.coord ab.1, v.coord ab.2))
  isPointInPolygon2D poly2d (p.coord ab.1) (p.coord ab.2)

/-- The constant `M_PI`. -/
def M_PI : R := 3.14159265358979323846

/-- The sampling loop of `generateCosineHemisphereRays`: two uniform draws per
ray, mapped to a direction in the frame `(u, v, w)`. -/
def sampleLoop (env : Platform R G) (u v w : Vec3 R) : Nat → G → List (Vec3 R) × G
  | 0, rng => ([], rng)
  | k + 1, rng =>
    let d1 := env.uniform rng
    let d2 := env.uniform d1.2
    let u1 := d1.1
    let u2 := d2.1
    let phi := 2 * M_PI * u1
    let cosTheta := env.sqrt (1 - u2)
    let sinTheta := env.sqrt u2
    let lx := sinTheta * env.cos phi
    let ly := sinTheta * env.sin phi
    let lz := cosTheta
    let world : Vec3 R :=
      ⟨u.x * lx + v.x * ly + w.x * lz,
       u.y * lx + v.y * ly + w.y * lz,
       u.z * lx + v.z * ly + w.z * lz⟩
    let rest := sampleLoop env u v w k d2.2
    (world :: rest.1, rest.2)

/-- Function `generateCosineHemisphereRays`: the directions and the generator
state after the draws (the generator is passed by reference). -/
def generateCosineHemisphereRays (env : Platform R G) (numRays : Nat)
    (surfaceNormal : Vec3 R) (rng : G) : List (Vec3 R) × G :=
  if numRays = 0 then ([], rng)
  else
    let w := normalize env surfaceNormal
    let u :=
      if |w.x| > 0.9999 then normalize env (cross ⟨0, 1, 0⟩ w)
      else normalize env (cross ⟨1, 0, 0⟩ w)
    let v := cross w u
    sampleLoop env u v w numRays rng

/-- Result of the estimator (`struct ViewFactorResult`). -/
structure ViewFactorResult (R : Type) where
  viewFactors : List R
  allRayDirs : List (Vec3 R)
  hitPoints : List (Vec3 R)
  hitRayDirs : List (Vec3 R)

/-- Precomputed polygon record (`struct PolyData`). -/
structure PolyData (R : Type) where
  verts : List (Vec3 R)
  normal : Vec3 R
  point : Vec3 R
  valid : Bool

/-- One entry of `inertScene` / `emitScene`. -/
def mkPolyData (env : Platform R G) (poly : List (Vec3 R)) : PolyData R :=
  match getPolygonPlane env poly with
  | none => ⟨poly, ⟨0, 0, 0⟩, ⟨0, 0, 0⟩, false⟩
  | some pl => ⟨poly, pl.normal, pl.point, true⟩

/-- Body of the loop over inert polygons for one ray. -/
def inertStep (origin rdir : Vec3 R) (closestInert : WithTop R) (pd : PolyData R) : WithTop R :=
  if !pd.valid then closestInert
  else
    match rayPlaneIntersect origin rdir pd.normal pd.point with
    | (some hit, t) =>
      if t < closestInert then
        if isPointInPolygon3D hit pd.verts pd.normal then t else closestInert
      else closestInert
    | (none, _) => closestInert

/-- The loop over inert polygons for one ray, from `closestInert = +infinity`. -/
def inertLoop (origin rdir : Vec3 R) (inertScene : List (PolyData R)) : WithTop R :=
  inertScene.foldl (inertStep origin rdir) ⊤

/-- Variables `closestEmit`, `finalIdx`, `closestPoint` of the ray loop. -/
structure EmitState (R : Type) where
  closestEmit : WithTop R
  finalIdx : Option Nat
  closestPoint : Vec3 R

/-- Body of the loop over emitter polygons for one ray, at index `p`. -/
def emitStep (origin rdir : Vec3 R) (p : Nat) (st : EmitState R) (pd : PolyData R) :
    EmitState R :=
  if !pd.valid then st
  else
    match rayPlaneIntersect origin rdir pd.normal pd.point with
    | (some hit, t) =>
      if t < st.closestEmit then
        if isPointInPolygon3D hit pd.verts pd.normal then ⟨t, some p, hit⟩ else st
      else st
    | (none, _) => st

/-- The loop over emitter polygons for one ray, from index `p` on. -/
def emitLoop (origin rdir : Vec3 R) : List (PolyData R) → Nat → EmitState R → EmitState R
  | [], _, st => st
  | pd :: rest, p, st => emitLoop origin rdir rest (p + 1) (emitStep origin rdir p st pd)

/-- Accumulators of the ray loop: `hitCounts`, `res.hitPoints`, `res.hitRayDirs`. -/
structure RayAcc (R : Type) where
  hitCounts : List Nat
  hitPoints : List (Vec3 R)
  hitRayDirs : List (Vec3 R)

/-- Body of the loop over rays. -/
def rayStep (origin : Vec3 R) (inertScene emitScene : List (PolyData R))
    (acc : RayAcc R) (rdir : Vec3 R) : RayAcc R :=
  let closestInert := inertLoop origin rdir inertScene
  let st := emitLoop origin rdir emitScene 0 ⟨⊤, none, Vec3.zero⟩
  let blockedByInert : Bool := decide (closestInert < ⊤) && decide (closestInert ≤ st.closestEmit)
  match st.finalIdx with
  | some idx =>
    if !blockedByInert then
      ⟨acc.hitCounts.set idx (acc.hitCounts.getD idx 0 + 1),
       acc.hitPoints ++ [st.closestPoint], acc.hitRayDirs ++ [rdir]⟩
    else acc
  | none => acc

/-- Function `calculateViewFactorsWithBlockage`: the result and the generator
state after the call (the generator is passed by reference). -/
def calculateViewFactorsWithBlockage (env : Platform R G) (origin originNormal : Vec3 R)
    (emitterPolygons : List (PolygonWithTemp R)) (inertPolygons : List (List (Vec3 R)))
    (numRays : Nat) (rng : G) : ViewFactorResult R × G :=
  if numRays = 0 then
    (⟨List.replicate emitterPolygons.length 0, [], [], []⟩, rng)
  else
    let gen := generateCosineHemisphereRays env numRays originNormal rng
    let rays := gen.1
    let inertScene := inertPolygons.map (mkPolyData env)
    let emitScene := emitterPolygons.map (fun poly => mkPolyData env poly.vertices)
    let acc := rays.foldl (rayStep origin inertScene emitScene)
      ⟨List.replicate emitterPolygons.length 0, [], []⟩
    (⟨acc.hitCounts.map (fun (h : Nat) => (h : R) / (numRays : R)), rays, acc.hitPoints,
        acc.hitRayDirs⟩, gen.2)

end Kernel

section Spec
variable {R : Type} [LinearOrderedField R] {G : Type}

/-- Distance at which a ray hits a polygon record: the `rayPlaneIntersect`
distance when the record is valid and the hit point passes `isPointInPolygon3D`,
`+infinity` otherwise. -/
def hitDist (origin rdir : Vec3 R) (pd : PolyData R) : WithTop R :=
  if pd.valid then
    match rayPlaneIntersect origin rdir pd.normal pd.point with
    | (some hit, t) => if isPointInPolygon3D hit pd.verts pd.normal then t else ⊤
    | (none, _) => ⊤
  else ⊤

/-- Minimum of `hitDist` over a scene, `+infinity` for an empty scene. -/
def minDist (origin rdir : Vec3 R) (scene : List (PolyData R)) : WithTop R :=
  (scene.map (hitDist origin rdir)).foldr min ⊤

/-- First index at which a list of distances attains its minimum. -/
def firstArgmin (ds : List (WithTop R)) : Nat :=
  ds.findIdx (fun t => decide (t = ds.foldr min ⊤))

/-- The loop over emitters on the distances alone: closest distance and index. -/
def scanIdx : List (WithTop R) → Nat → WithTop R × Option Nat → WithTop R × Option Nat
  | [], _, s => s
  | t :: ts, p, s => scanIdx ts (p + 1) (if t < s.1 then (t, some p) else s)

/-- A ray (origin, direction) misses a polygon: `rayPlaneIntersect` finds no hit
on the polygon plane, or the hit point fails `isPointInPolygon3D` (a polygon
without a plane is never tested). -/
def rayMisses (env : Platform R G) (origin rdir : Vec3 R) (P : List (Vec3 R)) : Bool :=
  match getPolygonPlane env P with
  | none => true
  | some pl =>
    match (rayPlaneIntersect origin rdir pl.normal pl.point).1 with
    | none => true
    | some hit => !isPointInPolygon3D hit P pl.normal

/-- A degenerate polygon: fewer than three vertices, or the first three vertices
collinear (the cross product of the two edges from the first vertex is zero). -/
def degenerate (verts : List (Vec3 R)) : Bool :=
  decide (verts.length < 3) ||
    decide (cross ((verts.getD 1 Vec3.zero).sub (verts.getD 0 Vec3.zero))
      ((verts.getD 2 Vec3.zero).sub (verts.getD 0 Vec3.zero)) = ⟨0, 0, 0⟩)

/-- Index in `l` of the element that `l.filter keep` has at index `j`; indices
past the end of the filtered list go past the end of `l`. -/
def origIdx {α : Type} (keep : α → Bool) : List α → Nat → Nat
  | [], j => j
  | a :: l, j =>
    if keep a then
      match j with
      | 0 => 0
      | k + 1 => origIdx keep l k + 1
    else origIdx keep l j + 1

/-- The emitter index a ray is counted for, from the occluder distance `tOcc`
and the list of emitter hit distances: the first index attaining the minimum
when the minimum is below `tOcc`. -/
def winner (tOcc : WithTop R) (ds : List (WithTop R)) : Option Nat :=
  if ds.foldr min ⊤ < tOcc then some (firstArgmin ds) else none

/-- The emitter index whose counter a ray increments, `none` when the ray is
discarded (the condition of `rayStep`). -/
def rayOutcome (origin : Vec3 R) (inertScene emitScene : List (PolyData R)) (rdir : Vec3 R) :
    Option Nat :=
  let closestInert := inertLoop origin rdir inertScene
  let st := emitLoop origin rdir emitScene 0 ⟨⊤, none, Vec3.zero⟩
  let blockedByInert : Bool := decide (closestInert < ⊤) && decide (closestInert ≤ st.closestEmit)
  if !blockedByInert then st.finalIdx else none

/-- The update `hitCounts[idx] += 1` for a counted ray, nothing otherwise. -/
def bump (hc : List Nat) (o : Option Nat) : List Nat :=
  match o with
  | some idx => hc.set idx (hc.getD idx 0 + 1)
  | none => hc

end Spec

section Parser
variable {R : Type} [LinearOrderedField R] {G : Type}

/-- Result of a parsing routine run with a bound on loop iterations: the value
on `return true`, `fail` on `return false`, `outOfFuel` when a loop has not
finished within the bound. -/
inductive Run (α : Type) where
  | ok (a : α)
  | fail
  | outOfFuel
deriving DecidableEq, Repr

/-- Test `i < s.size() && s[i] == c`. -/
def charAt (s : List Char) (i : Nat) (c : Char) : Bool := decide (s[i]? = some c)

/-- Characters skipped by `skipSpaces`. -/
def isBlank (c : Char) : Bool := c = ' ' || c = '\n' || c = '\r' || c = '\t'

/-- Function `mini_json::skipSpaces`: the index after the blanks at `i`. -/
def skipSpaces (s : List Char) (i : Nat) : Nat :=
  i + ((s.drop i).takeWhile isBlank).length

/-- Function `mini_json::expectChar`: the result and the index afterwards. -/
def expectChar (s : List Char) (i : Nat) (c : Char) : Bool × Nat :=
  let i1 := skipSpaces s i
  if charAt s i1 c then (true, i1 + 1) else (false, i1)

/-- Function `mini_json::parseNumber`; `none` on `return false`. -/
def parseNumber (env : Platform R G) (s : List Char) (i : Nat) : Option (R × Nat) :=
  let i1 := skipSpaces s i
  match env.strtod (s.drop i1) with
  | none => none
  | some (v, len) => some (v, i1 + len)

/-- Function `mini_json::parseUInt64`; `none` on `return false`. -/
def parseUInt64 (env : Platform R G) (s : List Char) (i : Nat) : Option (Nat × Nat) :=
  let i1 := skipSpaces s i
  match env.strtoull (s.drop i1) with
  | none => none
  | some (v, len) => some (v % 2 ^ 64, i1 + len)

/-- Function `mini_json::parseKey`: whether the key at `i` is `key`, and the
index afterwards (callers restore the index on `false`). -/
def parseKey (s : List Char) (i : Nat) (key : String) : Bool × Nat :=
  let i0 := skipSpaces s i
  match expectChar s i0 '"' with
  | (false, i1) => (false, i1)
  | (true, i1) =>
    let k := i1 + ((s.drop i1).takeWhile (fun c => c != '"')).length
    if k ≥ s.length then (false, i1)
    else
      let found := (s.drop i1).take (k - i1)
      let i2 := skipSpaces s (k + 1)
      match expectChar s i2 ':' with
      | (false, i3) => (false, i3)
      | (true, i3) => (decide (found = key.toList), i3)

/-- Function `mini_json::parseVec3`; `none` on `return false`. -/
def parseVec3 (env : Platform R G) (s : List Char) (i : Nat) : Option (Vec3 R × Nat) :=
  match expectChar s i '[' with
  | (false, _) => none
  | (true, i1) =>
    match parseNumber env s i1 with
    | none => none
    | some (a, i2) =>
      match expectChar s i2 ',' with
      | (false, _) => none
      | (true, i3) =>
        match parseNumber env s i3 with
        | none => none
        | some (b, i4) =>
          match expectChar s i4 ',' with
          | (false, _) => none
          | (true, i5) =>
            match parseNumber env s i5 with
            | none => none
            | some (c, i6) =>
              match expectChar s i6 ']' with
              | (false, _) => none
              | (true, i7) => some (⟨a, b, c⟩, i7)

/-- The vertex loop `while (i < s.size())` shared by `parsePolygons` (inner
loop) and `parseSinglePolygon`: vertices are appended to `poly`. -/
def vertexLoop (env : Platform R G) (s : List Char) :
    Nat → Nat → List (Vec3 R) → Run (List (Vec3 R) × Nat)
  | 0, _, _ => Run.outOfFuel
  | fuel + 1, i, poly =>
    if i < s.length then
      match parseVec3 env s i with
      | none => Run.fail
      | some (v, i1) =>
        let i2 := skipSpaces s i1
        if charAt s i2 ',' then vertexLoop env s fuel (i2 + 1) (poly ++ [v])
        else if charAt s i2 ']' then Run.ok (poly ++ [v], i2 + 1)
        else Run.fail
    else Run.ok (poly, i)

/-- The outer loop of `mini_json::parsePolygons`. -/
def polygonsLoop (env : Platform R G) (s : List Char) :
    Nat → Nat → List (List (Vec3 R)) → Run (List (List (Vec3 R)) × Nat)
  | 0, _, _ => Run.outOfFuel
  | fuel + 1, i, polys =>
    if i < s.length then
      match expectChar s i '[' with
      | (false, _) => Run.fail
      | (true, i1) =>
        let i2 := skipSpaces s i1
        let inner : Run (List (Vec3 R) × Nat) :=
          if charAt s i2 ']' then Run.ok ([], i2 + 1) else vertexLoop env s fuel i2 []
        match inner with
        | Run.fail => Run.fail
        | Run.outOfFuel => Run.outOfFuel
        | Run.ok (poly, i3) =>
          let i4 := skipSpaces s i3
          if charAt s i4 ',' then polygonsLoop env s fuel (i4 + 1) (polys ++ [poly])
          else if charAt s i4 ']' then Run.ok (polys ++ [poly], i4 + 1)
          else Run.fail
    else Run.ok (polys, i)

/-- Function `mini_json::parsePolygons`: polygons are appended to `polys`. -/
def parsePolygons (env : Platform R G) (s : List Char) (fuel : Nat) (i : Nat)
    (polys : List (List (Vec3 R))) : Run (List (List (Vec3 R)) × Nat) :=
  match expectChar s i '[' with
  | (false, _) => Run.fail
  | (true, i1) =>
    let i2 := skipSpaces s i1
    if charAt s i2 ']' then Run.ok (polys, i2 + 1)
    else polygonsLoop env s fuel i2 polys

/-- Loop state of `parseReceiverPoint`: index, `rp`, `haveOrigin`, `haveNormal`. -/
structure PointState (R : Type) where
  i : Nat
  rp : ReceiverPoint R
  haveOrigin : Bool
  haveNormal : Bool

/-- The key loop of `mini_json::parseReceiverPoint`. -/
def receiverPointLoop (env : Platform R G) (s : List Char) :
    Nat → PointState R → Run (PointState R)
  | 0, _ => Run.outOfFuel
  | fuel + 1, st =>
    if st.i < s.length then
      let i0 := skipSpaces s st.i
      if charAt s i0 '}' then Run.ok { st with i := i0 + 1 }
      else
        let r1 : Option (PointState R) :=
          match parseKey s i0 "origin" with
          | (true, i1) =>
            match parseVec3 env s i1 with
            | none => none
            | some (v, i2) => some { st with i := i2, rp := { st.rp with origin := v }, haveOrigin := true }
          | (false, _) => some { st with i := i0 }
        match r1 with
        | none => Run.fail
        | some st1 =>
          let r2 : Option (PointState R) :=
            match parseKey s st1.i "normal" with
            | (true, i1) =>
              match parseVec3 env s i1 with
              | none => none
              | some (v, i2) => some { st1 with i := i2, rp := { st1.rp with normal := v }, haveNormal := true }
            | (false, _) => some st1
          match r2 with
          | none => Run.fail
          | some st2 =>
            let i3 := skipSpaces s st2.i
            if charAt s i3 ',' then receiverPointLoop env s fuel { st2 with i := i3 + 1 }
            else receiverPointLoop env s fuel { st2 with i := i3 }
    else Run.ok st

/-- Function `mini_json::parseReceiverPoint`. -/
def parseReceiverPoint (env : Platform R G) (s : List Char) (fuel : Nat) (i : Nat) :
    Run (ReceiverPoint R × Nat) :=
  match expectChar s i '{' with
  | (false, _) => Run.fail
  | (true, i1) =>
    match receiverPointLoop env s fuel ⟨i1, ⟨Vec3.zero, Vec3.zero⟩, false, false⟩ with
    | Run.fail => Run.fail
    | Run.outOfFuel => Run.outOfFuel
    | Run.ok st => if st.haveOrigin && st.haveNormal then Run.ok (st.rp, st.i) else Run.fail

/-- The element loop of `mini_json::parseReceiverPoints`. -/
def receiverPointsLoop (env : Platform R G) (s : List Char) :
    Nat → Nat → List (ReceiverPoint R) → Run (List (ReceiverPoint R) × Nat)
  | 0, _, _ => Run.outOfFuel
  | fuel + 1, i, points =>
    if i < s.length then
      match parseReceiverPoint env s fuel i with
      | Run.fail => Run.fail
      | Run.outOfFuel => Run.outOfFuel
      | Run.ok (rp, i1) =>
        let i2 := skipSpaces s i1
        if charAt s i2 ',' then receiverPointsLoop env s fuel (i2 + 1) (points ++ [rp])
        else if charAt s i2 ']' then Run.ok (points ++ [rp], i2 + 1)
        else Run.fail
    else Run.ok (points, i)

/-- Function `mini_json::parseReceiverPoints`: points are appended to `points`. -/
def parseReceiverPoints (env : Platform R G) (s : List Char) (fuel : Nat) (i : Nat)
    (points : List (ReceiverPoint R)) : Run (List (ReceiverPoint R) × Nat) :=
  match expectChar s i '[' with
  | (false, _) => Run.fail
  | (true, i1) =>
    let i2 := skipSpaces s i1
    if charAt s i2 ']' then Run.ok (points, i2 + 1)
    else receiverPointsLoop env s fuel i2 points

/-- Loop state of `parseReceiverPlaneData`: index, `width`, `height`, `points`. -/
structure PlaneState (R : Type) where
  i : Nat
  width : R
  height : R
  points : List (ReceiverPoint R)

/-- The key loop of `mini_json::parseReceiverPlaneData`. -/
def planeDataLoop (env : Platform R G) (s : List Char) :
    Nat → PlaneState R → Run (PlaneState R)
  | 0, _ => Run.outOfFuel
  | fuel + 1, st =>
    if st.i < s.length then
      let i0 := skipSpaces s st.i
      if charAt s i0 '}' then Run.ok { st with i := i0 + 1 }
      else
        let r1 : Option (PlaneState R) :=
          match parseKey s i0 "width" with
          | (true, i1) =>
            match parseNumber env s i1 with
            | none => none
            | some (w, i2) => some { st with i := i2, width := w }
          | (false, _) => some { st with i := i0 }
        match r1 with
        | none => Run.fail
        | some st1 =>
          let r2 : Option (PlaneState R) :=
            match parseKey s st1.i "height" with
            | (true, i1) =>
              match parseNumber env s i1 with
              | none => none
              | some (h, i2) => some { st1 with i := i2, height := h }
            | (false, _) => some st1
          match r2 with
          | none => Run.fail
          | some st2 =>
            let r3 : Run (PlaneState R) :=
              match parseKey s st2.i "points" with
              | (true, i1) =>
                match parseReceiverPoints env s fuel i1 st2.points with
                | Run.fail => Run.fail
                | Run.outOfFuel => Run.outOfFuel
                | Run.ok (pts, i2) => Run.ok { st2 with i := i2, points := pts }
              | (false, _) => Run.ok st2
            match r3 with
            | Run.fail => Run.fail
            | Run.outOfFuel => Run.outOfFuel
            | Run.ok st3 =>
              let i4 := skipSpaces s st3.i
              if charAt s i4 ',' then planeDataLoop env s fuel { st3 with i := i4 + 1 }
              else planeDataLoop env s fuel { st3 with i := i4 }
    else Run.ok st

/-- Function `mini_json::parseReceiverPlaneData`, called with `width = 0`,
`height = 0` and an empty `points`. -/
def parseReceiverPlaneData (env : Platform R G) (s : List Char) (fuel : Nat) (i : Nat)
    (st0 : PlaneState R) : Run (PlaneState R) :=
  match expectChar s i '{' with
  | (false, _) => Run.fail
  | (true, i1) =>
    let i2 := skipSpaces s i1
    if charAt s i2 '}' then Run.ok { st0 with i := i2 + 1 }
    else planeDataLoop env s fuel { st0 with i := i2 }

/-- Assignment `planeMap[name] = pd` on a `std::map<std::string, PlaneData>`,
kept as a list sorted by key. -/
def mapAssign (m : List (String × PlaneData)) (name : String) (pd : PlaneData) :
    List (String × PlaneData) :=
  match m with
  | [] => [(name, pd)]
  | (k, v) :: rest =>
    if name < k then (name, pd) :: (k, v) :: rest
    else if name = k then (name, pd) :: rest
    else (k, v) :: mapAssign rest name pd

/-- Loop state of `parseReceiverPlanesMulti`: index, `planeMap`, `allPoints`. -/
structure PlanesState (R : Type) where
  i : Nat
  planeMap : List (String × PlaneData)
  allPoints : List (ReceiverPoint R)

/-- The loop of `mini_json::parseReceiverPlanesMulti`. -/
def planesLoop (env : Platform R G) (s : List Char) :
    Nat → PlanesState R → Run (PlanesState R)
  | 0, _ => Run.outOfFuel
  | fuel + 1, st =>
    if st.i < s.length then
      let i0 := skipSpaces s st.i
      if charAt s i0 '}' then Run.ok { st with i := i0 + 1 }
      else
        match expectChar s i0 '"' with
        | (false, _) => Run.fail
        | (true, nameStart) =>
          let k := nameStart + ((s.drop nameStart).takeWhile (fun c => c != '"')).length
          if k ≥ s.length then Run.fail
          else
            let planeName := String.mk ((s.drop nameStart).take (k - nameStart))
            let i1 := skipSpaces s (k + 1)
            match expectChar s i1 ':' with
            | (false, _) => Run.fail
            | (true, i2) =>
              match parseReceiverPlaneData env s fuel i2 ⟨i2, 0, 0, []⟩ with
              | Run.fail => Run.fail
              | Run.outOfFuel => Run.outOfFuel
              | Run.ok pst =>
                let pd : PlaneData :=
                  ⟨env.toSize pst.width, env.toSize pst.height, pst.points.length⟩
                let i3 := skipSpaces s pst.i
                let st1 : PlanesState R :=
                  ⟨i3, mapAssign st.planeMap planeName pd, st.allPoints ++ pst.points⟩
                if charAt s i3 ',' then planesLoop env s fuel { st1 with i := i3 + 1 }
                else planesLoop env s fuel st1
    else Run.ok st

/-- Function `mini_json::parseReceiverPlanesMulti`. -/
def parseReceiverPlanesMulti (env : Platform R G) (s : List Char) (fuel : Nat)
    (st0 : PlanesState R) : Run (PlanesState R) :=
  match expectChar s st0.i '{' with
  | (false, _) => Run.fail
  | (true, i1) =>
    let i2 := skipSpaces s i1
    if charAt s i2 '}' then Run.ok { st0 with i := i2 + 1 }
    else planesLoop env s fuel { st0 with i := i2 }

/-- Function `mini_json::parseSinglePolygon`: vertices are appended. -/
def parseSinglePolygon (env : Platform R G) (s : List Char) (fuel : Nat) (i : Nat)
    (vertices : List (Vec3 R)) : Run (List (Vec3 R) × Nat) :=
  match expectChar s i '[' with
  | (false, _) => Run.fail
  | (true, i1) =>
    let i2 := skipSpaces s i1
    if charAt s i2 ']' then Run.ok (vertices, i2 + 1)
    else vertexLoop env s fuel i2 vertices

/-- Loop state of `parsePolygonWithTemp`: index, `poly`, `havePolygon`,
`haveTemperature`. -/
structure PolyState (R : Type) where
  i : Nat
  poly : PolygonWithTemp R
  havePolygon : Bool
  haveTemperature : Bool

/-- The key loop of `mini_json::parsePolygonWithTemp`. -/
def polygonWithTempLoop (env : Platform R G) (s : List Char) :
    Nat → PolyState R → Run (PolyState R)
  | 0, _ => Run.outOfFuel
  | fuel + 1, st =>
    if st.i < s.length then
      let i0 := skipSpaces s st.i
      if charAt s i0 '}' then Run.ok { st with i := i0 + 1 }
      else
        let r1 : Run (PolyState R) :=
          match parseKey s i0 "polygon" with
          | (true, i1) =>
            match parseSinglePolygon env s fuel i1 st.poly.vertices with
            | Run.fail => Run.fail
            | Run.outOfFuel => Run.outOfFuel
            | Run.ok (vs, i2) =>
              Run.ok { st with i := i2, poly := { st.poly with vertices := vs }, havePolygon := true }
          | (false, _) => Run.ok { st with i := i0 }
        match r1 with
        | Run.fail => Run.fail
        | Run.outOfFuel => Run.outOfFuel
        | Run.ok st1 =>
          let r2 : Option (PolyState R) :=
            match parseKey s st1.i "temperature" with
            | (true, i1) =>
              match parseNumber env s i1 with
              | none => none
              | some (t, i2) =>
                some { st1 with i := i2, poly := { st1.poly with temperature := t },
                                haveTemperature := true }
            | (false, _) => some st1
          match r2 with
          | none => Run.fail
          | some st2 =>
            let i3 := skipSpaces s st2.i
            if charAt s i3 ',' then polygonWithTempLoop env s fuel { st2 with i := i3 + 1 }
            else polygonWithTempLoop env s fuel { st2 with i := i3 }
    else Run.ok st

/-- Function `mini_json::parsePolygonWithTemp` (the temperature of a fresh
`PolygonWithTemp` is read only after it has been assigned). -/
def parsePolygonWithTemp (env : Platform R G) (s : List Char) (fuel : Nat) (i : Nat) :
    Run (PolygonWithTemp R × Nat) :=
  match expectChar s i '{' with
  | (false, _) => Run.fail
  | (true, i1) =>
    match polygonWithTempLoop env s fuel ⟨i1, ⟨[], 0⟩, false, false⟩ with
    | Run.fail => Run.fail
    | Run.outOfFuel => Run.outOfFuel
    | Run.ok st =>
      if st.havePolygon && st.haveTemperature then Run.ok (st.poly, st.i) else Run.fail

/-- The element loop of `mini_json::parsePolygonsWithTemp`. -/
def polygonsWithTempLoop (env : Platform R G) (s : List Char) :
    Nat → Nat → List (PolygonWithTemp R) → Run (List (PolygonWithTemp R) × Nat)
  | 0, _, _ => Run.outOfFuel
  | fuel + 1, i, polys =>
    if i < s.length then
      match parsePolygonWithTemp env s fuel i with
      | Run.fail => Run.fail
      | Run.outOfFuel => Run.outOfFuel
      | Run.ok (poly, i1) =>
        let i2 := skipSpaces s i1
        if charAt s i2 ',' then polygonsWithTempLoop env s fuel (i2 + 1) (polys ++ [poly])
        else if charAt s i2 ']' then Run.ok (polys ++ [poly], i2 + 1)
        else Run.fail
    else Run.ok (polys, i)

/-- Function `mini_json::parsePolygonsWithTemp`: emitters are appended. -/
def parsePolygonsWithTemp (env : Platform R G) (s : List Char) (fuel : Nat) (i : Nat)
    (polys : List (PolygonWithTemp R)) : Run (List (PolygonWithTemp R) × Nat) :=
  match expectChar s i '[' with
  | (false, _) => Run.fail
  | (true, i1) =>
    let i2 := skipSpaces s i1
    if charAt s i2 ']' then Run.ok (polys, i2 + 1)
    else polygonsWithTempLoop env s fuel i2 polys

end Parser

section Driver
variable {R : Type} [LinearOrderedField R] {G : Type}

/-- Parsed request (`struct JsonInput`); `planeDataMap` is the
`std::map<std::string, PlaneData>` as a list sorted by key. -/
structure JsonInput (R : Type) where
  receiverPoints : List (ReceiverPoint R)
  polygons : List (PolygonWithTemp R)
  inertPolygons : List (List (Vec3 R))
  numRays : Nat
  seed : Option Nat
  planeDataMap : List (String × PlaneData)
deriving DecidableEq, Repr

/-- A default-constructed `JsonInput`: `numRays` is 100000, no seed. -/
def JsonInput.init : JsonInput R := ⟨[], [], [], 100000, none, []⟩

/-- Result of `parseInputJson` run with a bound on loop iterations: the value on
`return true`, the message on `return false`, `outOfFuel` when a loop has not
finished within the bound. -/
inductive Parsed (α : Type) where
  | ok (a : α)
  | error (msg : String)
  | outOfFuel
deriving DecidableEq, Repr

/-- Sequencing of the key blocks of `parseInputJson`. -/
def Parsed.andThen {α β : Type} (r : Parsed α) (f : α → Parsed β) : Parsed β :=
  match r with
  | Parsed.ok a => f a
  | Parsed.error msg => Parsed.error msg
  | Parsed.outOfFuel => Parsed.outOfFuel

/-- Loop state of `parseInputJson`: index, `out`, `haveReceiverPlanes`,
`havePolygons`. -/
structure InputState (R : Type) where
  i : Nat
  out : JsonInput R
  haveReceiverPlanes : Bool
  havePolygons : Bool
deriving DecidableEq, Repr

/-- Block of `parseInputJson` for the key `receiver_planes`. -/
def keyReceiverPlanes (env : Platform R G) (s : List Char) (fuel : Nat) (st : InputState R) :
    Parsed (InputState R) :=
  match parseKey s st.i "receiver_planes" with
  | (true, i1) =>
    match parseReceiverPlanesMulti env s fuel ⟨i1, st.out.planeDataMap, st.out.receiverPoints⟩ with
    | Run.fail => Parsed.error "Invalid receiver_planes"
    | Run.outOfFuel => Parsed.outOfFuel
    | Run.ok ps =>
      Parsed.ok { st with i := ps.i,
                          out := { st.out with planeDataMap := ps.planeMap,
                                               receiverPoints := ps.allPoints },
                          haveReceiverPlanes := true }
  | (false, _) => Parsed.ok st

/-- Block of `parseInputJson` for the key `polygons`: emitters with temperature,
or else the legacy array of bare polygons with temperature 0. -/
def keyPolygons (env : Platform R G) (s : List Char) (fuel : Nat) (st : InputState R) :
    Parsed (InputState R) :=
  match parseKey s st.i "polygons" with
  | (true, savePos) =>
    match parsePolygonsWithTemp env s fuel savePos st.out.polygons with
    | Run.ok (polys, i1) =>
      Parsed.ok { st with i := i1, out := { st.out with polygons := polys }, havePolygons := true }
    | Run.outOfFuel => Parsed.outOfFuel
    | Run.fail =>
      match parsePolygons env s fuel savePos [] with
      | Run.ok (legacyPolygons, i1) =>
        Parsed.ok { st with i := i1,
                            out := { st.out with
                              polygons := legacyPolygons.map (fun poly => ⟨poly, 0⟩) },
                            havePolygons := true }
      | Run.outOfFuel => Parsed.outOfFuel
      | Run.fail => Parsed.error "Invalid polygons format"
  | (false, _) => Parsed.ok st

/-- Block of `parseInputJson` for the key `inert_polygons`. -/
def keyInertPolygons (env : Platform R G) (s : List Char) (fuel : Nat) (st : InputState R) :
    Parsed (InputState R) :=
  match parseKey s st.i "inert_polygons" with
  | (true, i1) =>
    match parsePolygons env s fuel i1 [] with
    | Run.ok (tmp, i2) => Parsed.ok { st with i := i2, out := { st.out with inertPolygons := tmp } }
    | Run.outOfFuel => Parsed.outOfFuel
    | Run.fail => Parsed.error "Invalid inert_polygons"
  | (false, _) => Parsed.ok st

/-- Block of `parseInputJson` for the key `num_rays`: negative values become 0. -/
def keyNumRays (env : Platform R G) (s : List Char) (st : InputState R) :
    Parsed (InputState R) :=
  match parseKey s st.i "num_rays" with
  | (true, i1) =>
    match parseNumber env s i1 with
    | none => Parsed.error "Invalid num_rays"
    | some (n, i2) =>
      Parsed.ok { st with i := i2,
                          out := { st.out with numRays := env.toSize (if n < 0 then 0 else n) } }
  | (false, _) => Parsed.ok st

/-- Block of `parseInputJson` for the key `seed`. -/
def keySeed (env : Platform R G) (s : List Char) (st : InputState R) :
    Parsed (InputState R) :=
  match parseKey s st.i "seed" with
  | (true, i1) =>
    match parseUInt64 env s i1 with
    | none => Parsed.error "Invalid seed"
    | some (v, i2) => Parsed.ok { st with i := i2, out := { st.out with seed := some v } }
  | (false, _) => Parsed.ok st

/-- The key loop of `parseInputJson`. -/
def inputLoop (env : Platform R G) (s : List Char) :
    Nat → InputState R → Parsed (InputState R)
  | 0, _ => Parsed.outOfFuel
  | fuel + 1, st =>
    if st.i < s.length then
      let i0 := skipSpaces s st.i
      if charAt s i0 '}' then Parsed.ok { st with i := i0 + 1 }
      else
        (keyReceiverPlanes env s fuel { st with i := i0 }).andThen fun st1 =>
        (keyPolygons env s fuel st1).andThen fun st2 =>
        (keyInertPolygons env s fuel st2).andThen fun st3 =>
        (keyNumRays env s st3).andThen fun st4 =>
        (keySeed env s st4).andThen fun st5 =>
          let i6 := skipSpaces s st5.i
          if charAt s i6 ',' then inputLoop env s fuel { st5 with i := i6 + 1 }
          else inputLoop env s fuel { st5 with i := i6 }
    else Parsed.ok st

/-- Function `parseInputJson`, with at most `fuel` iterations of every loop. -/
def parseInputJson (env : Platform R G) (fuel : Nat) (json : String) : Parsed (JsonInput R) :=
  let s := json.toList
  match expectChar s (skipSpaces s 0) '{' with
  | (false, _) => Parsed.error "Expected '\x7b'"
  | (true, i1) =>
    (inputLoop env s fuel ⟨i1, JsonInput.init, false, false⟩).andThen fun st =>
      if !st.haveReceiverPlanes then Parsed.error "Must provide 'receiver_planes' field"
      else if st.out.receiverPoints.isEmpty then Parsed.error "receiver_planes is empty"
      else if !st.havePolygons then Parsed.error "Missing polygons"
      else Parsed.ok st.out

/-- Accumulation loop of `runCalculation`:
`totalTemperature += res.viewFactors[p] * in.polygons[p].temperature`. -/
def totalTemperature (viewFactors : List R) (polygons : List (PolygonWithTemp R)) : R :=
  (List.range polygons.length).foldl
    (fun acc p => acc + viewFactors.getD p 0 * (polygons.getD p ⟨[], 0⟩).temperature) 0

/-- The value `in.seed.value() + globalPointIdx * 12345` in 64-bit unsigned
arithmetic. -/
def pointSeed (s globalPointIdx : Nat) : Nat :=
  (s + (globalPointIdx * 12345) % 2 ^ 64) % 2 ^ 64

/-- The generator `pointRng`: a copy of `rng`, reseeded when a seed is given. -/
def pointRng (env : Platform R G) (inp : JsonInput R) (rng : G) (globalPointIdx : Nat) : G :=
  match inp.seed with
  | some s => env.seed (pointSeed s globalPointIdx)
  | none => rng

/-- Body of the point loop of `runCalculation`: the temperature of the receiver
point at `globalPointIdx`. -/
def pointTemperature (env : Platform R G) (inp : JsonInput R) (rng : G)
    (globalPointIdx : Nat) : R :=
  let receiverPoint := inp.receiverPoints.getD globalPointIdx ⟨Vec3.zero, Vec3.zero⟩
  let res := (calculateViewFactorsWithBlockage env receiverPoint.origin receiverPoint.normal
    inp.polygons inp.inertPolygons inp.numRays (pointRng env inp rng globalPointIdx)).1
  totalTemperature res.viewFactors inp.polygons

/-- The point loop of `runCalculation` for one plane, with `k` iterations left:
`planeTemperatures` and `globalPointIdx`; the loop breaks when the cursor
reaches the end of `receiverPoints`. -/
def pointLoop (env : Platform R G) (inp : JsonInput R) (rng : G) :
    Nat → List R → Nat → List R × Nat
  | 0, planeTemperatures, globalPointIdx => (planeTemperatures, globalPointIdx)
  | k + 1, planeTemperatures, globalPointIdx =>
    if globalPointIdx ≥ inp.receiverPoints.length then (planeTemperatures, globalPointIdx)
    else
      pointLoop env inp rng k
        (planeTemperatures ++ [pointTemperature env inp rng globalPointIdx]) (globalPointIdx + 1)

/-- The plane loop of `runCalculation` over the map in key order: name, metadata
and `planeTemperatures` of every plane. -/
def planeLoop (env : Platform R G) (inp : JsonInput R) (rng : G) :
    List (String × PlaneData) → Nat → List (String × PlaneData × List R)
  | [], _ => []
  | (planeName, planeData) :: rest, globalPointIdx =>
    let r := pointLoop env inp rng planeData.numPoints [] globalPointIdx
    (planeName, planeData, r.1) :: planeLoop env inp rng rest r.2

/-- Text written to `out` for one plane. -/
def planeObject (env : Platform R G) (p : String × PlaneData × List R) : String :=
  "\x7b" ++ "\"name\":\"" ++ p.1 ++ "\"," ++ "\"width\":" ++ toString p.2.1.width ++ ","
    ++ "\"height\":" ++ toString p.2.1.height ++ "," ++ "\"values\":["
    ++ ",".intercalate (p.2.2.map env.showDouble) ++ "]" ++ "\x7d"

/-- The generator `rng` of `runCalculation`: seeded with the seed of the request,
or else from six draws `rd 0 .. rd 5` of `std::random_device`. -/
def initialRng (env : Platform R G) (inp : JsonInput R) (rd : Nat → Nat) : G :=
  match inp.seed with
  | some s => env.seed s
  | none => env.seedSeq [rd 0, rd 1, rd 2, rd 3, rd 4, rd 5]

/-- Temperature of the receiver point at cursor `g` when the estimator runs with a
generator freshly seeded with `(s + 12345 * g) mod 2^64`. -/
def seededTemperature (env : Platform R G) (inp : JsonInput R) (s g : Nat) : R :=
  let pt := inp.receiverPoints.getD g ⟨Vec3.zero, Vec3.zero⟩
  totalTemperature
    (calculateViewFactorsWithBlockage env pt.origin pt.normal inp.polygons inp.inertPolygons
      inp.numRays (env.seed ((s + 12345 * g) % 2 ^ 64))).1.viewFactors
    inp.polygons

/-- Function `runCalculation`: the returned text and the flag `ok`, `none` when
parsing has not finished within `fuel` loop iterations. `rd` lists the values of
`std::random_device`. Planes are separated by commas. -/
def runCalculation (env : Platform R G) (fuel : Nat) (jsonInput : String) (rd : Nat → Nat) :
    Option (String × Bool) :=
  match parseInputJson env fuel jsonInput with
  | Parsed.outOfFuel => none
  | Parsed.error err => some ("\x7b\"error\": \"" ++ err ++ "\"\x7d", false)
  | Parsed.ok inp =>
    let rng := initialRng env inp rd
    let planes := planeLoop env inp rng inp.planeDataMap 0
    some ("\x7b" ++ "\"success\":true," ++ "\"planes\":["
      ++ ",".intercalate (planes.map (planeObject env)) ++ "]" ++ "\x7d", true)

end Driver

section TestPlatform

/-- Integer square root on 128-bit inputs, by binary digits. -/
def natRoot (n : Nat) : Nat :=
  (List.range 64).foldl
    (fun r i => if (r + 2 ^ (63 - i)) * (r + 2 ^ (63 - i)) ≤ n then r + 2 ^ (63 - i) else r) 0

/-- A square root on rationals that is exact on squares of rationals. -/
def qSqrt (q : ℚ) : ℚ := (natRoot q.num.toNat : ℚ) / (natRoot q.den : ℚ)

/-- Value of a string of decimal digits. -/
def digitsValue (ds : List Char) : Nat := ds.foldl (fun a c => 10 * a + (c.toNat - 48)) 0

/-- A `strtod` for plain decimals: optional minus sign, digits, optional
fraction. -/
def qStrtod (cs : List Char) : Option (ℚ × Nat) :=
  let neg : Bool := decide (cs.head? = some '-')
  let body := if neg then cs.tail else cs
  let ip := body.takeWhile Char.isDigit
  if ip.isEmpty then none
  else
    let rest := body.drop ip.length
    let fp := if rest.head? = some '.' then rest.tail.takeWhile Char.isDigit else []
    let used := (if neg then 1 else 0) + ip.length + (if fp.isEmpty then 0 else 1 + fp.length)
    let v : ℚ := (digitsValue (ip ++ fp) : ℚ) / (10 ^ fp.length : ℚ)
    some (if neg then -v else v, used)

/-- A `strtoull` for plain decimal digits. -/
def qStrtoull (cs : List Char) : Option (Nat × Nat) :=
  let ip := cs.takeWhile Char.isDigit
  if ip.isEmpty then none else some (min (digitsValue ip) (2 ^ 64 - 1), ip.length)

/-- Decimal text of an integer, a fraction for other rationals. -/
def qShow (q : ℚ) : String :=
  if q.den = 1 then toString q.num else toString q.num ++ "/" ++ toString q.den

/-- A concrete platform over the rationals: exact square roots of squares,
`cos 0 = 1`, `sin 0 = 0`, and a generator whose state is the list of the draws
still to come (0 when exhausted); seeding with `n` gives the draws
`(n mod 4) / 4, 0, 0, ...`. -/
def testPlatform : Platform ℚ (List ℚ) where
  sqrt := qSqrt
  cos := fun x => 1 - x * x / 2
  sin := fun x => x
  uniform := fun g => (g.headD 0, g.tail)
  seed := fun n => [((n % 4 : Nat) : ℚ) / 4]
  seedSeq := fun l => l.map (fun n => ((n % 4 : Nat) : ℚ) / 4)
  strtod := qStrtod
  strtoull := qStrtoull
  toSize := fun q => q.floor.toNat
  showDouble := qShow

end TestPlatform

section Scenes

/-- A square of half-width `10^9` at height `z`, facing the `z` axis. -/
def bigSquare (z : ℚ) : List (Vec3 ℚ) :=
  [⟨-1000000000, -1000000000, z⟩, ⟨1000000000, -1000000000, z⟩,
   ⟨1000000000, 1000000000, z⟩, ⟨-1000000000, 1000000000, z⟩]

/-- A request declaring plane `b` (one point facing the emitter) before plane
`a` (one point facing away), one emitter of temperature 1000, one ray, seed 42. -/
def requestTwoPlanes : String :=
  "\x7b\"receiver_planes\":\x7b\"b\":\x7b\"width\":1,\"height\":1,\"points\":[\x7b\"origin\":[0,0,0],\"normal\":[0,0,1]\x7d]\x7d,\"a\":\x7b\"width\":1,\"height\":1,\"points\":[\x7b\"origin\":[0,0,0],\"normal\":[0,0,-1]\x7d]\x7d\x7d,\"polygons\":[\x7b\"polygon\":[[-1000000000,-1000000000,1],[1000000000,-1000000000,1],[1000000000,1000000000,1],[-1000000000,1000000000,1]],\"temperature\":1000\x7d],\"num_rays\":1,\"seed\":42\x7d"

/-- The scene `parseInputJson` reads from `requestTwoPlanes`. -/
def parsedTwoPlanes : JsonInput ℚ :=
  { receiverPoints := [⟨⟨0, 0, 0⟩, ⟨0, 0, 1⟩⟩, ⟨⟨0, 0, 0⟩, ⟨0, 0, -1⟩⟩]
    polygons := [⟨bigSquare 1, 1000⟩]
    inertPolygons := []
    numRays := 1
    seed := some 42
    planeDataMap := [("a", ⟨1, 1, 1⟩), ("b", ⟨1, 1, 1⟩)] }

/-- Two coincident emitters with different temperatures. -/
def twinEmitters : List (PolygonWithTemp ℚ) := [⟨bigSquare 1, 100⟩, ⟨bigSquare 1, 200⟩]

/-- The emitters of `twinEmitters` in the other order. -/
def twinEmittersSwapped : List (PolygonWithTemp ℚ) := [⟨bigSquare 1, 200⟩, ⟨bigSquare 1, 100⟩]

/-- Two emitters at different heights. -/
def stackedEmitters : List (PolygonWithTemp ℚ) := [⟨bigSquare 1, 100⟩, ⟨bigSquare 2, 200⟩]

/-- The transposition of the two indices of `stackedEmitters`. -/
def swapStacked : Equiv.Perm (Fin stackedEmitters.length) := Equiv.swap ⟨0, by decide⟩ ⟨1, by decide⟩

/-- A unit square at height `1/2` away from the `z` axis. -/
def sideSquare : List (Vec3 ℚ) := [⟨5, 5, 1 / 2⟩, ⟨6, 5, 1 / 2⟩, ⟨6, 6, 1 / 2⟩, ⟨5, 6, 1 / 2⟩]

/-- Three collinear vertices. -/
def collinearTriple : List (Vec3 ℚ) := [⟨0, 0, 1 / 2⟩, ⟨1, 0, 1 / 2⟩, ⟨2, 0, 1 / 2⟩]

/-- A scene with a degenerate emitter (two vertices) before a proper one. -/
def emittersWithDegenerate : List (PolygonWithTemp ℚ) :=
  [⟨[⟨0, 0, 1⟩, ⟨1, 0, 1⟩], 5⟩, ⟨bigSquare 1, 1000⟩]

end Scenes

section GeometrySpec
variable {R : Type} [LinearOrderedField R]

/-- Specification-side definition, compared with the branches of
`isPointInPolygon3D`: the axis (0, 1, 2 for x, y, z) on which the absolute value
of a normal is largest, the earliest such axis on ties. -/
def dropAxis (n : Vec3 R) : Nat :=
  let m := max |n.x| (max |n.y| |n.z|)
  if |n.x| = m then 0 else if |n.y| = m then 1 else 2

/-- Specification-side definition: the two coordinates kept when axis `k` is
dropped, in x, y, z order. -/
def dropCoord (k : Nat) (v : Vec3 R) : R × R :=
  match k with
  | 0 => (v.y, v.z)
  | 1 => (v.x, v.z)
  | _ => (v.x, v.y)

/-- The condition under which the loop body of `isPointInPolygon2D` toggles
`inside` at index `i`: edge `(p_i, p_j)`, `j` the cyclic predecessor of `i`, with
the denominator `(p_j.y - p_i.y) + 1e-30` of the source. -/
def edgeCrossesBiased (poly : List (R × R)) (x y : R) (i : Nat) : Bool :=
  let pi := poly.getD i (0, 0)
  let pj := poly.getD ((i + poly.length - 1) % poly.length) (0, 0)
  (decide (pi.2 > y) != decide (pj.2 > y)) &&
    decide (x < pi.1 + (pj.1 - pi.1) * (y - pi.2) / ((pj.2 - pi.2) + 1e-30))

/-- Specification-side definition: the edge test in the words of the
specification, with the plain denominator `p_j.y - p_i.y`. -/
def edgeCrosses (poly : List (R × R)) (x y : R) (i : Nat) : Bool :=
  let pi := poly.getD i (0, 0)
  let pj := poly.getD ((i + poly.length - 1) % poly.length) (0, 0)
  (decide (pi.2 > y) != decide (pj.2 > y)) &&
    decide (x < pi.1 + (pj.1 - pi.1) * (y - pi.2) / (pj.2 - pi.2))

/-- Specification-side definition: the number of indices below `n` that
satisfy `c`. -/
def crossingCount (c : Nat → Bool) (n : Nat) : Nat := ((List.range n).filter c).length

end GeometrySpec

section GeometryScenes

/-- A triangle with an edge of height `2e-30`. -/
def sliverTriangle : List (ℚ × ℚ) := [(1, 0), (0, 2e-30), (0, -1)]

end GeometryScenes

section PlatformSpec
variable {R : Type} [LinearOrderedField R] {G : Type}

/-- The platform square root is the exact non-negative root of every
non-negative number. -/
def ExactSqrt (env : Platform R G) : Prop :=
  ∀ x, 0 ≤ x → 0 ≤ env.sqrt x ∧ env.sqrt x * env.sqrt x = x

/-- The platform cosine and sine lie on the unit circle. -/
def UnitCircle (env : Platform R G) : Prop :=
  ∀ θ, env.cos θ * env.cos θ + env.sin θ * env.sin θ = 1

/-- Every uniform draw of the platform lies in `[0, 1)`. -/
def UnitDraws (env : Platform R G) : Prop :=
  ∀ g, 0 ≤ (env.uniform g).1 ∧ (env.uniform g).1 < 1

/-- The frame `(u, v, w)` built by `generateCosineHemisphereRays` for a surface
normal. -/
def hemisphereFrame (env : Platform R G) (surfaceNormal : Vec3 R) : Vec3 R × Vec3 R × Vec3 R :=
  let w := normalize env surfaceNormal
  let u :=
    if |w.x| > 0.9999 then normalize env (cross ⟨0, 1, 0⟩ w)
    else normalize env (cross ⟨1, 0, 0⟩ w)
  let v := cross w u
  (u, v, w)

/-- The direction `u sqrt(u2) cos(2 pi u1) + v sqrt(u2) sin(2 pi u1) + w sqrt(1 - u2)`,
with `M_PI` for `pi`. -/
def sampleDirection (env : Platform R G) (u v w : Vec3 R) (u1 u2 : R) : Vec3 R :=
  ((u.scale (env.sqrt u2 * env.cos (2 * M_PI * u1))).add
    (v.scale (env.sqrt u2 * env.sin (2 * M_PI * u1)))).add (w.scale (env.sqrt (1 - u2)))

/-- The pairs `(u1, u2)` of uniform draws that `k` rays consume from a generator
state. -/
def drawPairs (env : Platform R G) : Nat → G → List (R × R)
  | 0, _ => []
  | k + 1, g =>
    let d1 := env.uniform g
    let d2 := env.uniform d1.2
    (d1.1, d2.1) :: drawPairs env k d2.2

end PlatformSpec

section ScenarioSpec
variable {R : Type} [LinearOrderedField R]

/-- The square with vertices `(-h,-h,z), (h,-h,z), (h,h,z), (-h,h,z)`. -/
def squareAt (h z : R) : List (Vec3 R) :=
  [⟨-h, -h, z⟩, ⟨h, -h, z⟩, ⟨h, h, z⟩, ⟨-h, h, z⟩]

end ScenarioSpec

section BackFacingScenes

/-- A planar triangle with every vertex at `x ≤ 1`; its projection on the `xy`
plane is `sliverTriangle`. -/
def sliverEmitter : List (PolygonWithTemp ℚ) :=
  [⟨[⟨1, 0, -1 / 4⟩, ⟨0, 2e-30, -3 / 4⟩, ⟨0, -1, -3 / 4⟩], 1000⟩]

/-- A hexagon with every vertex at `z < 0` whose third vertex is not in the plane
of the other five. -/
def foldedHexagon : List (PolygonWithTemp ℚ) :=
  [⟨[⟨-4, -4, -1⟩, ⟨-4, 4, -1⟩, ⟨-6, 4, -5 / 2⟩, ⟨-6, 6, -1⟩, ⟨6, 6, -1⟩, ⟨6, -4, -1⟩], 1000⟩]

end BackFacingScenes

section RequestScenes

/-- A request with a polygon list and no `receiver_planes` key. -/
def requestNoPlanes : String := "\x7b\"polygons\":[]\x7d"

/-- A request whose `receiver_planes` object declares no plane. -/
def requestEmptyPlanes : String := "\x7b\"receiver_planes\":\x7b\x7d,\"polygons\":[]\x7d"

/-- A request with one receiver point and no `polygons` key. -/
def requestNoPolygons : String :=
  "\x7b\"receiver_planes\":\x7b\"a\":\x7b\"width\":1,\"height\":1,\"points\":[\x7b\"origin\":[0,0,0],\"normal\":[0,0,1]\x7d]\x7d\x7d\x7d"

end RequestScenes

section DivergingRequests

/-- A request whose only key is not one `parseInputJson` recognises. -/
def requestUnknownKey : String := "\x7b\"foo\":1\x7d"

/-- A request with one plane whose only key is not one `parseReceiverPlaneData`
recognises. -/
def requestUnknownPlaneKey : String :=
  "\x7b\"receiver_planes\":\x7b\"a\":\x7b\"foo\":1\x7d\x7d\x7d"

end DivergingRequests

section UnseededScenes

/-- A request without a seed: plane `a` with two identical receiver points under
a square emitter of half-width 1 at height 1, one ray per point. -/
def requestTwoPointsNoSeed : String :=
  "\x7b\"receiver_planes\":\x7b\"a\":\x7b\"width\":2,\"height\":1,\"points\":[\x7b\"origin\":[0,0,0],\"normal\":[0,0,1]\x7d,\x7b\"origin\":[0,0,0],\"normal\":[0,0,1]\x7d]\x7d\x7d,\"polygons\":[\x7b\"polygon\":[[-1,-1,1],[1,-1,1],[1,1,1],[-1,1,1]],\"temperature\":1000\x7d],\"num_rays\":1\x7d"

/-- Values of `std::random_device` for which the test platform's generator
starts with the draws `0, 0, 3/4, 3/4, 3/4, 3/4`. -/
def deviceDraws (k : Nat) : Nat := if k < 2 then 0 else 3

end UnseededScenes

section PlaneMapSpec
variable {R : Type} [LinearOrderedField R] {G : Type}

/-- Specification-side definition: the sum of `numPoints` over a list of plane
entries. -/
def sumPoints (m : List (String × PlaneData)) : Nat := (m.map (fun e => e.2.numPoints)).sum

/-- Specification-side definition: the map after the assignments
`planeMap[name] = pd` of a list of declarations, in order. -/
def assignAll (m decls : List (String × PlaneData)) : List (String × PlaneData) :=
  decls.foldl (fun acc d => mapAssign acc d.1 d.2) m

/-- Specification-side definition: some declaration that carries at least one
point is followed by a declaration of the same name. -/
def overwritesPoints : List (String × PlaneData) → Bool
  | [] => false
  | d :: rest =>
    (decide (0 < d.2.numPoints) && decide (d.1 ∈ rest.map Prod.fst)) || overwritesPoints rest

/-- Instrumentation of `planesLoop`, not a function of the source: the pairs
`(planeName, pd)` that the loop started at index `i` assigns to `planeMap`, in
the order of the assignments. The control flow is that of `planesLoop`. -/
def planesLoopDecls (env : Platform R G) (s : List Char) :
    Nat → Nat → List (String × PlaneData)
  | 0, _ => []
  | fuel + 1, i =>
    if i < s.length then
      let i0 := skipSpaces s i
      if charAt s i0 '}' then []
      else
        match expectChar s i0 '"' with
        | (false, _) => []
        | (true, nameStart) =>
          let k := nameStart + ((s.drop nameStart).takeWhile (fun c => c != '"')).length
          if k ≥ s.length then []
          else
            let planeName := String.mk ((s.drop nameStart).take (k - nameStart))
            let i1 := skipSpaces s (k + 1)
            match expectChar s i1 ':' with
            | (false, _) => []
            | (true, i2) =>
              match parseReceiverPlaneData env s fuel i2 ⟨i2, 0, 0, []⟩ with
              | Run.fail => []
              | Run.outOfFuel => []
              | Run.ok pst =>
                let pd : PlaneData :=
                  ⟨env.toSize pst.width, env.toSize pst.height, pst.points.length⟩
                let i3 := skipSpaces s pst.i
                if charAt s i3 ',' then (planeName, pd) :: planesLoopDecls env s fuel (i3 + 1)
                else (planeName, pd) :: planesLoopDecls env s fuel i3
    else []

/-- Instrumentation of `parseReceiverPlanesMulti`: the declarations it assigns
when called at index `i`. -/
def parseReceiverPlanesMultiDecls (env : Platform R G) (s : List Char) (fuel : Nat) (i : Nat) :
    List (String × PlaneData) :=
  match expectChar s i '{' with
  | (false, _) => []
  | (true, i1) =>
    let i2 := skipSpaces s i1
    if charAt s i2 '}' then [] else planesLoopDecls env s fuel i2

/-- Instrumentation of the block of `parseInputJson` for the key
`receiver_planes`: the declarations it assigns. -/
def keyReceiverPlanesDecls (env : Platform R G) (s : List Char) (fuel : Nat) (i : Nat) :
    List (String × PlaneData) :=
  match parseKey s i "receiver_planes" with
  | (true, i1) => parseReceiverPlanesMultiDecls env s fuel i1
  | (false, _) => []

/-- Instrumentation of `inputLoop`: the declarations assigned by all the
`receiver_planes` blocks the loop runs, in order. The loop state is advanced by
the key blocks of the source. -/
def inputLoopDecls (env : Platform R G) (s : List Char) :
    Nat → InputState R → List (String × PlaneData)
  | 0, _ => []
  | fuel + 1, st =>
    if st.i < s.length then
      let i0 := skipSpaces s st.i
      if charAt s i0 '}' then []
      else
        let blocks : Parsed (InputState R) :=
          (keyReceiverPlanes env s fuel { st with i := i0 }).andThen fun st1 =>
          (keyPolygons env s fuel st1).andThen fun st2 =>
          (keyInertPolygons env s fuel st2).andThen fun st3 =>
          (keyNumRays env s st3).andThen fun st4 =>
          keySeed env s st4
        match blocks with
        | Parsed.ok st5 =>
          let i6 := skipSpaces s st5.i
          if charAt s i6 ',' then
            keyReceiverPlanesDecls env s fuel i0 ++ inputLoopDecls env s fuel { st5 with i := i6 + 1 }
          else
            keyReceiverPlanesDecls env s fuel i0 ++ inputLoopDecls env s fuel { st5 with i := i6 }
        | Parsed.error _ => keyReceiverPlanesDecls env s fuel i0
        | Parsed.outOfFuel => keyReceiverPlanesDecls env s fuel i0
    else []

/-- Instrumentation of `parseInputJson`: the plane declarations of a request, in
the order in which the parser assigns them to `planeDataMap`. -/
def declarations (env : Platform R G) (fuel : Nat) (json : String) : List (String × PlaneData) :=
  let s := json.toList
  match expectChar s (skipSpaces s 0) '{' with
  | (false, _) => []
  | (true, i1) => inputLoopDecls env s fuel ⟨i1, JsonInput.init, false, false⟩

end PlaneMapSpec

section RepeatedPlaneScenes

/-- A request that declares plane `a` twice: first with no key at all, then with
one receiver point. -/
def requestRepeatedEmpty : String :=
  "\x7b\"receiver_planes\":\x7b\"a\":\x7b\x7d,\"a\":\x7b\"width\":1,\"height\":1,\"points\":[\x7b\"origin\":[0,0,0],\"normal\":[0,0,1]\x7d]\x7d\x7d,\"polygons\":[],\"num_rays\":1\x7d"

/-- The scene `parseInputJson` reads from `requestRepeatedEmpty`. -/
def parsedRepeatedEmpty : JsonInput ℚ :=
  { receiverPoints := [⟨⟨0, 0, 0⟩, ⟨0, 0, 1⟩⟩]
    polygons := []
    inertPolygons := []
    numRays := 1
    seed := none
    planeDataMap := [("a", ⟨1, 1, 1⟩)] }

/-- A request that declares plane `a` twice, each time with one receiver point. -/
def requestRepeatedPlane : String :=
  "\x7b\"receiver_planes\":\x7b\"a\":\x7b\"width\":1,\"height\":1,\"points\":[\x7b\"origin\":[0,0,0],\"normal\":[0,0,1]\x7d]\x7d,\"a\":\x7b\"width\":1,\"height\":1,\"points\":[\x7b\"origin\":[0,0,0],\"normal\":[0,0,-1]\x7d]\x7d\x7d,\"polygons\":[],\"num_rays\":1\x7d"

/-- The scene `parseInputJson` reads from `requestRepeatedPlane`. -/
def parsedRepeatedPlane : JsonInput ℚ :=
  { receiverPoints := [⟨⟨0, 0, 0⟩, ⟨0, 0, 1⟩⟩, ⟨⟨0, 0, 0⟩, ⟨0, 0, -1⟩⟩]
    polygons := []
    inertPolygons := []
    numRays := 1
    seed := none
    planeDataMap := [("a", ⟨1, 1, 1⟩)] }

end RepeatedPlaneScenes

section RequestSpec
variable {R : Type} [LinearOrderedField R] {G : Type}

/-- The keys for which `parseInputJson` has a block, in the order of the blocks. -/
def recognisedKeys : List String :=
  ["receiver_planes", "polygons", "inert_polygons", "num_rays", "seed"]

/-- The block of `parseInputJson` that handles a recognised key. -/
def fieldBlock (env : Platform R G) (s : List Char) (fuel : Nat) (key : String)
    (st : InputState R) : Parsed (InputState R) :=
  if key = "receiver_planes" then keyReceiverPlanes env s fuel st
  else if key = "polygons" then keyPolygons env s fuel st
  else if key = "inert_polygons" then keyInertPolygons env s fuel st
  else if key = "num_rays" then keyNumRays env s st
  else keySeed env s st

/-- Specification-side definition: from the index of `st` on, the text is the
body of a well-formed object whose fields have the keys `keys`, in this order.
Every key is a recognised key, its value is accepted by the block of that key,
a comma stands between two fields and a closing brace after the last one (or
at once, when there is no field). The bound `fuel` is spent as `inputLoop`
spends it: one unit per field and one for the closing brace. -/
def fieldsWellFormed (env : Platform R G) (s : List Char) :
    Nat → List String → InputState R → Bool
  | 0, _, _ => false
  | _ + 1, [], st => charAt s (skipSpaces s st.i) '}'
  | fuel + 1, key :: rest, st =>
    decide (key ∈ recognisedKeys) && (parseKey s (skipSpaces s st.i) key).1 &&
      match fieldBlock env s fuel key { st with i := skipSpaces s st.i } with
      | Parsed.ok st1 =>
        match rest with
        | [] => fieldsWellFormed env s fuel [] { st1 with i := skipSpaces s st1.i }
        | _ :: _ =>
          charAt s (skipSpaces s st1.i) ',' &&
            fieldsWellFormed env s fuel rest { st1 with i := skipSpaces s st1.i + 1 }
      | Parsed.error _ => false
      | Parsed.outOfFuel => false

/-- Specification-side definition: the request text is a well-formed object
whose fields have the keys `keys`, all of them recognised. -/
def wellFormedRequest (env : Platform R G) (fuel : Nat) (json : String)
    (keys : List String) : Bool :=
  match expectChar json.toList (skipSpaces json.toList 0) '{' with
  | (false, _) => false
  | (true, i1) => fieldsWellFormed env json.toList fuel keys ⟨i1, JsonInput.init, false, false⟩

end RequestSpec

section ScanLemmas
variable {R : Type} [LinearOrderedField R] {G : Type}

theorem inertStep_eq_min (o d : Vec3 R) (c : WithTop R) (pd : PolyData R) :
    inertStep o d c pd = min c (hitDist o d pd) := by
  unfold inertStep hitDist
  cases hv : pd.valid <;> simp
  rcases h : rayPlaneIntersect o d pd.normal pd.point with ⟨_ | hit, t⟩ <;> simp
  by_cases hlt : t < c
  · by_cases hin : isPointInPolygon3D hit pd.verts pd.normal = true
    · simp [hlt, hin, le_of_lt hlt]
    · simp [hlt, hin]
  · have hle : c ≤ t := not_lt.mp hlt
    by_cases hin : isPointInPolygon3D hit pd.verts pd.normal = true
    · simp [hlt, hin, hle]
    · simp [hlt, hin]

theorem foldl_inertStep (o d : Vec3 R) (scene : List (PolyData R)) (c : WithTop R) :
    scene.foldl (inertStep o d) c = min c (minDist o d scene) := by
  induction scene generalizing c with
  | nil => simp [minDist]
  | cons pd rest ih =>
    simp only [List.foldl_cons, ih, inertStep_eq_min]
    simp [minDist, min_assoc]

theorem inertLoop_eq_minDist (o d : Vec3 R) (scene : List (PolyData R)) :
    inertLoop o d scene = minDist o d scene := by
  simp [inertLoop, foldl_inertStep]

theorem emitStep_closest (o d : Vec3 R) (p : Nat) (st : EmitState R) (pd : PolyData R) :
    (emitStep o d p st pd).closestEmit = min st.closestEmit (hitDist o d pd) := by
  unfold emitStep hitDist
  cases hv : pd.valid <;> simp
  rcases h : rayPlaneIntersect o d pd.normal pd.point with ⟨_ | hit, t⟩ <;> simp
  by_cases hlt : t < st.closestEmit
  · by_cases hin : isPointInPolygon3D hit pd.verts pd.normal = true
    · simp [hlt, hin, le_of_lt hlt]
    · simp [hlt, hin]
  · have hle : st.closestEmit ≤ t := not_lt.mp hlt
    by_cases hin : isPointInPolygon3D hit pd.verts pd.normal = true
    · simp [hlt, hin, hle]
    · simp [hlt, hin]

theorem emitStep_finalIdx (o d : Vec3 R) (p : Nat) (st : EmitState R) (pd : PolyData R) :
    (emitStep o d p st pd).finalIdx
      = if hitDist o d pd < st.closestEmit then some p else st.finalIdx := by
  unfold emitStep hitDist
  cases hv : pd.valid <;> simp
  rcases h : rayPlaneIntersect o d pd.normal pd.point with ⟨_ | hit, t⟩ <;> simp
  by_cases hlt : t < st.closestEmit
  · by_cases hin : isPointInPolygon3D hit pd.verts pd.normal = true
    · simp [hlt, hin]
    · simp [hlt, hin]
  · by_cases hin : isPointInPolygon3D hit pd.verts pd.normal = true
    · simp [hlt, hin]
    · simp [hlt, hin]

theorem emitLoop_eq_scanIdx (o d : Vec3 R) (scene : List (PolyData R)) (p : Nat)
    (st : EmitState R) :
    ((emitLoop o d scene p st).closestEmit, (emitLoop o d scene p st).finalIdx)
      = scanIdx (scene.map (hitDist o d)) p (st.closestEmit, st.finalIdx) := by
  induction scene generalizing p st with
  | nil => simp [emitLoop, scanIdx]
  | cons pd rest ih =>
    simp only [emitLoop, List.map_cons, scanIdx]
    rw [ih, emitStep_closest, emitStep_finalIdx]
    congr 1
    by_cases hlt : hitDist o d pd < st.closestEmit
    · simp [hlt, le_of_lt hlt]
    · simp [hlt, not_lt.mp hlt]

theorem scanIdx_eq (ds : List (WithTop R)) (p : Nat) (c : WithTop R) (j : Option Nat) :
    scanIdx ds p (c, j)
      = if ds.foldr min ⊤ < c then (ds.foldr min ⊤, some (p + firstArgmin ds)) else (c, j) := by
  induction ds generalizing p c j with
  | nil => simp [scanIdx]
  | cons t ts ih =>
    simp only [scanIdx, List.foldr_cons, firstArgmin, List.findIdx_cons]
    by_cases htc : t < c
    · simp only [htc, if_true, ih]
      by_cases hm : ts.foldr min ⊤ < t
      · have hne : ¬ t = ts.foldr min ⊤ := ne_of_gt hm
        simp [hm, hne, min_eq_right (le_of_lt hm), lt_trans hm htc, firstArgmin, Nat.add_assoc,
          Nat.add_comm]
      · have hle : t ≤ ts.foldr min ⊤ := not_lt.mp hm
        simp [hm, htc, min_eq_left hle]
    · have hct : c ≤ t := not_lt.mp htc
      simp only [htc, if_false, ih]
      by_cases hm : ts.foldr min ⊤ < c
      · have hmt : ts.foldr min ⊤ < t := lt_of_lt_of_le hm hct
        have hne : ¬ t = ts.foldr min ⊤ := ne_of_gt hmt
        simp [hm, hne, min_eq_right (le_of_lt hmt), firstArgmin, Nat.add_assoc, Nat.add_comm]
      · have : ¬ min t (ts.foldr min ⊤) < c := by
          simp [not_lt, hct, not_lt.mp hm]
        simp [hm, this]

end ScanLemmas

section RayLoopLemmas
variable {R : Type} [LinearOrderedField R] {G : Type}

theorem emitLoop_closest (o d : Vec3 R) (scene : List (PolyData R)) :
    (emitLoop o d scene 0 ⟨⊤, none, Vec3.zero⟩).closestEmit = minDist o d scene := by
  have h := congrArg Prod.fst (emitLoop_eq_scanIdx o d scene 0 ⟨⊤, none, Vec3.zero⟩)
  simp only [scanIdx_eq] at h
  rw [h]
  unfold minDist
  by_cases hm : (scene.map (hitDist o d)).foldr min ⊤ < ⊤
  · simp [hm]
  · simp [hm, not_lt_top_iff.mp hm]

theorem emitLoop_finalIdx (o d : Vec3 R) (scene : List (PolyData R)) :
    (emitLoop o d scene 0 ⟨⊤, none, Vec3.zero⟩).finalIdx
      = if minDist o d scene < ⊤ then some (firstArgmin (scene.map (hitDist o d))) else none := by
  have h := congrArg Prod.snd (emitLoop_eq_scanIdx o d scene 0 ⟨⊤, none, Vec3.zero⟩)
  simp only [scanIdx_eq] at h
  rw [h]
  unfold minDist
  by_cases hm : (scene.map (hitDist o d)).foldr min ⊤ < ⊤
  · simp [hm]
  · simp [hm]

theorem rayOutcome_eq (o : Vec3 R) (inertScene emitScene : List (PolyData R)) (d : Vec3 R) :
    rayOutcome o inertScene emitScene d
      = if minDist o d emitScene < minDist o d inertScene
        then some (firstArgmin (emitScene.map (hitDist o d))) else none := by
  unfold rayOutcome
  simp only [inertLoop_eq_minDist, emitLoop_closest, emitLoop_finalIdx]
  by_cases h : minDist o d emitScene < minDist o d inertScene
  · have h1 : minDist o d emitScene < ⊤ := lt_of_lt_of_le h le_top
    simp [h, h1, not_le.mpr h]
  · have hle : minDist o d inertScene ≤ minDist o d emitScene := not_lt.mp h
    by_cases ht : minDist o d inertScene < ⊤
    · simp [h, hle, ht]
    · have hI : minDist o d inertScene = ⊤ := not_lt_top_iff.mp ht
      have hE : minDist o d emitScene = ⊤ := top_le_iff.mp (hI ▸ hle)
      simp [hI, hE]

theorem rayStep_hitCounts (o : Vec3 R) (inertScene emitScene : List (PolyData R))
    (acc : RayAcc R) (d : Vec3 R) :
    (rayStep o inertScene emitScene acc d).hitCounts
      = bump acc.hitCounts (rayOutcome o inertScene emitScene d) := by
  unfold rayStep rayOutcome bump
  generalize emitLoop o d emitScene 0 ⟨⊤, none, Vec3.zero⟩ = st
  rcases st with ⟨c, _ | idx, pt⟩
  · simp
  · by_cases hb : (decide (inertLoop o d inertScene < ⊤) &&
        decide (inertLoop o d inertScene ≤ c)) = true
    · simp only [hb]; simp
    · simp only [hb]; simp

theorem foldl_rayStep_hitCounts (o : Vec3 R) (inertScene emitScene : List (PolyData R))
    (rays : List (Vec3 R)) (acc : RayAcc R) :
    (rays.foldl (rayStep o inertScene emitScene) acc).hitCounts
      = (rays.map (rayOutcome o inertScene emitScene)).foldl bump acc.hitCounts := by
  induction rays generalizing acc with
  | nil => rfl
  | cons d rest ih => simp only [List.foldl_cons, List.map_cons, ih, rayStep_hitCounts]

theorem bump_length (hc : List Nat) (o : Option Nat) : (bump hc o).length = hc.length := by
  cases o <;> simp [bump]

theorem foldl_bump_length (os : List (Option Nat)) (hc : List Nat) :
    (os.foldl bump hc).length = hc.length := by
  induction os generalizing hc with
  | nil => rfl
  | cons a rest ih => simp [ih, bump_length]

theorem sum_set_succ_le (hc : List Nat) (idx : Nat) :
    (hc.set idx (hc.getD idx 0 + 1)).sum ≤ hc.sum + 1 := by
  induction hc generalizing idx with
  | nil => simp
  | cons a rest ih =>
    cases idx with
    | zero => simp; omega
    | succ k =>
      have := ih k
      simp at this ⊢
      omega

theorem bump_sum_le (hc : List Nat) (o : Option Nat) : (bump hc o).sum ≤ hc.sum + 1 := by
  cases o with
  | none => simp [bump]
  | some idx => exact sum_set_succ_le hc idx

theorem foldl_bump_sum_le (os : List (Option Nat)) (hc : List Nat) :
    (os.foldl bump hc).sum ≤ hc.sum + os.length := by
  induction os generalizing hc with
  | nil => simp
  | cons a rest ih =>
    have h1 := ih (bump hc a)
    have h2 := bump_sum_le hc a
    simp only [List.foldl_cons, List.length_cons]
    omega

theorem sampleLoop_length (env : Platform R G) (u v w : Vec3 R) (k : Nat) (g : G) :
    (sampleLoop env u v w k g).1.length = k := by
  induction k generalizing g with
  | zero => rfl
  | succ k ih => simp [sampleLoop, ih]

theorem generateCosineHemisphereRays_length (env : Platform R G) (n : Nat) (nrm : Vec3 R)
    (g : G) : (generateCosineHemisphereRays env n nrm g).1.length = n := by
  unfold generateCosineHemisphereRays
  by_cases h : n = 0
  · simp [h]
  · simp only [h, if_false]
    split_ifs <;> exact sampleLoop_length _ _ _ _ _ _

theorem sum_map_div (hit : List Nat) (n : R) :
    (hit.map (fun (h : Nat) => (h : R) / n)).sum = ((hit.sum : Nat) : R) / n := by
  induction hit with
  | nil => simp
  | cons a rest ih => simp [ih, add_div]

theorem mem_le_sum (hit : List Nat) (h : Nat) (hm : h ∈ hit) : h ≤ hit.sum := by
  induction hit with
  | nil => cases hm
  | cons a rest ih =>
    rcases List.mem_cons.mp hm with rfl | hr
    · simp
    · have := ih hr
      simp
      omega

/-- Hit counters after the ray loop of `calculateViewFactorsWithBlockage`. -/
theorem viewFactors_eq (env : Platform R G) (origin originNormal : Vec3 R)
    (E : List (PolygonWithTemp R)) (O : List (List (Vec3 R))) (N : Nat) (rng : G) :
    (calculateViewFactorsWithBlockage env origin originNormal E O N rng).1.viewFactors
      = (((generateCosineHemisphereRays env N originNormal rng).1.map
            (rayOutcome origin (O.map (mkPolyData env))
              (E.map (fun poly => mkPolyData env poly.vertices)))).foldl bump
          (List.replicate E.length 0)).map (fun (h : Nat) => (h : R) / (N : R)) := by
  unfold calculateViewFactorsWithBlockage
  by_cases h : N = 0
  · subst h
    simp [generateCosineHemisphereRays]
  · simp only [h, if_false, foldl_rayStep_hitCounts]

end RayLoopLemmas

section MinimumLemmas
variable {R : Type} [LinearOrderedField R] {G : Type}

theorem foldr_min_top_or_mem (ds : List (WithTop R)) :
    ds.foldr min ⊤ = ⊤ ∨ ds.foldr min ⊤ ∈ ds := by
  induction ds with
  | nil => simp
  | cons t ts ih =>
    rcases min_choice t (ts.foldr min ⊤) with h | h
    · right; simp [h]
    · rcases ih with h1 | h1
      · by_cases ht : t = ⊤
        · left; simp [h1, ht]
        · right; simp [h1]
      · right
        simp only [List.foldr_cons, h]
        exact List.mem_cons_of_mem _ h1

theorem foldr_min_le_of_mem (ds : List (WithTop R)) (t : WithTop R) (h : t ∈ ds) :
    ds.foldr min ⊤ ≤ t := by
  induction ds with
  | nil => cases h
  | cons a rest ih =>
    rcases List.mem_cons.mp h with rfl | hr
    · simp
    · exact le_trans (by simp) (ih hr)

theorem firstArgmin_lt_length (ds : List (WithTop R)) (h : ds.foldr min ⊤ < ⊤) :
    firstArgmin ds < ds.length := by
  unfold firstArgmin
  apply List.findIdx_lt_length_of_exists
  rcases foldr_min_top_or_mem ds with h1 | h1
  · exact absurd h1 (ne_of_lt h)
  · exact ⟨_, h1, by simp⟩

theorem getElem_firstArgmin (ds : List (WithTop R)) (h : firstArgmin ds < ds.length) :
    ds[firstArgmin ds] = ds.foldr min ⊤ := by
  have := List.findIdx_getElem (w := h)
  simpa using this

theorem lt_of_lt_firstArgmin (ds : List (WithTop R)) (k : Nat) (hk : k < firstArgmin ds)
    (hlen : k < ds.length) : ds.foldr min ⊤ < ds[k] := by
  have hne := List.not_of_lt_findIdx hk
  have hle := foldr_min_le_of_mem ds ds[k] (List.getElem_mem hlen)
  have : ds[k] ≠ ds.foldr min ⊤ := by simpa using hne
  exact lt_of_le_of_ne hle (Ne.symm this)

theorem rayStep_of_not_counted (o : Vec3 R) (inertScene emitScene : List (PolyData R))
    (acc : RayAcc R) (d : Vec3 R) (h : rayOutcome o inertScene emitScene d = none) :
    rayStep o inertScene emitScene acc d = acc := by
  unfold rayOutcome at h
  unfold rayStep
  generalize emitLoop o d emitScene 0 ⟨⊤, none, Vec3.zero⟩ = st at h ⊢
  rcases st with ⟨c, _ | idx, pt⟩
  · simp
  · by_cases hb : (decide (inertLoop o d inertScene < ⊤) &&
        decide (inertLoop o d inertScene ≤ c)) = true
    · simp only [hb]; simp
    · simp only [hb] at h; simp at h

theorem foldl_range_add (f : Nat → R) (n : Nat) :
    (List.range n).foldl (fun acc p => acc + f p) 0 = ((List.range n).map f).sum := by
  induction n with
  | zero => simp
  | succ k ih => simp [List.range_succ, List.foldl_append, ih]

theorem totalTemperature_eq_sum (vf : List R) (polys : List (PolygonWithTemp R)) :
    totalTemperature vf polys
      = ((List.range polys.length).map
          (fun i => vf.getD i 0 * (polys.getD i ⟨[], 0⟩).temperature)).sum := by
  unfold totalTemperature
  exact foldl_range_add _ _

theorem totalTemperature_zero (vf : List R) (polys : List (PolygonWithTemp R))
    (h : ∀ v ∈ vf, v = 0) : totalTemperature vf polys = 0 := by
  rw [totalTemperature_eq_sum]
  apply List.sum_eq_zero
  intro x hx
  obtain ⟨i, _, rfl⟩ := List.mem_map.mp hx
  have : vf.getD i 0 = 0 := by
    rw [List.getD_eq_getElem?_getD]
    cases hi : vf[i]? with
    | none => rfl
    | some v => exact h v (List.getElem?_mem hi)
  rw [this, zero_mul]

end MinimumLemmas

section EstimatorClaims
variable {R : Type} [LinearOrderedField R] {G : Type}

/-- C1: for every origin, normal, emitter list, occluder list, ray count and
generator state the view-factor vector has one entry per emitter, every entry
lies in `[0, 1]` and the entries sum to at most 1, because they are hit counters
divided by the ray count and the counters sum to at most the ray count. -/
theorem viewFactors_bounds (env : Platform R G) (origin originNormal : Vec3 R)
    (E : List (PolygonWithTemp R)) (O : List (List (Vec3 R))) (N : Nat) (rng : G) :
    let VF := (calculateViewFactorsWithBlockage env origin originNormal E O N rng).1.viewFactors
    VF.length = E.length ∧ (∀ v ∈ VF, 0 ≤ v ∧ v ≤ 1) ∧ VF.sum ≤ 1 ∧
      ∃ hit : List Nat, hit.length = E.length ∧ hit.sum ≤ N ∧
        VF = hit.map (fun (h : Nat) => (h : R) / (N : R)) := by
  intro VF
  have hVF : VF = _ := viewFactors_eq env origin originNormal E O N rng
  generalize hos : (generateCosineHemisphereRays env N originNormal rng).1.map
    (rayOutcome origin (O.map (mkPolyData env))
      (E.map (fun poly => mkPolyData env poly.vertices))) = os at hVF
  have hlen : (os.foldl bump (List.replicate E.length 0)).length = E.length := by
    simp [foldl_bump_length]
  have hsum : (os.foldl bump (List.replicate E.length 0)).sum ≤ N := by
    have h1 := foldl_bump_sum_le os (List.replicate E.length 0)
    have h2 : os.length = N := by
      rw [← hos, List.length_map, generateCosineHemisphereRays_length]
    simpa [h2] using h1
  generalize os.foldl bump (List.replicate E.length 0) = hit at hVF hlen hsum
  have hN : (0 : R) ≤ (N : R) := Nat.cast_nonneg N
  refine ⟨by rw [hVF, List.length_map, hlen], ?_, ?_, hit, hlen, hsum, hVF⟩
  · intro v hv
    rw [hVF] at hv
    obtain ⟨h, hh, rfl⟩ := List.mem_map.mp hv
    have hle : h ≤ N := le_trans (mem_le_sum hit h hh) hsum
    exact ⟨div_nonneg (Nat.cast_nonneg h) hN,
      div_le_one_of_le₀ (Nat.cast_le.mpr hle) hN⟩
  · rw [hVF, sum_map_div]
    exact div_le_one_of_le₀ (Nat.cast_le.mpr hsum) hN

/-- C2: for every ray, the loops over occluders and emitters (with their pruning
test before the in-polygon test) compute the minimum hit distances `tOcc` and
`tEmit` over the valid polygons whose hit point is inside the polygon. When
`tEmit` is finite and `tEmit < tOcc`, the ray increments exactly the counter of
the first emitter attaining `tEmit`; when `tOcc ≤ tEmit` (ties included) the ray
changes nothing. -/
theorem rayStep_closest_hit (origin : Vec3 R) (inertScene emitScene : List (PolyData R))
    (acc : RayAcc R) (rdir : Vec3 R) :
    let tOcc := minDist origin rdir inertScene
    let tEmit := minDist origin rdir emitScene
    let iStar := firstArgmin (emitScene.map (hitDist origin rdir))
    inertLoop origin rdir inertScene = tOcc ∧
    (emitLoop origin rdir emitScene 0 ⟨⊤, none, Vec3.zero⟩).closestEmit = tEmit ∧
    (tEmit < ⊤ ∧ tEmit < tOcc →
      (∃ h : iStar < emitScene.length, hitDist origin rdir emitScene[iStar] = tEmit) ∧
      (∀ k (h : k < emitScene.length), k < iStar → tEmit < hitDist origin rdir emitScene[k]) ∧
      (rayStep origin inertScene emitScene acc rdir).hitCounts
        = acc.hitCounts.set iStar (acc.hitCounts.getD iStar 0 + 1)) ∧
    (tOcc ≤ tEmit → rayStep origin inertScene emitScene acc rdir = acc) := by
  intro tOcc tEmit iStar
  refine ⟨inertLoop_eq_minDist _ _ _, emitLoop_closest _ _ _, ?_, ?_⟩
  · rintro ⟨hfin, hlt⟩
    have hlen : iStar < (emitScene.map (hitDist origin rdir)).length :=
      firstArgmin_lt_length _ hfin
    have hlen' : iStar < emitScene.length := by simpa using hlen
    refine ⟨⟨hlen', ?_⟩, ?_, ?_⟩
    · have := getElem_firstArgmin (emitScene.map (hitDist origin rdir)) hlen
      simpa using this
    · intro k hk hki
      have := lt_of_lt_firstArgmin (emitScene.map (hitDist origin rdir)) k hki (by simpa using hk)
      simpa using this
    · rw [rayStep_hitCounts, rayOutcome_eq, if_pos hlt]
      rfl
  · intro hle
    apply rayStep_of_not_counted
    rw [rayOutcome_eq, if_neg (not_lt.mpr hle)]

/-- C7: with zero rays the estimator returns a zero view factor for every
emitter, nothing else, and the generator state unchanged, and the temperature
of every receiver point of a request with `numRays = 0` is 0. -/
theorem zero_rays (env : Platform R G) (origin originNormal : Vec3 R)
    (E : List (PolygonWithTemp R)) (O : List (List (Vec3 R))) (rng : G)
    (inp : JsonInput R) (g : Nat) :
    calculateViewFactorsWithBlockage env origin originNormal E O 0 rng
      = (⟨List.replicate E.length 0, [], [], []⟩, rng) ∧
    pointTemperature env { inp with numRays := 0 } rng g = 0 := by
  refine ⟨by simp [calculateViewFactorsWithBlockage], ?_⟩
  unfold pointTemperature
  apply totalTemperature_zero
  intro v hv
  simp [calculateViewFactorsWithBlockage] at hv
  exact hv.2

end EstimatorClaims

section SeedLemmas
variable {R : Type} [LinearOrderedField R] {G : Type}

theorem pointSeed_eq (s g : Nat) : pointSeed s g = (s + 12345 * g) % 2 ^ 64 := by
  unfold pointSeed
  rw [Nat.add_mod_mod, Nat.mul_comm]

theorem pointTemperature_seeded (env : Platform R G) (inp : JsonInput R) (s : Nat)
    (hs : inp.seed = some s) (rng : G) (g : Nat) :
    pointTemperature env inp rng g = seededTemperature env inp s g := by
  unfold pointTemperature seededTemperature pointRng
  simp only [hs, pointSeed_eq]

theorem pointLoop_seeded_aux (env : Platform R G) (inp : JsonInput R) (s : Nat)
    (hs : inp.seed = some s) (rng : G) (k : Nat) (temps : List R) (g : Nat) :
    pointLoop env inp rng k temps g
      = (temps ++ (List.range (min k (inp.receiverPoints.length - g))).map
            (fun j => seededTemperature env inp s (g + j)),
          g + min k (inp.receiverPoints.length - g)) := by
  induction k generalizing temps g with
  | zero => simp [pointLoop]
  | succ k ih =>
    unfold pointLoop
    by_cases hg : g ≥ inp.receiverPoints.length
    · have h0 : inp.receiverPoints.length - g = 0 := by omega
      simp [hg, h0]
    · simp only [hg, if_false, ih, pointTemperature_seeded env inp s hs]
      have hm : min (k + 1) (inp.receiverPoints.length - g)
          = min k (inp.receiverPoints.length - (g + 1)) + 1 := by omega
      rw [hm, List.range_succ_eq_map]
      have hj : ∀ j : Nat, g + 1 + j = g + (j + 1) := fun j => by omega
      have hlast : g + 1 + min k (inp.receiverPoints.length - (g + 1))
          = g + (min k (inp.receiverPoints.length - (g + 1)) + 1) := by omega
      simp only [List.map_cons, List.map_map, List.append_assoc, List.singleton_append,
        Nat.add_zero, hj, hlast, Function.comp_def]

theorem planeLoop_seeded_indep (env : Platform R G) (inp : JsonInput R) (s : Nat)
    (hs : inp.seed = some s) (rng1 rng2 : G) (m : List (String × PlaneData)) (g : Nat) :
    planeLoop env inp rng1 m g = planeLoop env inp rng2 m g := by
  induction m generalizing g with
  | nil => rfl
  | cons p rest ih =>
    obtain ⟨name, pd⟩ := p
    simp only [planeLoop, pointLoop_seeded_aux env inp s hs, ih]

end SeedLemmas

section SeedClaims
variable {R : Type} [LinearOrderedField R] {G : Type}

/-- C5: when the request carries a seed `s`, the point loop evaluates the
receiver point at global cursor `g` with a generator freshly seeded with
`(s + 12345 * g) mod 2^64`: whatever the outer generator state, the values it
appends are the seeded temperatures of the cursors it visits. -/
theorem pointLoop_seeded (env : Platform R G) (inp : JsonInput R) (s : Nat)
    (hs : inp.seed = some s) (rng : G) (k : Nat) (temps : List R) (g : Nat) :
    pointLoop env inp rng k temps g
      = (temps ++ (List.range (min k (inp.receiverPoints.length - g))).map
            (fun j => seededTemperature env inp s (g + j)),
          g + min k (inp.receiverPoints.length - g)) :=
  pointLoop_seeded_aux env inp s hs rng k temps g

/-- C6: for a request body whose parse carries a seed, the text returned by
`runCalculation` is the same for all values of the entropy source. -/
theorem runCalculation_seeded (env : Platform R G) (fuel : Nat) (body : String)
    (hseed : ∀ inp, parseInputJson env fuel body = Parsed.ok inp → inp.seed.isSome = true)
    (rd1 rd2 : Nat → Nat) :
    runCalculation env fuel body rd1 = runCalculation env fuel body rd2 := by
  unfold runCalculation
  cases hp : parseInputJson env fuel body with
  | outOfFuel => rfl
  | error msg => rfl
  | ok inp =>
    obtain ⟨s, hs⟩ := Option.isSome_iff_exists.mp (hseed inp hp)
    simp only
    rw [planeLoop_seeded_indep env inp s hs (initialRng env inp rd1) (initialRng env inp rd2)]

end SeedClaims

section WinnerLemmas
variable {R : Type} [LinearOrderedField R] {G : Type}

theorem rayOutcome_eq_winner (o : Vec3 R) (inertScene emitScene : List (PolyData R))
    (d : Vec3 R) :
    rayOutcome o inertScene emitScene d
      = winner (minDist o d inertScene) (emitScene.map (hitDist o d)) := by
  rw [rayOutcome_eq]; rfl

theorem getD_top_of_length_le {α : Type} (ds : List (WithTop α)) (j : Nat) (h : ds.length ≤ j) :
    ds.getD j ⊤ = ⊤ := by
  rw [List.getD_eq_getElem?_getD, List.getElem?_eq_none h]; rfl

theorem foldr_min_le_getD (ds : List (WithTop R)) (j : Nat) :
    ds.foldr min ⊤ ≤ ds.getD j ⊤ := by
  by_cases h : j < ds.length
  · rw [List.getD_eq_getElem _ _ h]
    exact foldr_min_le_of_mem ds _ (List.getElem_mem h)
  · rw [getD_top_of_length_le ds j (not_lt.mp h)]
    exact le_top

theorem winner_eq_some_iff (tOcc : WithTop R) (ds : List (WithTop R)) (p : Nat) :
    winner tOcc ds = some p ↔
      ds.getD p ⊤ < tOcc ∧ (∀ j, ds.getD p ⊤ ≤ ds.getD j ⊤) ∧
        (∀ j, j < p → ds.getD p ⊤ < ds.getD j ⊤) := by
  unfold winner
  constructor
  · intro h
    by_cases hm : ds.foldr min ⊤ < tOcc
    · rw [if_pos hm] at h
      have hp : firstArgmin ds = p := Option.some.inj h
      have hfin : ds.foldr min ⊤ < ⊤ := lt_of_lt_of_le hm le_top
      have hlen : firstArgmin ds < ds.length := firstArgmin_lt_length ds hfin
      have hget : ds.getD p ⊤ = ds.foldr min ⊤ := by
        rw [← hp, List.getD_eq_getElem _ _ hlen]
        exact getElem_firstArgmin ds hlen
      refine ⟨hget ▸ hm, fun j => hget ▸ foldr_min_le_getD ds j, ?_⟩
      intro j hj
      have hjlen : j < ds.length := by omega
      rw [hget, List.getD_eq_getElem _ _ hjlen]
      exact lt_of_lt_firstArgmin ds j (hp ▸ hj) hjlen
    · rw [if_neg hm] at h
      cases h
  · rintro ⟨h1, h2, h3⟩
    have hplen : p < ds.length := by
      by_contra hc
      rw [getD_top_of_length_le ds p (not_lt.mp hc)] at h1
      exact absurd h1 (not_lt.mpr le_top)
    have hmin : ds.foldr min ⊤ = ds.getD p ⊤ := by
      apply le_antisymm (foldr_min_le_getD ds p)
      rcases foldr_min_top_or_mem ds with ht | hmem
      · rw [ht]; exact le_top
      · obtain ⟨j, hj, hje⟩ := List.getElem_of_mem hmem
        rw [← hje, ← List.getD_eq_getElem _ ⊤ hj]
        exact h2 j
    have hm : ds.foldr min ⊤ < tOcc := hmin ▸ h1
    rw [if_pos hm]
    have hfin : ds.foldr min ⊤ < ⊤ := lt_of_lt_of_le hm le_top
    have hlen : firstArgmin ds < ds.length := firstArgmin_lt_length ds hfin
    have hfa : ds.getD (firstArgmin ds) ⊤ = ds.foldr min ⊤ := by
      rw [List.getD_eq_getElem _ _ hlen]
      exact getElem_firstArgmin ds hlen
    rcases lt_trichotomy (firstArgmin ds) p with hlt | heq | hgt
    · have := h3 _ hlt
      rw [hfa, hmin] at this
      exact absurd this (lt_irrefl _)
    · rw [heq]
    · have := lt_of_lt_firstArgmin ds p hgt hplen
      rw [hmin, List.getD_eq_getElem _ _ hplen] at this
      exact absurd this (lt_irrefl _)

/-- Re-indexing of the emitters: when the distances `ds'` are the distances `ds`
read through an index map `f`, every index outside the image of `f` has distance
`+infinity`, and `f` keeps the order of indices that tie at a counted minimum,
the ray is counted for corresponding emitters. -/
theorem winner_reindex (tOcc : WithTop R) (ds ds' : List (WithTop R)) (f : Nat → Nat)
    (hD : ∀ j, ds'.getD j ⊤ = ds.getD (f j) ⊤)
    (hrest : ∀ i, (∀ j, f j ≠ i) → ds.getD i ⊤ = ⊤)
    (htie : ∀ a b, ds.getD (f a) ⊤ = ds.getD (f b) ⊤ → ds.getD (f a) ⊤ < tOcc →
      (∀ m, ds.getD (f a) ⊤ ≤ ds.getD m ⊤) → (a < b ↔ f a < f b)) :
    winner tOcc ds = (winner tOcc ds').map f := by
  cases hw' : winner tOcc ds' with
  | some q =>
    obtain ⟨h1, h2, h3⟩ := (winner_eq_some_iff tOcc ds' q).mp hw'
    simp only [Option.map_some']
    rw [winner_eq_some_iff]
    rw [hD] at h1
    have hmin : ∀ i, ds.getD (f q) ⊤ ≤ ds.getD i ⊤ := by
      intro i
      by_cases hi : ∃ j, f j = i
      · obtain ⟨j, rfl⟩ := hi
        rw [← hD, ← hD]; exact h2 j
      · rw [hrest i (fun j hj => hi ⟨j, hj⟩)]; exact le_top
    refine ⟨h1, hmin, ?_⟩
    intro i hi
    by_cases hex : ∃ j, f j = i
    · obtain ⟨j, rfl⟩ := hex
      rcases lt_or_eq_of_le (hmin (f j)) with hlt | heq
      · exact hlt
      · have hjq : j < q := by
          have := htie j q heq.symm (heq ▸ h1) (fun m => heq ▸ hmin m)
          exact this.mpr hi
        have := h3 j hjq
        rw [hD, hD] at this
        exact this
    · rw [hrest i (fun j hj => hex ⟨j, hj⟩)]
      exact lt_of_lt_of_le h1 le_top
  | none =>
    simp only [Option.map_none']
    cases hw : winner tOcc ds with
    | none => rfl
    | some p =>
      exfalso
      obtain ⟨h1, h2, h3⟩ := (winner_eq_some_iff tOcc ds p).mp hw
      have hex : ∃ q, f q = p := by
        by_contra hc
        rw [hrest p (fun j hj => hc ⟨j, hj⟩)] at h1
        exact absurd h1 (not_lt.mpr le_top)
      obtain ⟨q, rfl⟩ := hex
      have : winner tOcc ds' = some q := by
        rw [winner_eq_some_iff]
        refine ⟨by rw [hD]; exact h1, fun j => by rw [hD, hD]; exact h2 (f j), ?_⟩
        intro j hj
        rw [hD, hD]
        rcases lt_or_eq_of_le (h2 (f j)) with hlt | heq
        · exact hlt
        · have hfj : f j < f q := (htie j q heq.symm (heq ▸ h1) (fun m => heq ▸ h2 m)).mp hj
          exact h3 (f j) hfj
      rw [hw'] at this
      cases this

end WinnerLemmas

section ReindexLemmas
variable {R : Type} [LinearOrderedField R] {G : Type}

theorem bump_getD (hc : List Nat) (o : Option Nat) (p : Nat) (hp : p < hc.length) :
    (bump hc o).getD p 0 = hc.getD p 0 + if o = some p then 1 else 0 := by
  cases o with
  | none => simp [bump]
  | some idx =>
    simp only [bump, List.getD_eq_getElem?_getD, List.getElem?_set]
    by_cases h : idx = p
    · subst h
      simp [hp]
    · have h' : ¬ (some idx = some p) := fun e => h (Option.some.inj e)
      simp [h, h']

theorem foldl_bump_getD (os : List (Option Nat)) (hc : List Nat) (p : Nat)
    (hp : p < hc.length) :
    (os.foldl bump hc).getD p 0 = hc.getD p 0 + os.count (some p) := by
  induction os generalizing hc with
  | nil => simp
  | cons a rest ih =>
    rw [List.foldl_cons, ih (bump hc a) (by rw [bump_length]; exact hp), bump_getD hc a p hp,
      List.count_cons]
    by_cases h : a = some p
    · simp [h]; omega
    · simp [h]

theorem hits_getD (os : List (Option Nat)) (n p : Nat) :
    (os.foldl bump (List.replicate n 0)).getD p 0
      = if p < n then os.count (some p) else 0 := by
  by_cases hp : p < n
  · rw [foldl_bump_getD os _ p (by simpa using hp), if_pos hp]
    simp [List.getD_eq_getElem?_getD, hp]
  · rw [if_neg hp, List.getD_eq_getElem?_getD, List.getElem?_eq_none]
    · rfl
    · rw [foldl_bump_length]; simpa using hp

theorem map_div_getD (hit : List Nat) (n : R) (p : Nat) :
    (hit.map (fun (h : Nat) => (h : R) / n)).getD p 0 = ((hit.getD p 0 : Nat) : R) / n := by
  simp only [List.getD_eq_getElem?_getD, List.getElem?_map]
  cases hit[p]? <;> simp

theorem count_map_option (os : List (Option Nat)) (f : Nat → Nat) (hf : Function.Injective f)
    (j : Nat) : (os.map (Option.map f)).count (some (f j)) = os.count (some j) := by
  induction os with
  | nil => rfl
  | cons a rest ih =>
    simp only [List.map_cons, List.count_cons, ih]
    cases a with
    | none => simp
    | some q =>
      by_cases h : q = j
      · simp [h]
      · have : f q ≠ f j := fun e => h (hf e)
        simp [h, this]

theorem viewFactors_getD (env : Platform R G) (origin originNormal : Vec3 R)
    (E : List (PolygonWithTemp R)) (O : List (List (Vec3 R))) (N : Nat) (rng : G) (p : Nat) :
    (calculateViewFactorsWithBlockage env origin originNormal E O N rng).1.viewFactors.getD p 0
      = ((if p < E.length then
            ((generateCosineHemisphereRays env N originNormal rng).1.map
              (rayOutcome origin (O.map (mkPolyData env))
                (E.map (fun poly => mkPolyData env poly.vertices)))).count (some p)
          else 0 : Nat) : R) / (N : R) := by
  rw [viewFactors_eq, map_div_getD, hits_getD]

theorem viewFactors_length (env : Platform R G) (origin originNormal : Vec3 R)
    (E : List (PolygonWithTemp R)) (O : List (List (Vec3 R))) (N : Nat) (rng : G) :
    (calculateViewFactorsWithBlockage env origin originNormal E O N rng).1.viewFactors.length
      = E.length := by
  rw [viewFactors_eq, List.length_map, foldl_bump_length, List.length_replicate]

/-- Re-indexing of the emitters of a scene through an injective index map `f`
that keeps the occluder distances, reads the emitter distances of the second
scene from the first, leaves only never-hit emitters outside its image and keeps
the order of tied closest emitters: the view factors correspond. -/
theorem viewFactors_reindex (env : Platform R G) (origin originNormal : Vec3 R)
    (E E' : List (PolygonWithTemp R)) (O O' : List (List (Vec3 R))) (N : Nat) (rng : G)
    (f : Nat → Nat) (hf : Function.Injective f)
    (hlen : ∀ j, j < E'.length ↔ f j < E.length)
    (hO : ∀ d ∈ (generateCosineHemisphereRays env N originNormal rng).1,
      minDist origin d (O.map (mkPolyData env)) = minDist origin d (O'.map (mkPolyData env)))
    (hD : ∀ d ∈ (generateCosineHemisphereRays env N originNormal rng).1, ∀ j,
      ((E'.map (fun poly => mkPolyData env poly.vertices)).map (hitDist origin d)).getD j ⊤
        = ((E.map (fun poly => mkPolyData env poly.vertices)).map (hitDist origin d)).getD (f j) ⊤)
    (hrest : ∀ d ∈ (generateCosineHemisphereRays env N originNormal rng).1, ∀ i,
      (∀ j, f j ≠ i) →
      ((E.map (fun poly => mkPolyData env poly.vertices)).map (hitDist origin d)).getD i ⊤ = ⊤)
    (htie : ∀ d ∈ (generateCosineHemisphereRays env N originNormal rng).1, ∀ a b,
      ((E.map (fun poly => mkPolyData env poly.vertices)).map (hitDist origin d)).getD (f a) ⊤
        = ((E.map (fun poly => mkPolyData env poly.vertices)).map (hitDist origin d)).getD (f b) ⊤ →
      ((E.map (fun poly => mkPolyData env poly.vertices)).map (hitDist origin d)).getD (f a) ⊤
        < minDist origin d (O.map (mkPolyData env)) →
      (∀ m,
        ((E.map (fun poly => mkPolyData env poly.vertices)).map (hitDist origin d)).getD (f a) ⊤
          ≤ ((E.map (fun poly => mkPolyData env poly.vertices)).map (hitDist origin d)).getD m ⊤) →
      (a < b ↔ f a < f b)) :
    (∀ j, (calculateViewFactorsWithBlockage env origin originNormal E' O' N rng).1.viewFactors.getD j 0
        = (calculateViewFactorsWithBlockage env origin originNormal E O N rng).1.viewFactors.getD
            (f j) 0) ∧
    (∀ i, (∀ j, f j ≠ i) →
      (calculateViewFactorsWithBlockage env origin originNormal E O N rng).1.viewFactors.getD i 0
        = 0) := by
  have hos : (generateCosineHemisphereRays env N originNormal rng).1.map
        (rayOutcome origin (O.map (mkPolyData env))
          (E.map (fun poly => mkPolyData env poly.vertices)))
      = ((generateCosineHemisphereRays env N originNormal rng).1.map
          (rayOutcome origin (O'.map (mkPolyData env))
            (E'.map (fun poly => mkPolyData env poly.vertices)))).map (Option.map f) := by
    rw [List.map_map]
    apply List.map_congr_left
    intro d hd
    simp only [Function.comp, rayOutcome_eq_winner]
    rw [← hO d hd]
    exact winner_reindex _ _ _ f (hD d hd) (hrest d hd) (htie d hd)
  constructor
  · intro j
    rw [viewFactors_getD, viewFactors_getD, hos]
    rw [count_map_option _ f hf j]
    by_cases hj : j < E'.length
    · rw [if_pos hj, if_pos ((hlen j).mp hj)]
    · rw [if_neg hj, if_neg (fun h => hj ((hlen j).mpr h))]
  · intro i hi
    rw [viewFactors_getD, hos]
    have : ((List.map (rayOutcome origin (O'.map (mkPolyData env))
          (E'.map (fun poly => mkPolyData env poly.vertices)))
        (generateCosineHemisphereRays env N originNormal rng).1).map (Option.map f)).count (some i)
          = 0 := by
      rw [List.count_eq_zero]
      intro hmem
      obtain ⟨x, _, hx⟩ := List.mem_map.mp hmem
      cases x with
      | none => cases hx
      | some q => exact hi q (Option.some.inj hx)
    rw [this]
    simp

end ReindexLemmas

section OccluderLemmas
variable {R : Type} [LinearOrderedField R] {G : Type}

theorem hitDist_of_rayMisses (env : Platform R G) (o d : Vec3 R) (P : List (Vec3 R))
    (h : rayMisses env o d P = true) : hitDist o d (mkPolyData env P) = ⊤ := by
  unfold rayMisses at h
  unfold mkPolyData hitDist
  cases hp : getPolygonPlane env P with
  | none => simp
  | some pl =>
    simp only [hp] at h
    simp only [if_true]
    rcases hr : rayPlaneIntersect o d pl.normal pl.point with ⟨_ | hit, t⟩
    · simp
    · simp only [hr] at h
      simp only [Bool.not_eq_true'] at h
      simp [h]

theorem minDist_append (o d : Vec3 R) (A B : List (PolyData R)) :
    minDist o d (A ++ B) = min (minDist o d A) (minDist o d B) := by
  induction A with
  | nil => simp [minDist]
  | cons a rest ih =>
    simp only [minDist, List.cons_append, List.map_cons, List.foldr_cons] at ih ⊢
    rw [ih, min_assoc]

theorem minDist_cons (o d : Vec3 R) (pd : PolyData R) (B : List (PolyData R)) :
    minDist o d (pd :: B) = min (hitDist o d pd) (minDist o d B) := rfl

theorem minDist_insert_of_top (o d : Vec3 R) (A B : List (PolyData R)) (pd : PolyData R)
    (h : hitDist o d pd = ⊤) : minDist o d (A ++ pd :: B) = minDist o d (A ++ B) := by
  rw [minDist_append, minDist_cons, h, minDist_append]
  simp

theorem rayStep_congr_inert (o : Vec3 R) (I I' E : List (PolyData R)) (acc : RayAcc R)
    (d : Vec3 R) (h : minDist o d I = minDist o d I') :
    rayStep o I E acc d = rayStep o I' E acc d := by
  unfold rayStep
  rw [inertLoop_eq_minDist, inertLoop_eq_minDist, h]

theorem calculate_congr_inert (env : Platform R G) (origin originNormal : Vec3 R)
    (E : List (PolygonWithTemp R)) (O O' : List (List (Vec3 R))) (N : Nat) (rng : G)
    (h : ∀ d ∈ (generateCosineHemisphereRays env N originNormal rng).1,
      minDist origin d (O.map (mkPolyData env)) = minDist origin d (O'.map (mkPolyData env))) :
    calculateViewFactorsWithBlockage env origin originNormal E O N rng
      = calculateViewFactorsWithBlockage env origin originNormal E O' N rng := by
  unfold calculateViewFactorsWithBlockage
  by_cases hN : N = 0
  · simp [hN]
  · simp only [hN, if_false]
    rw [List.foldl_ext _ (rayStep origin (O'.map (mkPolyData env))
      (E.map (fun poly => mkPolyData env poly.vertices)))]
    intro acc d hd
    exact rayStep_congr_inert _ _ _ _ _ _ (h d hd)

end OccluderLemmas

section OccluderClaims
variable {R : Type} [LinearOrderedField R] {G : Type}

/-- C9: adding, anywhere in the occluder list, an inert polygon that every
sampled ray misses leaves the whole result of the estimator unchanged, and so
the temperature. -/
theorem inert_polygon_unhit (env : Platform R G) (origin originNormal : Vec3 R)
    (E : List (PolygonWithTemp R)) (O₁ O₂ : List (List (Vec3 R))) (P : List (Vec3 R))
    (N : Nat) (rng : G)
    (hmiss : ∀ d ∈ (generateCosineHemisphereRays env N originNormal rng).1,
      rayMisses env origin d P = true) :
    calculateViewFactorsWithBlockage env origin originNormal E (O₁ ++ P :: O₂) N rng
      = calculateViewFactorsWithBlockage env origin originNormal E (O₁ ++ O₂) N rng ∧
    totalTemperature
        (calculateViewFactorsWithBlockage env origin originNormal E (O₁ ++ P :: O₂) N
          rng).1.viewFactors E
      = totalTemperature
        (calculateViewFactorsWithBlockage env origin originNormal E (O₁ ++ O₂) N
          rng).1.viewFactors E := by
  have h : calculateViewFactorsWithBlockage env origin originNormal E (O₁ ++ P :: O₂) N rng
      = calculateViewFactorsWithBlockage env origin originNormal E (O₁ ++ O₂) N rng := by
    apply calculate_congr_inert
    intro d hd
    simp only [List.map_append, List.map_cons]
    exact minDist_insert_of_top _ _ _ _ _ (hitDist_of_rayMisses env origin d P (hmiss d hd))
  exact ⟨h, by rw [h]⟩

end OccluderClaims

section FilterLemmas

theorem origIdx_strictMono {α : Type} (keep : α → Bool) (l : List α) :
    StrictMono (origIdx keep l) := by
  induction l with
  | nil => intro a b h; exact h
  | cons x l ih =>
    intro a b h
    unfold origIdx
    by_cases hk : keep x = true
    · simp only [hk, if_true]
      cases a with
      | zero =>
        cases b with
        | zero => exact absurd h (lt_irrefl _)
        | succ b => simp
      | succ a =>
        cases b with
        | zero => exact absurd h (Nat.not_lt_zero _)
        | succ b => simpa using ih (Nat.lt_of_succ_lt_succ h)
    · simp only [hk]
      simpa using ih h

theorem getElem?_filter_origIdx {α : Type} (keep : α → Bool) (l : List α) (j : Nat) :
    (l.filter keep)[j]? = l[origIdx keep l j]? := by
  induction l generalizing j with
  | nil => simp [origIdx]
  | cons x l ih =>
    unfold origIdx
    by_cases hk : keep x = true
    · simp only [hk, if_true, List.filter_cons_of_pos]
      cases j with
      | zero => simp
      | succ j => simp [ih]
    · have hf : (x :: l).filter keep = l.filter keep := List.filter_cons_of_neg hk
      rw [hf]
      simp [hk, ih]

theorem not_keep_of_not_origIdx {α : Type} (keep : α → Bool) (l : List α) (i : Nat)
    (h : ∀ j, origIdx keep l j ≠ i) : ∃ a, l[i]? = some a ∧ keep a = false := by
  induction l generalizing i with
  | nil => exact absurd rfl (h i)
  | cons x l ih =>
    by_cases hk : keep x = true
    · cases i with
      | zero =>
        have := h 0
        simp [origIdx, hk] at this
      | succ i =>
        have h' : ∀ j, origIdx keep l j ≠ i := by
          intro j hj
          have := h (j + 1)
          simp [origIdx, hk, hj] at this
        simpa using ih i h'
    · cases i with
      | zero => exact ⟨x, by simp, by simpa using hk⟩
      | succ i =>
        have h' : ∀ j, origIdx keep l j ≠ i := by
          intro j hj
          have := h j
          simp [origIdx, hk, hj] at this
        simpa using ih i h'

theorem getElem?_zip_filter {α β : Type} (keep : α → Bool) (l : List α) (v : List β)
    (hlen : v.length = l.length) (j : Nat) :
    (((l.zip v).filter (fun p => keep p.1)).map Prod.snd)[j]? = v[origIdx keep l j]? := by
  induction l generalizing v j with
  | nil =>
    have : v = [] := List.length_eq_zero.mp hlen
    simp [this, origIdx]
  | cons x l ih =>
    cases v with
    | nil => simp at hlen
    | cons y v =>
      have hlen' : v.length = l.length := by simpa using hlen
      unfold origIdx
      by_cases hk : keep x = true
      · simp only [List.zip_cons_cons, hk, if_true, List.filter_cons_of_pos, List.map_cons]
        cases j with
        | zero => simp
        | succ j => simpa using ih v hlen' j
      · have hf : ((x, y) :: l.zip v).filter (fun p => keep p.1)
            = (l.zip v).filter (fun p => keep p.1) := List.filter_cons_of_neg (by simpa using hk)
        rw [List.zip_cons_cons, hf]
        simpa [hk] using ih v hlen' j

end FilterLemmas

section DegenerateLemmas
variable {R : Type} [LinearOrderedField R] {G : Type}

theorem getPolygonPlane_of_degenerate (env : Platform R G) (hsqrt : env.sqrt 0 = 0)
    (P : List (Vec3 R)) (h : degenerate P = true) : getPolygonPlane env P = none := by
  unfold degenerate at h
  unfold getPolygonPlane
  by_cases hl : P.length < 3
  · simp [hl]
  · simp only [hl, decide_False, Bool.false_or, decide_eq_true_eq] at h
    simp only [hl, if_false, h, length, dot, mul_zero, add_zero, hsqrt]
    norm_num

theorem hitDist_of_no_plane (env : Platform R G) (o d : Vec3 R) (P : List (Vec3 R))
    (h : getPolygonPlane env P = none) : hitDist o d (mkPolyData env P) = ⊤ := by
  simp [mkPolyData, h, hitDist]

theorem minDist_filter (env : Platform R G) (o d : Vec3 R) (O : List (List (Vec3 R)))
    (keep : List (Vec3 R) → Bool)
    (h : ∀ P ∈ O, keep P = false → hitDist o d (mkPolyData env P) = ⊤) :
    minDist o d (O.map (mkPolyData env)) = minDist o d ((O.filter keep).map (mkPolyData env)) := by
  induction O with
  | nil => rfl
  | cons P rest ih =>
    have ih' := ih (fun Q hQ => h Q (List.mem_cons_of_mem _ hQ))
    by_cases hk : keep P = true
    · rw [List.filter_cons_of_pos hk, List.map_cons, List.map_cons, minDist_cons, minDist_cons, ih']
    · have hf : (P :: rest).filter keep = rest.filter keep := List.filter_cons_of_neg hk
      rw [hf, List.map_cons, minDist_cons, h P (List.mem_cons_self _ _) (by simpa using hk), ih']
      simp

theorem viewFactor_zero_of_never_hit (env : Platform R G) (origin originNormal : Vec3 R)
    (E : List (PolygonWithTemp R)) (O : List (List (Vec3 R))) (N : Nat) (rng : G) (i : Nat)
    (h : ∀ d ∈ (generateCosineHemisphereRays env N originNormal rng).1,
      ((E.map (fun poly => mkPolyData env poly.vertices)).map (hitDist origin d)).getD i ⊤ = ⊤) :
    (calculateViewFactorsWithBlockage env origin originNormal E O N rng).1.viewFactors.getD i 0
      = 0 := by
  rw [viewFactors_getD]
  have : ((generateCosineHemisphereRays env N originNormal rng).1.map
      (rayOutcome origin (O.map (mkPolyData env))
        (E.map (fun poly => mkPolyData env poly.vertices)))).count (some i) = 0 := by
    rw [List.count_eq_zero]
    intro hmem
    obtain ⟨d, hd, hx⟩ := List.mem_map.mp hmem
    rw [rayOutcome_eq_winner] at hx
    have h1 := ((winner_eq_some_iff _ _ i).mp hx).1
    rw [h d hd] at h1
    exact absurd h1 (not_lt.mpr le_top)
  rw [this]
  simp

end DegenerateLemmas

section DegenerateClaims
variable {R : Type} [LinearOrderedField R] {G : Type}

/-- C10: on a platform with `sqrt 0 = 0`, degenerate polygons (fewer than three
vertices, or first three vertices collinear) are skipped by the estimator, which
is a total function: a degenerate emitter gets view factor 0, a degenerate
occluder never changes the closest occluder distance of a ray, and the view
factors of the other emitters are those of the scene with the degenerate
emitters and occluders removed. -/
theorem degenerate_polygons_skipped (env : Platform R G) (hsqrt : env.sqrt 0 = 0)
    (origin originNormal : Vec3 R) (E : List (PolygonWithTemp R)) (O : List (List (Vec3 R)))
    (N : Nat) (rng : G) :
    let VF := (calculateViewFactorsWithBlockage env origin originNormal E O N rng).1.viewFactors
    let VF' := (calculateViewFactorsWithBlockage env origin originNormal
      (E.filter (fun e => !degenerate e.vertices)) (O.filter (fun P => !degenerate P)) N
      rng).1.viewFactors
    (∀ i (h : i < E.length), degenerate E[i].vertices = true → VF.getD i 0 = 0) ∧
    (∀ P, degenerate P = true → ∀ d c, inertStep origin d c (mkPolyData env P) = c) ∧
    ((E.zip VF).filter (fun p => !degenerate p.1.vertices)).map Prod.snd = VF' := by
  intro VF VF'
  have hdeg : ∀ P : List (Vec3 R), degenerate P = true →
      ∀ d, hitDist origin d (mkPolyData env P) = ⊤ := fun P hP d =>
    hitDist_of_no_plane env origin d P (getPolygonPlane_of_degenerate env hsqrt P hP)
  refine ⟨?_, ?_, ?_⟩
  · intro i hi hd
    apply viewFactor_zero_of_never_hit
    intro d _
    rw [List.getD_eq_getElem _ _ (by simpa using hi)]
    simpa using hdeg _ hd d
  · intro P hP d c
    rw [inertStep_eq_min, hdeg P hP d]
    simp
  · have hmono := origIdx_strictMono (fun e : PolygonWithTemp R => !degenerate e.vertices) E
    have hlen : ∀ j, j < (E.filter (fun e => !degenerate e.vertices)).length ↔
        origIdx (fun e : PolygonWithTemp R => !degenerate e.vertices) E j < E.length := by
      intro j
      have := getElem?_filter_origIdx (fun e : PolygonWithTemp R => !degenerate e.vertices) E j
      constructor
      · intro hj
        rw [List.getElem?_eq_getElem hj] at this
        by_contra hc
        rw [List.getElem?_eq_none (not_lt.mp hc)] at this
        cases this
      · intro hj
        rw [List.getElem?_eq_getElem hj] at this
        by_contra hc
        rw [List.getElem?_eq_none (not_lt.mp hc)] at this
        cases this
    have hre := viewFactors_reindex env origin originNormal E
      (E.filter (fun e => !degenerate e.vertices)) O (O.filter (fun P => !degenerate P)) N rng
      (origIdx (fun e : PolygonWithTemp R => !degenerate e.vertices) E) hmono.injective hlen
      (by
        intro d _
        apply minDist_filter
        intro P _ hk
        exact hdeg P (by simpa using hk) d)
      (by
        intro d _ j
        simp only [List.getD_eq_getElem?_getD, List.getElem?_map, getElem?_filter_origIdx])
      (by
        intro d _ i hi
        obtain ⟨a, ha, hka⟩ := not_keep_of_not_origIdx _ E i hi
        simp only [List.getD_eq_getElem?_getD, List.getElem?_map, ha, Option.map_some',
          Option.getD_some]
        exact hdeg _ (by simpa using hka) d)
      (by
        intro d _ a b _ _ _
        exact hmono.lt_iff_lt.symm)
    apply List.ext_getElem?
    intro j
    rw [getElem?_zip_filter (fun e : PolygonWithTemp R => !degenerate e.vertices) E VF
      (viewFactors_length env origin originNormal E O N rng) j]
    have hj := hre.1 j
    by_cases hjl : j < (E.filter (fun e => !degenerate e.vertices)).length
    · have h1 : j < VF'.length := by
        rw [viewFactors_length]; exact hjl
      have h2 : origIdx (fun e : PolygonWithTemp R => !degenerate e.vertices) E j < VF.length := by
        rw [viewFactors_length]; exact (hlen j).mp hjl
      rw [List.getElem?_eq_getElem h1, List.getElem?_eq_getElem h2]
      rw [List.getD_eq_getElem _ _ h1, List.getD_eq_getElem _ _ h2] at hj
      rw [hj]
    · have h1 : VF'.length ≤ j := by
        rw [viewFactors_length]; exact not_lt.mp hjl
      have h2 : VF.length ≤ origIdx (fun e : PolygonWithTemp R => !degenerate e.vertices) E j := by
        rw [viewFactors_length]; exact not_lt.mp (fun h => hjl ((hlen j).mpr h))
      rw [List.getElem?_eq_none h1, List.getElem?_eq_none h2]

end DegenerateClaims

section PermutationLemmas
variable {R : Type} [LinearOrderedField R] {G : Type}

theorem foldr_min_eq_getD (ds : List (WithTop R)) (p : Nat)
    (h : ∀ j, ds.getD p ⊤ ≤ ds.getD j ⊤) : ds.foldr min ⊤ = ds.getD p ⊤ := by
  apply le_antisymm (foldr_min_le_getD ds p)
  rcases foldr_min_top_or_mem ds with ht | hmem
  · rw [ht]; exact le_top
  · obtain ⟨j, hj, hje⟩ := List.getElem_of_mem hmem
    rw [← hje, ← List.getD_eq_getElem _ ⊤ hj]
    exact h j

theorem sum_range_map_eq_sum_fin (g : Nat → R) (n : Nat) :
    ((List.range n).map g).sum = ∑ i : Fin n, g i := by
  induction n with
  | zero => simp
  | succ k ih =>
    rw [List.range_succ, List.map_append, List.sum_append, ih, Fin.sum_univ_castSucc]
    simp

end PermutationLemmas

section PermutationClaims
variable {R : Type} [LinearOrderedField R] {G : Type}

/-- C8 (amended): when every sampled ray that is counted has its closest emitter
distance attained by one emitter only, running the estimator on a permuted
emitter list returns the correspondingly permuted view factors, and the
aggregated temperature is unchanged. -/
theorem viewFactors_permute (env : Platform R G) (origin originNormal : Vec3 R)
    (E : List (PolygonWithTemp R)) (O : List (List (Vec3 R))) (N : Nat) (rng : G)
    (σ : Equiv.Perm (Fin E.length))
    (hunique : ∀ d ∈ (generateCosineHemisphereRays env N originNormal rng).1,
      minDist origin d (E.map (fun poly => mkPolyData env poly.vertices))
        < minDist origin d (O.map (mkPolyData env)) →
      ∀ a b : Fin E.length,
        hitDist origin d (mkPolyData env (E.get a).vertices)
          = minDist origin d (E.map (fun poly => mkPolyData env poly.vertices)) →
        hitDist origin d (mkPolyData env (E.get b).vertices)
          = minDist origin d (E.map (fun poly => mkPolyData env poly.vertices)) →
        a = b) :
    let E' := List.ofFn (fun j => E.get (σ.symm j))
    let VF := (calculateViewFactorsWithBlockage env origin originNormal E O N rng).1.viewFactors
    let VF' := (calculateViewFactorsWithBlockage env origin originNormal E' O N rng).1.viewFactors
    (∀ i : Fin E.length, VF'.getD (σ i) 0 = VF.getD i 0) ∧
      totalTemperature VF' E' = totalTemperature VF E := by
  intro E' VF VF'
  have hE'len : E'.length = E.length := List.length_ofFn _
  let f : Nat → Nat := fun j => if h : j < E.length then ((σ.symm ⟨j, h⟩ : Fin E.length) : Nat) else j
  have hf_lt : ∀ j (h : j < E.length), f j = ((σ.symm ⟨j, h⟩ : Fin E.length) : Nat) := by
    intro j h; simp only [f, h, dif_pos]
  have hf_ge : ∀ j, ¬ j < E.length → f j = j := by
    intro j h; simp only [f, h, dif_neg, not_false_eq_true]
  have hf_lt_iff : ∀ j, f j < E.length ↔ j < E.length := by
    intro j
    by_cases h : j < E.length
    · rw [hf_lt j h]; exact ⟨fun _ => h, fun _ => Fin.is_lt _⟩
    · rw [hf_ge j h]
  have hf : Function.Injective f := by
    intro a b hab
    by_cases ha : a < E.length
    · have hb : b < E.length := (hf_lt_iff b).mp (hab ▸ (hf_lt_iff a).mpr ha)
      rw [hf_lt a ha, hf_lt b hb] at hab
      have := σ.symm.injective (Fin.ext hab)
      exact congrArg Fin.val this
    · have hb : ¬ b < E.length := fun hb => ha ((hf_lt_iff a).mp (hab ▸ (hf_lt_iff b).mpr hb))
      rw [hf_ge a ha, hf_ge b hb] at hab
      exact hab
  have hE' : ∀ j, E'[j]? = E[f j]? := by
    intro j
    by_cases h : j < E.length
    · have h' : j < E'.length := hE'len ▸ h
      rw [List.getElem?_eq_getElem h', List.getElem?_eq_getElem ((hf_lt_iff j).mpr h)]
      simp only [E', List.getElem_ofFn, List.get_eq_getElem, hf_lt j h]
    · rw [List.getElem?_eq_none (by rw [hE'len]; exact not_lt.mp h),
        List.getElem?_eq_none (not_lt.mp (fun hh => h ((hf_lt_iff j).mp hh)))]
  have hre := viewFactors_reindex env origin originNormal E E' O O N rng f hf
    (by intro j; rw [hE'len]; exact (hf_lt_iff j).symm)
    (by intro d _; rfl)
    (by
      intro d _ j
      simp only [List.getD_eq_getElem?_getD, List.getElem?_map, hE'])
    (by
      intro d _ i hi
      apply getD_top_of_length_le
      simp only [List.length_map]
      by_contra hc
      have hil : i < E.length := not_le.mp hc
      apply hi ((σ ⟨i, hil⟩ : Fin E.length) : Nat)
      rw [hf_lt _ (Fin.is_lt _)]
      simp)
    (by
      intro d hd a b hab hlt hmin
      have hfin : ∀ c, ((E.map (fun poly => mkPolyData env poly.vertices)).map
          (hitDist origin d)).getD (f c) ⊤ < ⊤ → f c < E.length := by
        intro c hc
        by_contra hcon
        rw [getD_top_of_length_le _ _ (by simpa using not_lt.mp hcon)] at hc
        exact absurd hc (lt_irrefl _)
      have hA : ((E.map (fun poly => mkPolyData env poly.vertices)).map
          (hitDist origin d)).getD (f a) ⊤ < ⊤ := lt_of_lt_of_le hlt le_top
      have ha := hfin a hA
      have hb := hfin b (hab ▸ hA)
      have hm := foldr_min_eq_getD _ (f a) hmin
      have hget : ∀ c (hc : c < E.length),
          ((E.map (fun poly => mkPolyData env poly.vertices)).map (hitDist origin d)).getD c ⊤
            = hitDist origin d (mkPolyData env (E.get ⟨c, hc⟩).vertices) := by
        intro c hc
        rw [List.getD_eq_getElem _ _ (by simpa using hc)]
        simp
      have hEq := hunique d hd (by unfold minDist; rw [hm]; exact hlt) ⟨f a, ha⟩ ⟨f b, hb⟩
        (by rw [← hget (f a) ha]; unfold minDist; exact hm.symm)
        (by rw [← hget (f b) hb, ← hab]; unfold minDist; exact hm.symm)
      have hfab : f a = f b := congrArg Fin.val hEq
      have : a = b := hf hfab
      subst this
      simp)
  constructor
  · intro i
    have := hre.1 ((σ i : Fin E.length) : Nat)
    rw [hf_lt _ (Fin.is_lt _)] at this
    simpa using this
  · rw [totalTemperature_eq_sum, totalTemperature_eq_sum, hE'len,
      sum_range_map_eq_sum_fin, sum_range_map_eq_sum_fin]
    have hterm : ∀ j : Fin E.length,
        VF'.getD j 0 * (E'.getD j ⟨[], 0⟩).temperature
          = (fun i : Fin E.length => VF.getD i 0 * (E.getD i ⟨[], 0⟩).temperature)
              (σ.symm j) := by
      intro j
      have h1 := hre.1 (j : Nat)
      rw [hf_lt _ j.is_lt] at h1
      have h2 : E'.getD j ⟨[], 0⟩ = E.getD (σ.symm j) ⟨[], 0⟩ := by
        rw [List.getD_eq_getElem?_getD, List.getD_eq_getElem?_getD, hE', hf_lt _ j.is_lt]
      simp only [h1, h2]
    rw [Finset.sum_congr rfl (fun j _ => hterm j)]
    exact Equiv.sum_comp σ.symm (fun i : Fin E.length => VF.getD i 0 * (E.getD i ⟨[], 0⟩).temperature)

end PermutationClaims

section Concrete

theorem parse_requestTwoPlanes :
    parseInputJson testPlatform 40 requestTwoPlanes = Parsed.ok parsedTwoPlanes := by
  decide!

/-- C5 (witness): the request `parsedTwoPlanes` carries seed 42. -/
theorem pointLoop_seeded_witness :
    parsedTwoPlanes.seed = some 42 ∧
    pointLoop testPlatform parsedTwoPlanes [1 / 2, 1 / 2] 2 [] 0
      = ([] ++ (List.range (min 2 (parsedTwoPlanes.receiverPoints.length - 0))).map
            (fun j => seededTemperature testPlatform parsedTwoPlanes 42 (0 + j)),
          0 + min 2 (parsedTwoPlanes.receiverPoints.length - 0)) :=
  ⟨rfl, pointLoop_seeded testPlatform parsedTwoPlanes 42 rfl [1 / 2, 1 / 2] 2 [] 0⟩

/-- C6 (witness): the request `requestTwoPlanes` carries seed 42. -/
theorem runCalculation_seeded_witness :
    (∀ inp, parseInputJson testPlatform 40 requestTwoPlanes = Parsed.ok inp →
      inp.seed.isSome = true) ∧
    runCalculation testPlatform 40 requestTwoPlanes (fun _ => 0)
      = runCalculation testPlatform 40 requestTwoPlanes (fun k => k + 1) :=
  have hseed : ∀ inp, parseInputJson testPlatform 40 requestTwoPlanes = Parsed.ok inp →
      inp.seed.isSome = true := by
    intro inp h
    rw [parse_requestTwoPlanes] at h
    cases h
    rfl
  ⟨hseed, runCalculation_seeded testPlatform 40 requestTwoPlanes hseed (fun _ => 0)
    (fun k => k + 1)⟩

/-- C3: the request `requestTwoPlanes` declares plane `b`, whose point faces the
emitter and has temperature 1000, before plane `a`, whose point faces away and
has temperature 0; the output gives 1000 to `a` and 0 to `b`. -/
theorem runCalculation_planes_swapped :
    runCalculation testPlatform 40 requestTwoPlanes (fun _ => 0)
      = some ("\x7b\"success\":true,\"planes\":[\x7b\"name\":\"a\",\"width\":1,\"height\":1,\"values\":[1000]\x7d,\x7b\"name\":\"b\",\"width\":1,\"height\":1,\"values\":[0]\x7d]\x7d", true) ∧
    (∀ g ∈ [0, 1], totalTemperature
      (calculateViewFactorsWithBlockage testPlatform ⟨0, 0, 0⟩ ⟨0, 0, -1⟩
        parsedTwoPlanes.polygons [] 1 (testPlatform.seed (pointSeed 42 g))).1.viewFactors
      parsedTwoPlanes.polygons = 0) ∧
    (∀ g ∈ [0, 1], totalTemperature
      (calculateViewFactorsWithBlockage testPlatform ⟨0, 0, 0⟩ ⟨0, 0, 1⟩
        parsedTwoPlanes.polygons [] 1 (testPlatform.seed (pointSeed 42 g))).1.viewFactors
      parsedTwoPlanes.polygons = 1000) := by
  decide!

/-- C8 (counterexample): two coincident emitters; the first in the list takes
the hit in either order, so swapping them does not swap the view factors, and
the temperature changes from 100 to 200. -/
theorem viewFactors_permute_counterexample :
    (calculateViewFactorsWithBlockage testPlatform ⟨0, 0, 0⟩ ⟨0, 0, 1⟩ twinEmitters [] 1
        []).1.viewFactors = [1, 0] ∧
    (calculateViewFactorsWithBlockage testPlatform ⟨0, 0, 0⟩ ⟨0, 0, 1⟩ twinEmittersSwapped [] 1
        []).1.viewFactors = [1, 0] ∧
    totalTemperature (calculateViewFactorsWithBlockage testPlatform ⟨0, 0, 0⟩ ⟨0, 0, 1⟩
        twinEmitters [] 1 []).1.viewFactors twinEmitters = 100 ∧
    totalTemperature (calculateViewFactorsWithBlockage testPlatform ⟨0, 0, 0⟩ ⟨0, 0, 1⟩
        twinEmittersSwapped [] 1 []).1.viewFactors twinEmittersSwapped = 200 ∧
    (calculateViewFactorsWithBlockage testPlatform ⟨0, 0, 0⟩ ⟨0, 0, 1⟩ twinEmittersSwapped [] 1
        []).1.viewFactors.getD 1 0
      ≠ (calculateViewFactorsWithBlockage testPlatform ⟨0, 0, 0⟩ ⟨0, 0, 1⟩ twinEmitters [] 1
        []).1.viewFactors.getD 0 0 := by
  decide!

/-- C8 (witness): two emitters at different heights, swapped. -/
theorem viewFactors_permute_witness :
    let E' := List.ofFn (fun j => stackedEmitters.get (swapStacked.symm j))
    let VF := (calculateViewFactorsWithBlockage testPlatform ⟨0, 0, 0⟩ ⟨0, 0, 1⟩
      stackedEmitters [] 1 []).1.viewFactors
    let VF' := (calculateViewFactorsWithBlockage testPlatform ⟨0, 0, 0⟩ ⟨0, 0, 1⟩
      E' [] 1 []).1.viewFactors
    (∀ i : Fin stackedEmitters.length, VF'.getD (swapStacked i) 0 = VF.getD i 0) ∧
      totalTemperature VF' E' = totalTemperature VF stackedEmitters :=
  viewFactors_permute testPlatform ⟨0, 0, 0⟩ ⟨0, 0, 1⟩ stackedEmitters [] 1 [] swapStacked
    (by decide!)

/-- C9 (witness): the ray along the `z` axis misses `sideSquare`. -/
theorem inert_polygon_unhit_witness :
    (∀ d ∈ (generateCosineHemisphereRays testPlatform 1 (⟨0, 0, 1⟩ : Vec3 ℚ) []).1,
      rayMisses testPlatform ⟨0, 0, 0⟩ d sideSquare = true) ∧
    calculateViewFactorsWithBlockage testPlatform ⟨0, 0, 0⟩ ⟨0, 0, 1⟩ stackedEmitters
        ([] ++ sideSquare :: []) 1 []
      = calculateViewFactorsWithBlockage testPlatform ⟨0, 0, 0⟩ ⟨0, 0, 1⟩ stackedEmitters
        ([] ++ []) 1 [] :=
  ⟨by decide!,
    (inert_polygon_unhit testPlatform ⟨0, 0, 0⟩ ⟨0, 0, 1⟩ stackedEmitters [] [] sideSquare 1 []
      (by decide!)).1⟩

/-- C10 (witness): the test platform has `sqrt 0 = 0`; a scene with a
two-vertex emitter and a collinear occluder. -/
theorem degenerate_polygons_skipped_witness :
    testPlatform.sqrt 0 = 0 ∧
    ((emittersWithDegenerate.zip (calculateViewFactorsWithBlockage testPlatform ⟨0, 0, 0⟩
        ⟨0, 0, 1⟩ emittersWithDegenerate [collinearTriple] 1 []).1.viewFactors).filter
          (fun p => !degenerate p.1.vertices)).map Prod.snd
      = (calculateViewFactorsWithBlockage testPlatform ⟨0, 0, 0⟩ ⟨0, 0, 1⟩
          (emittersWithDegenerate.filter (fun e => !degenerate e.vertices))
          ([collinearTriple].filter (fun P => !degenerate P)) 1 []).1.viewFactors :=
  ⟨by decide!,
    (degenerate_polygons_skipped testPlatform (by decide!) ⟨0, 0, 0⟩ ⟨0, 0, 1⟩
      emittersWithDegenerate [collinearTriple] 1 []).2.2⟩

end Concrete
section GeometryClaims
variable {R : Type} [LinearOrderedField R] {G : Type}

theorem dot_add_scale_sub (o d n a : Vec3 R) (t : R) :
    dot n ((o.add (d.scale t)).sub a) = dot n (o.sub a) + t * dot n d := by
  simp only [dot, Vec3.add, Vec3.sub, Vec3.scale]
  ring

/-- C15: `rayPlaneIntersect` returns a miss (no point, distance `+infinity`)
exactly when `|n.d| < 1e-9` or `t < 1e-7` for `t = -n.(o - a) / (n.d)`;
otherwise it returns the point `o + t d` and the distance `t`, and that point
lies on the plane. -/
theorem rayPlaneIntersect_spec (o d n a : Vec3 R) :
    let u := dot n d
    let t := -dot n (o.sub a) / u
    (rayPlaneIntersect o d n a = (none, ⊤) ↔ (|u| < 1e-9 ∨ t < 1e-7)) ∧
    (¬(|u| < 1e-9 ∨ t < 1e-7) →
      rayPlaneIntersect o d n a = (some (o.add (d.scale t)), (t : WithTop R)) ∧
      dot n ((o.add (d.scale t)).sub a) = 0) := by
  intro u t
  have hval : ¬(|u| < 1e-9 ∨ t < 1e-7) →
      rayPlaneIntersect o d n a = (some (o.add (d.scale t)), (t : WithTop R)) := by
    intro h
    have h1 : ¬ |u| < 1e-9 := fun hh => h (Or.inl hh)
    have h2 : ¬ t < 1e-7 := fun hh => h (Or.inr hh)
    simp only [rayPlaneIntersect]
    rw [if_neg h1, if_neg h2]
  constructor
  · constructor
    · intro hm
      by_contra hc
      rw [hval hc] at hm
      cases hm
    · intro h
      simp only [rayPlaneIntersect]
      rcases h with h | h
      · rw [if_pos h]
      · by_cases h1 : |dot n d| < 1e-9
        · rw [if_pos h1]
        · rw [if_neg h1, if_pos h]
  · intro h
    refine ⟨hval h, ?_⟩
    have h1 : ¬ |u| < 1e-9 := fun hh => h (Or.inl hh)
    have hu : u ≠ 0 := by
      intro h0
      apply h1
      rw [h0, abs_zero]
      norm_num
    rw [dot_add_scale_sub]
    show dot n (o.sub a) + -dot n (o.sub a) / u * u = 0
    field_simp

theorem dropAxis_cases (n : Vec3 R) :
    (|n.x| ≥ |n.y| ∧ |n.x| ≥ |n.z| → dropAxis n = 0) ∧
    (¬(|n.x| ≥ |n.y| ∧ |n.x| ≥ |n.z|) → |n.y| ≥ |n.x| ∧ |n.y| ≥ |n.z| → dropAxis n = 1) ∧
    (¬(|n.x| ≥ |n.y| ∧ |n.x| ≥ |n.z|) → ¬(|n.y| ≥ |n.x| ∧ |n.y| ≥ |n.z|) → dropAxis n = 2) := by
  refine ⟨?_, ?_, ?_⟩
  · rintro ⟨h1, h2⟩
    have : |n.x| = max |n.x| (max |n.y| |n.z|) := (max_eq_left (max_le h1 h2)).symm
    simp only [dropAxis]
    rw [if_pos this]
  · intro hx ⟨h1, h2⟩
    have hxne : ¬ |n.x| = max |n.x| (max |n.y| |n.z|) := by
      intro he
      apply hx
      have : max |n.y| |n.z| ≤ |n.x| := by
        rw [he]; exact le_max_right _ _
      exact ⟨le_trans (le_max_left _ _) this, le_trans (le_max_right _ _) this⟩
    have hy : |n.y| = max |n.x| (max |n.y| |n.z|) := by
      rw [max_eq_left h2, max_eq_right h1]
    simp only [dropAxis]
    rw [if_neg hxne, if_pos hy]
  · intro hx hy
    have hxne : ¬ |n.x| = max |n.x| (max |n.y| |n.z|) := by
      intro he
      apply hx
      have : max |n.y| |n.z| ≤ |n.x| := by
        rw [he]; exact le_max_right _ _
      exact ⟨le_trans (le_max_left _ _) this, le_trans (le_max_right _ _) this⟩
    have hyne : ¬ |n.y| = max |n.x| (max |n.y| |n.z|) := by
      intro he
      apply hy
      have h1 : |n.x| ≤ |n.y| := by rw [he]; exact le_max_left _ _
      have h2 : |n.z| ≤ |n.y| := by
        rw [he]; exact le_trans (le_max_right _ _) (le_max_right _ _)
      exact ⟨h1, h2⟩
    simp only [dropAxis]
    rw [if_neg hxne, if_neg hyne]

theorem isPointInPolygon3D_eq (p : Vec3 R) (polygon : List (Vec3 R)) (n : Vec3 R) :
    isPointInPolygon3D p polygon n
      = isPointInPolygon2D (polygon.map (dropCoord (dropAxis n)))
          (dropCoord (dropAxis n) p).1 (dropCoord (dropAxis n) p).2 := by
  obtain ⟨h0, h1, h2⟩ := dropAxis_cases n
  unfold isPointInPolygon3D
  by_cases hx : |n.x| ≥ |n.y| ∧ |n.x| ≥ |n.z|
  · simp only [hx, and_self, if_true, h0 hx]
    rfl
  · by_cases hy : |n.y| ≥ |n.x| ∧ |n.y| ≥ |n.z|
    · simp only [hx, if_false, hy, and_self, if_true, h1 hx hy]
      rfl
    · simp only [hx, if_false, hy, h2 hx hy]
      rfl

/-- C18: `isPointInPolygon3D` is `isPointInPolygon2D` on the polygon and the
point with the axis of largest absolute normal component dropped and the other
two kept in x, y, z order; on ties the earlier axis is dropped. -/
theorem isPointInPolygon3D_projection (p : Vec3 R) (polygon : List (Vec3 R)) (n : Vec3 R) :
    isPointInPolygon3D p polygon n
      = isPointInPolygon2D (polygon.map (dropCoord (dropAxis n)))
          (dropCoord (dropAxis n) p).1 (dropCoord (dropAxis n) p).2 ∧
    (dropAxis n < 3 ∧ ∀ c ∈ [|n.x|, |n.y|, |n.z|], c ≤ [|n.x|, |n.y|, |n.z|].getD (dropAxis n) 0) ∧
    (|n.x| = |n.y| ∧ |n.x| ≥ |n.z| → dropAxis n = 0) ∧
    (|n.x| = |n.z| ∧ |n.x| ≥ |n.y| → dropAxis n = 0) ∧
    (|n.y| = |n.z| ∧ |n.y| > |n.x| → dropAxis n = 1) := by
  obtain ⟨h0, h1, h2⟩ := dropAxis_cases n
  refine ⟨isPointInPolygon3D_eq p polygon n, ?_, ?_, ?_, ?_⟩
  · by_cases hx : |n.x| ≥ |n.y| ∧ |n.x| ≥ |n.z|
    · rw [h0 hx]
      refine ⟨by norm_num, ?_⟩
      intro c hc
      simp only [List.mem_cons, List.mem_singleton, List.not_mem_nil, or_false] at hc
      rcases hc with rfl | rfl | rfl
      · exact le_refl _
      · exact hx.1
      · exact hx.2
    · by_cases hy : |n.y| ≥ |n.x| ∧ |n.y| ≥ |n.z|
      · rw [h1 hx hy]
        refine ⟨by norm_num, ?_⟩
        intro c hc
        simp only [List.mem_cons, List.mem_singleton, List.not_mem_nil, or_false] at hc
        rcases hc with rfl | rfl | rfl
        · exact hy.1
        · exact le_refl _
        · exact hy.2
      · rw [h2 hx hy]
        refine ⟨by norm_num, ?_⟩
        have hzx : |n.x| ≤ |n.z| := by
          by_contra hc
          have hc' : |n.z| < |n.x| := not_le.mp hc
          by_cases hxy : |n.y| ≤ |n.x|
          · exact hx ⟨hxy, le_of_lt hc'⟩
          · exact hy ⟨le_of_lt (not_le.mp hxy), le_trans (le_of_lt hc') (le_of_lt (not_le.mp hxy))⟩
        have hzy : |n.y| ≤ |n.z| := by
          by_contra hc
          have hc' : |n.z| < |n.y| := not_le.mp hc
          by_cases hxy : |n.x| ≤ |n.y|
          · exact hy ⟨hxy, le_of_lt hc'⟩
          · exact hx ⟨le_of_lt (not_le.mp hxy), le_trans (le_of_lt hc') (le_of_lt (not_le.mp hxy))⟩
        intro c hc
        simp only [List.mem_cons, List.mem_singleton, List.not_mem_nil, or_false] at hc
        rcases hc with rfl | rfl | rfl
        · exact hzx
        · exact hzy
        · exact le_refl _
  · rintro ⟨he, hz⟩
    exact h0 ⟨le_of_eq he.symm, hz⟩
  · rintro ⟨he, hy⟩
    exact h0 ⟨hy, le_of_eq he.symm⟩
  · rintro ⟨he, hgt⟩
    exact h1 (fun h => absurd h.1 (not_le.mpr hgt)) ⟨le_of_lt hgt, le_of_eq he.symm⟩

end GeometryClaims

section PolygonParity
variable {R : Type} [LinearOrderedField R]

theorem foldl_isPointInPolygon2D (poly : List (R × R)) (x y : R) (k : Nat)
    (hk : k ≤ poly.length) :
    (List.range k).foldl
      (fun (st : Nat × Bool) (i : Nat) =>
        let pi := poly.getD i (0, 0)
        let pj := poly.getD st.1 (0, 0)
        let intersect : Bool :=
          (decide (pi.2 > y) != decide (pj.2 > y)) &&
            decide (x < (pj.1 - pi.1) * (y - pi.2) / ((pj.2 - pi.2) + 1e-30) + pi.1)
        (i, if intersect then !st.2 else st.2))
      (poly.length - 1, false)
    = (if k = 0 then poly.length - 1 else k - 1,
        decide (crossingCount (edgeCrossesBiased poly x y) k % 2 = 1)) := by
  induction k with
  | zero => simp [crossingCount]
  | succ k ih =>
    have hk' : k < poly.length := hk
    rw [List.range_succ, List.foldl_append, ih (Nat.le_of_lt hk')]
    have hpred : (if k = 0 then poly.length - 1 else k - 1)
        = (k + poly.length - 1) % poly.length := by
      by_cases h0 : k = 0
      · subst h0
        simp only [if_true, Nat.zero_add]
        exact (Nat.mod_eq_of_lt (by omega)).symm
      · simp only [h0, if_false]
        have : k + poly.length - 1 = (k - 1) + poly.length := by omega
        rw [this, Nat.add_mod_right, Nat.mod_eq_of_lt (by omega)]
    have hcount : crossingCount (edgeCrossesBiased poly x y) (k + 1)
        = crossingCount (edgeCrossesBiased poly x y) k
          + (if edgeCrossesBiased poly x y k then 1 else 0) := by
      simp only [crossingCount, List.range_succ, List.filter_append, List.length_append]
      by_cases hc : edgeCrossesBiased poly x y k = true
      · simp [hc]
      · simp [hc]
    simp only [List.foldl_cons, List.foldl_nil, hpred, Nat.succ_ne_zero, if_false,
      Nat.add_sub_cancel]
    have hedge : ((decide ((poly.getD k (0, 0)).2 > y)
          != decide ((poly.getD ((k + poly.length - 1) % poly.length) (0, 0)).2 > y)) &&
        decide (x < ((poly.getD ((k + poly.length - 1) % poly.length) (0, 0)).1
            - (poly.getD k (0, 0)).1) * (y - (poly.getD k (0, 0)).2)
          / (((poly.getD ((k + poly.length - 1) % poly.length) (0, 0)).2
            - (poly.getD k (0, 0)).2) + 1e-30) + (poly.getD k (0, 0)).1))
        = edgeCrossesBiased poly x y k := by
      simp only [edgeCrossesBiased, add_comm]
    rw [hedge, hcount]
    by_cases hc : edgeCrossesBiased poly x y k = true
    · simp only [hc, if_true]
      congr 1
      rcases Nat.mod_two_eq_zero_or_one (crossingCount (edgeCrossesBiased poly x y) k) with h | h
      · have : (crossingCount (edgeCrossesBiased poly x y) k + 1) % 2 = 1 := by omega
        simp [h, this]
      · have : (crossingCount (edgeCrossesBiased poly x y) k + 1) % 2 = 0 := by omega
        simp [h, this]
    · simp [hc]

/-- C17 (amended): `isPointInPolygon2D` returns true exactly when the number of
edges `(p_i, p_j)`, `j` the cyclic predecessor of `i`, with
`(p_i.y > y) != (p_j.y > y)` and
`x < p_i.x + (p_j.x - p_i.x) * (y - p_i.y) / ((p_j.y - p_i.y) + 1e-30)` is odd. -/
theorem isPointInPolygon2D_parity (poly : List (R × R)) (x y : R) :
    isPointInPolygon2D poly x y
      = decide (crossingCount (edgeCrossesBiased poly x y) poly.length % 2 = 1) := by
  unfold isPointInPolygon2D
  simp only
  rw [foldl_isPointInPolygon2D poly x y poly.length (le_refl _)]

end PolygonParity

section PolygonParityExamples

/-- C17 (counterexample): for the triangle `(1,0), (0,2e-30), (0,-1)` and the
point `(3/2, 0)` the source returns true, while no edge crosses with the plain
denominator `p_j.y - p_i.y`. -/
theorem isPointInPolygon2D_unbiased_counterexample :
    isPointInPolygon2D sliverTriangle (3 / 2) 0 = true ∧
    crossingCount (edgeCrosses sliverTriangle (3 / 2) 0) sliverTriangle.length = 0 := by
  decide!

end PolygonParityExamples

section SamplerLemmas
variable {R : Type} [LinearOrderedField R] {G : Type}

theorem sampleLoop_eq_map (env : Platform R G) (u v w : Vec3 R) (k : Nat) (g : G) :
    (sampleLoop env u v w k g).1
      = (drawPairs env k g).map (fun p => sampleDirection env u v w p.1 p.2) := by
  induction k generalizing g with
  | zero => rfl
  | succ k ih =>
    simp only [sampleLoop, drawPairs, List.map_cons, ih]
    rfl

theorem generate_eq_map (env : Platform R G) (N : Nat) (n : Vec3 R) (g : G) :
    (generateCosineHemisphereRays env N n g).1
      = (drawPairs env N g).map
          (fun p => sampleDirection env (hemisphereFrame env n).1 (hemisphereFrame env n).2.1
            (hemisphereFrame env n).2.2 p.1 p.2) := by
  unfold generateCosineHemisphereRays
  by_cases hN : N = 0
  · subst hN; rfl
  · simp only [hN, if_false]
    rw [sampleLoop_eq_map]
    rfl

theorem drawPairs_range (env : Platform R G) (hu : UnitDraws env) (k : Nat) (g : G) :
    ∀ p ∈ drawPairs env k g, (0 ≤ p.1 ∧ p.1 < 1) ∧ (0 ≤ p.2 ∧ p.2 < 1) := by
  induction k generalizing g with
  | zero => intro p hp; cases hp
  | succ k ih =>
    intro p hp
    simp only [drawPairs, List.mem_cons] at hp
    rcases hp with rfl | hp
    · exact ⟨hu _, hu _⟩
    · exact ih _ p hp

theorem viewFactors_zero_of_no_outcome (env : Platform R G) (origin originNormal : Vec3 R)
    (E : List (PolygonWithTemp R)) (O : List (List (Vec3 R))) (N : Nat) (rng : G)
    (h : ∀ d ∈ (generateCosineHemisphereRays env N originNormal rng).1,
      rayOutcome origin (O.map (mkPolyData env))
        (E.map (fun poly => mkPolyData env poly.vertices)) d = none) :
    (calculateViewFactorsWithBlockage env origin originNormal E O N rng).1.viewFactors
      = List.replicate E.length 0 := by
  rw [List.eq_replicate_iff]
  refine ⟨viewFactors_length env origin originNormal E O N rng, ?_⟩
  intro b hb
  obtain ⟨i, hi, rfl⟩ := List.getElem_of_mem hb
  rw [← List.getD_eq_getElem _ 0 hi, viewFactors_getD]
  have : ((generateCosineHemisphereRays env N originNormal rng).1.map
      (rayOutcome origin (O.map (mkPolyData env))
        (E.map (fun poly => mkPolyData env poly.vertices)))).count (some i) = 0 := by
    rw [List.count_eq_zero]
    intro hmem
    obtain ⟨d, hd, hx⟩ := List.mem_map.mp hmem
    rw [h d hd] at hx
    cases hx
  rw [this]
  simp

theorem minDist_eq_top (o d : Vec3 R) (scene : List (PolyData R))
    (h : ∀ pd ∈ scene, hitDist o d pd = ⊤) : minDist o d scene = ⊤ := by
  induction scene with
  | nil => rfl
  | cons pd rest ih =>
    rw [minDist_cons, h pd (List.mem_cons_self _ _),
      ih (fun q hq => h q (List.mem_cons_of_mem _ hq))]
    simp

theorem rayOutcome_none_of_never_hit (o d : Vec3 R) (I E : List (PolyData R))
    (h : ∀ pd ∈ E, hitDist o d pd = ⊤) : rayOutcome o I E d = none := by
  rw [rayOutcome_eq, minDist_eq_top o d E h, if_neg (not_lt.mpr le_top)]

theorem hitDist_of_parallel (o d : Vec3 R) (pd : PolyData R)
    (h : |dot pd.normal d| < 1e-9) : hitDist o d pd = ⊤ := by
  unfold hitDist rayPlaneIntersect
  simp only [h, if_true]
  split_ifs <;> rfl

theorem totalTemperature_replicate_zero (polys : List (PolygonWithTemp R)) (n : Nat) :
    totalTemperature (List.replicate n (0 : R)) polys = 0 := by
  apply totalTemperature_zero
  intro v hv
  exact (List.mem_replicate.mp hv).2

end SamplerLemmas

section ZeroNormal
variable {R : Type} [LinearOrderedField R] {G : Type}

theorem normalize_zero (env : Platform R G) : normalize env (⟨0, 0, 0⟩ : Vec3 R) = ⟨0, 0, 0⟩ := by
  unfold normalize
  simp only
  split_ifs
  · rfl
  · simp [Vec3.divide]

theorem hemisphereFrame_of_short (env : Platform R G) (n : Vec3 R)
    (hn : length env n ≤ 1e-12) :
    hemisphereFrame env n = (⟨0, 0, 0⟩, ⟨0, 0, 0⟩, ⟨0, 0, 0⟩) := by
  have hw : normalize env n = ⟨0, 0, 0⟩ := by
    unfold normalize
    simp only [hn, if_true]
  unfold hemisphereFrame
  simp only [hw, abs_zero]
  have hc1 : cross (⟨0, 1, 0⟩ : Vec3 R) ⟨0, 0, 0⟩ = ⟨0, 0, 0⟩ := by simp [cross]
  have hc2 : cross (⟨1, 0, 0⟩ : Vec3 R) ⟨0, 0, 0⟩ = ⟨0, 0, 0⟩ := by simp [cross]
  have hc3 : cross (⟨0, 0, 0⟩ : Vec3 R) ⟨0, 0, 0⟩ = ⟨0, 0, 0⟩ := by simp [cross]
  rw [hc1, hc2, normalize_zero]
  simp [hc3]

/-- C13: for a receiver normal of length at most `1e-12` every sampled direction
is the zero vector, `rayPlaneIntersect` treats the zero direction as parallel to
every plane, and the estimator returns a zero view factor for every emitter, so
the temperature is 0. -/
theorem zero_normal_receiver (env : Platform R G) (origin originNormal : Vec3 R)
    (hn : length env originNormal ≤ 1e-12)
    (E : List (PolygonWithTemp R)) (O : List (List (Vec3 R))) (N : Nat) (rng : G) :
    (∀ d ∈ (generateCosineHemisphereRays env N originNormal rng).1, d = ⟨0, 0, 0⟩) ∧
    (∀ o pn a : Vec3 R, rayPlaneIntersect o ⟨0, 0, 0⟩ pn a = (none, ⊤)) ∧
    (calculateViewFactorsWithBlockage env origin originNormal E O N rng).1.viewFactors
      = List.replicate E.length 0 ∧
    totalTemperature
      (calculateViewFactorsWithBlockage env origin originNormal E O N rng).1.viewFactors E = 0 := by
  have hrays : ∀ d ∈ (generateCosineHemisphereRays env N originNormal rng).1,
      d = (⟨0, 0, 0⟩ : Vec3 R) := by
    intro d hd
    rw [generate_eq_map, hemisphereFrame_of_short env originNormal hn] at hd
    obtain ⟨p, _, rfl⟩ := List.mem_map.mp hd
    simp [sampleDirection, Vec3.add, Vec3.scale]
  have hpar : ∀ pn : Vec3 R, |dot pn (⟨0, 0, 0⟩ : Vec3 R)| < 1e-9 := by
    intro pn
    simp only [dot, mul_zero, add_zero, abs_zero]
    norm_num
  have hVF : (calculateViewFactorsWithBlockage env origin originNormal E O N rng).1.viewFactors
      = List.replicate E.length 0 := by
    apply viewFactors_zero_of_no_outcome
    intro d hd
    apply rayOutcome_none_of_never_hit
    intro pd _
    rw [hrays d hd]
    exact hitDist_of_parallel _ _ _ (hpar _)
  refine ⟨hrays, ?_, hVF, ?_⟩
  · intro o pn a
    unfold rayPlaneIntersect
    simp only [hpar pn, if_true]
  · rw [hVF]
    exact totalTemperature_replicate_zero _ _

end ZeroNormal

section ZeroNormalExamples

/-- C13 (witness): the zero normal on the test platform. -/
theorem zero_normal_receiver_witness :
    length testPlatform (⟨0, 0, 0⟩ : Vec3 ℚ) ≤ 1e-12 ∧
    (calculateViewFactorsWithBlockage testPlatform ⟨0, 0, 0⟩ ⟨0, 0, 0⟩ stackedEmitters
        [sideSquare] 2 [1 / 2, 1 / 4]).1.viewFactors
      = List.replicate stackedEmitters.length 0 :=
  ⟨by decide!,
    (zero_normal_receiver testPlatform ⟨0, 0, 0⟩ ⟨0, 0, 0⟩ (by decide!) stackedEmitters
      [sideSquare] 2 [1 / 2, 1 / 4]).2.2.1⟩

end ZeroNormalExamples

section ExactSqrtLemmas
variable {R : Type} [LinearOrderedField R] {G : Type}

theorem dot_self_nonneg (v : Vec3 R) : 0 ≤ dot v v := by
  unfold dot
  exact add_nonneg (add_nonneg (mul_self_nonneg _) (mul_self_nonneg _)) (mul_self_nonneg _)

theorem sqrt_mul_self (env : Platform R G) (hs : ExactSqrt env) (y : R) (hy : 0 ≤ y) :
    env.sqrt (y * y) = y := by
  obtain ⟨h1, h2⟩ := hs (y * y) (mul_self_nonneg y)
  exact (mul_self_inj h1 hy).mp h2

theorem sqrt_one (env : Platform R G) (hs : ExactSqrt env) : env.sqrt 1 = 1 := by
  have := sqrt_mul_self env hs 1 zero_le_one
  rwa [mul_one] at this

theorem length_nonneg (env : Platform R G) (hs : ExactSqrt env) (v : Vec3 R) :
    0 ≤ length env v := (hs _ (dot_self_nonneg v)).1

theorem length_mul_self (env : Platform R G) (hs : ExactSqrt env) (v : Vec3 R) :
    length env v * length env v = dot v v := (hs _ (dot_self_nonneg v)).2

theorem dot_divide_divide (v : Vec3 R) (s : R) :
    dot (v.divide s) (v.divide s) = dot v v / (s * s) := by
  simp only [dot, Vec3.divide]
  by_cases h : s = 0
  · simp [h]
  · field_simp

theorem dot_divide_left (v w : Vec3 R) (s : R) : dot (v.divide s) w = dot v w / s := by
  simp only [dot, Vec3.divide]
  ring

theorem dot_divide_right (v w : Vec3 R) (s : R) : dot v (w.divide s) = dot v w / s := by
  simp only [dot, Vec3.divide]
  ring

theorem dot_divide_self_eq_one (env : Platform R G) (hs : ExactSqrt env) (v : Vec3 R)
    (h : length env v ≠ 0) :
    dot (v.divide (length env v)) (v.divide (length env v)) = 1 := by
  rw [dot_divide_divide, length_mul_self env hs v]
  have : dot v v ≠ 0 := by
    rw [← length_mul_self env hs v]
    exact mul_ne_zero h h
  exact div_self this

theorem dot_cross_left (a b : Vec3 R) : dot (cross a b) a = 0 := by
  simp only [dot, cross]; ring

theorem dot_cross_right (a b : Vec3 R) : dot (cross a b) b = 0 := by
  simp only [dot, cross]; ring

theorem length_of_dot_eq_one (env : Platform R G) (hs : ExactSqrt env) (v : Vec3 R)
    (h : dot v v = 1) : length env v = 1 := by
  unfold length
  rw [h]
  exact sqrt_one env hs

end ExactSqrtLemmas

section PolygonPlane
variable {R : Type} [LinearOrderedField R] {G : Type}

/-- C16: `getPolygonPlane` fails exactly for fewer than three vertices or a
cross product `n = (v1 - v0) x (v2 - v0)` of length below `1e-9`; otherwise it
returns the anchor `v0` and the normal `n / |n|`, which on a platform with an
exact square root has unit length and is orthogonal to `v1 - v0` and `v2 - v0`. -/
theorem getPolygonPlane_spec (env : Platform R G) (hs : ExactSqrt env) (verts : List (Vec3 R)) :
    let v1 := (verts.getD 1 Vec3.zero).sub (verts.getD 0 Vec3.zero)
    let v2 := (verts.getD 2 Vec3.zero).sub (verts.getD 0 Vec3.zero)
    let n := cross v1 v2
    let m := n.divide (length env n)
    (getPolygonPlane env verts = none ↔ (verts.length < 3 ∨ length env n < 1e-9)) ∧
    (¬(verts.length < 3 ∨ length env n < 1e-9) →
      getPolygonPlane env verts = some ⟨m, verts.getD 0 Vec3.zero⟩ ∧
      dot m m = 1 ∧ length env m = 1 ∧ dot m v1 = 0 ∧ dot m v2 = 0) := by
  intro v1 v2 n m
  have hval : ¬(verts.length < 3 ∨ length env n < 1e-9) →
      getPolygonPlane env verts = some ⟨m, verts.getD 0 Vec3.zero⟩ := by
    intro h
    have h1 : ¬ verts.length < 3 := fun hh => h (Or.inl hh)
    have h2 : ¬ length env n < 1e-9 := fun hh => h (Or.inr hh)
    simp only [getPolygonPlane]
    rw [if_neg h1, if_neg h2]
  constructor
  · constructor
    · intro hnone
      by_contra hc
      rw [hval hc] at hnone
      cases hnone
    · intro h
      simp only [getPolygonPlane]
      rcases h with h | h
      · rw [if_pos h]
      · by_cases h1 : verts.length < 3
        · rw [if_pos h1]
        · rw [if_neg h1, if_pos h]
  · intro h
    have h2 : ¬ length env n < 1e-9 := fun hh => h (Or.inr hh)
    have hpos : length env n ≠ 0 := by
      intro h0
      apply h2
      rw [h0]
      norm_num
    have hmm : dot m m = 1 := dot_divide_self_eq_one env hs n hpos
    refine ⟨hval h, hmm, length_of_dot_eq_one env hs m hmm, ?_, ?_⟩
    · show dot (n.divide (length env n)) v1 = 0
      rw [dot_divide_left, dot_cross_left, zero_div]
    · show dot (n.divide (length env n)) v2 = 0
      rw [dot_divide_left, dot_cross_right, zero_div]

end PolygonPlane

section ScaleInvariance
variable {R : Type} [LinearOrderedField R] {G : Type}

theorem length_scale (env : Platform R G) (hs : ExactSqrt env) (n : Vec3 R) (k : R)
    (hk : 0 < k) : length env (n.scale k) = k * length env n := by
  have h : dot (n.scale k) (n.scale k) = (k * length env n) * (k * length env n) := by
    have := length_mul_self env hs n
    simp only [dot, Vec3.scale] at this ⊢
    linear_combination (k * k) * this.symm
  unfold length at h ⊢
  rw [h]
  exact sqrt_mul_self env hs _ (mul_nonneg (le_of_lt hk) (hs _ (dot_self_nonneg n)).1)

theorem normalize_scale (env : Platform R G) (hs : ExactSqrt env) (n : Vec3 R) (k : R)
    (hk : 0 < k) (hn : length env n > 1e-12) (hkn : length env (n.scale k) > 1e-12) :
    normalize env (n.scale k) = normalize env n := by
  have hs0 : length env n ≠ 0 := by
    intro h0
    rw [h0] at hn
    norm_num at hn
  unfold normalize
  simp only [not_le.mpr hn, not_le.mpr hkn, if_false]
  rw [length_scale env hs n k hk]
  simp only [Vec3.divide, Vec3.scale]
  have hk0 : k ≠ 0 := ne_of_gt hk
  congr 1 <;> (field_simp; ring)

/-- C20: on a platform with an exact square root, for `k > 0` and normals `n`
and `k n` both longer than `1e-12`, the sampler returns the same directions and
generator state, and the estimator the same result, for `k n` as for `n`. -/
theorem normal_scale_invariance (env : Platform R G) (hs : ExactSqrt env) (n : Vec3 R) (k : R)
    (hk : 0 < k) (hn : length env n > 1e-12) (hkn : length env (n.scale k) > 1e-12)
    (origin : Vec3 R) (E : List (PolygonWithTemp R)) (O : List (List (Vec3 R)))
    (N : Nat) (rng : G) :
    generateCosineHemisphereRays env N (n.scale k) rng
      = generateCosineHemisphereRays env N n rng ∧
    calculateViewFactorsWithBlockage env origin (n.scale k) E O N rng
      = calculateViewFactorsWithBlockage env origin n E O N rng := by
  have hgen : generateCosineHemisphereRays env N (n.scale k) rng
      = generateCosineHemisphereRays env N n rng := by
    unfold generateCosineHemisphereRays
    rw [normalize_scale env hs n k hk hn hkn]
  refine ⟨hgen, ?_⟩
  unfold calculateViewFactorsWithBlockage
  rw [hgen]

end ScaleInvariance

section FrameLemmas
variable {R : Type} [LinearOrderedField R] {G : Type}

theorem length_gt_of_dot_gt (env : Platform R G) (hs : ExactSqrt env) (c : Vec3 R)
    (h : dot c c > 1e-24) : length env c > 1e-12 := by
  by_contra hc
  have hle : length env c ≤ 1e-12 := not_lt.mp hc
  have h0 := length_nonneg env hs c
  have h1 : length env c * length env c ≤ 1e-12 * 1e-12 :=
    mul_le_mul hle hle h0 (by norm_num)
  rw [length_mul_self env hs c] at h1
  have h2 : (1e-12 : R) * 1e-12 = 1e-24 := by norm_num
  rw [h2] at h1
  exact absurd h (not_lt.mpr h1)

theorem normalize_of_long (env : Platform R G) (v : Vec3 R) (h : length env v > 1e-12) :
    normalize env v = v.divide (length env v) := by
  unfold normalize
  simp only [not_le.mpr h, if_false]

theorem length_ne_zero_of_long (env : Platform R G) (v : Vec3 R) (h : length env v > 1e-12) :
    length env v ≠ 0 := by
  intro h0
  rw [h0] at h
  norm_num at h

theorem dot_normalize_self (env : Platform R G) (hs : ExactSqrt env) (v : Vec3 R)
    (h : length env v > 1e-12) : dot (normalize env v) (normalize env v) = 1 := by
  rw [normalize_of_long env v h]
  exact dot_divide_self_eq_one env hs v (length_ne_zero_of_long env v h)

theorem dot_cross_axis_y (w : Vec3 R) (hx : |w.x| > 0.9999) :
    dot (cross ⟨0, 1, 0⟩ w) (cross ⟨0, 1, 0⟩ w) > 1e-24 := by
  have h1 : w.x * w.x > 0.9999 * 0.9999 := by
    rw [← abs_mul_abs_self w.x]
    exact mul_self_lt_mul_self (by norm_num) hx
  have h2 : dot (cross ⟨0, 1, 0⟩ w) (cross ⟨0, 1, 0⟩ w) = w.z * w.z + w.x * w.x := by
    simp only [dot, cross]; ring
  rw [h2]
  have h3 : 0 ≤ w.z * w.z := mul_self_nonneg _
  have h4 : (1e-24 : R) < 0.9999 * 0.9999 := by norm_num
  linarith

theorem dot_cross_axis_x (w : Vec3 R) (hw : dot w w = 1) (hx : ¬ |w.x| > 0.9999) :
    dot (cross ⟨1, 0, 0⟩ w) (cross ⟨1, 0, 0⟩ w) > 1e-24 := by
  have hle : |w.x| ≤ 0.9999 := not_lt.mp hx
  have h1 : w.x * w.x ≤ 0.9999 * 0.9999 := by
    rw [← abs_mul_abs_self w.x]
    exact mul_self_le_mul_self (abs_nonneg _) hle
  have h2 : dot (cross ⟨1, 0, 0⟩ w) (cross ⟨1, 0, 0⟩ w) = 1 - w.x * w.x := by
    simp only [dot] at hw
    simp only [dot, cross]
    linear_combination hw
  rw [h2]
  have h4 : (1e-24 : R) < 1 - 0.9999 * 0.9999 := by norm_num
  linarith

theorem dot_cross_cross (a b : Vec3 R) :
    dot (cross a b) (cross a b) = dot a a * dot b b - dot a b * dot a b := by
  simp only [dot, cross]; ring

theorem dot_combination (u v w : Vec3 R) (a b c : R)
    (huu : dot u u = 1) (hvv : dot v v = 1) (hww : dot w w = 1)
    (huv : dot u v = 0) (huw : dot u w = 0) (hvw : dot v w = 0) :
    dot (((u.scale a).add (v.scale b)).add (w.scale c))
        (((u.scale a).add (v.scale b)).add (w.scale c)) = a * a + b * b + c * c ∧
    dot (((u.scale a).add (v.scale b)).add (w.scale c)) w = c := by
  simp only [dot, Vec3.add, Vec3.scale] at *
  constructor
  · linear_combination (a * a) * huu + (b * b) * hvv + (c * c) * hww + (2 * a * b) * huv
      + (2 * a * c) * huw + (2 * b * c) * hvw
  · linear_combination a * huw + b * hvw + c * hww

theorem hemisphereFrame_orthonormal (env : Platform R G) (hs : ExactSqrt env) (n : Vec3 R)
    (hn : length env n > 1e-12) :
    let u := (hemisphereFrame env n).1
    let v := (hemisphereFrame env n).2.1
    let w := (hemisphereFrame env n).2.2
    w = n.divide (length env n) ∧
    (|w.x| > 0.9999 → length env (cross ⟨0, 1, 0⟩ w) > 1e-12) ∧
    (¬ |w.x| > 0.9999 → length env (cross ⟨1, 0, 0⟩ w) > 1e-12) ∧
    dot u u = 1 ∧ dot v v = 1 ∧ dot w w = 1 ∧ dot u v = 0 ∧ dot u w = 0 ∧ dot v w = 0 := by
  intro u v w
  have hw : w = normalize env n := rfl
  have hww : dot w w = 1 := by rw [hw]; exact dot_normalize_self env hs n hn
  have hA : |w.x| > 0.9999 → length env (cross ⟨0, 1, 0⟩ w) > 1e-12 := fun hx =>
    length_gt_of_dot_gt env hs _ (dot_cross_axis_y w hx)
  have hB : ¬ |w.x| > 0.9999 → length env (cross ⟨1, 0, 0⟩ w) > 1e-12 := fun hx =>
    length_gt_of_dot_gt env hs _ (dot_cross_axis_x w hww hx)
  have hu : dot u u = 1 ∧ dot u w = 0 := by
    have hudef : u = if |w.x| > 0.9999 then normalize env (cross ⟨0, 1, 0⟩ w)
        else normalize env (cross ⟨1, 0, 0⟩ w) := rfl
    by_cases hx : |w.x| > 0.9999
    · rw [hudef, if_pos hx]
      refine ⟨dot_normalize_self env hs _ (hA hx), ?_⟩
      rw [normalize_of_long env _ (hA hx), dot_divide_left, dot_cross_right, zero_div]
    · rw [hudef, if_neg hx]
      refine ⟨dot_normalize_self env hs _ (hB hx), ?_⟩
      rw [normalize_of_long env _ (hB hx), dot_divide_left, dot_cross_right, zero_div]
  have hv : v = cross w u := rfl
  have hwu : dot w u = 0 := by
    have := hu.2
    simp only [dot] at this ⊢
    linear_combination this
  refine ⟨by rw [hw]; exact normalize_of_long env n hn, hA, hB, hu.1, ?_, hww, ?_, hu.2, ?_⟩
  · rw [hv, dot_cross_cross, hww, hu.1, hwu]
    ring
  · have := dot_cross_right w u
    rw [hv]
    simp only [dot] at this ⊢
    linear_combination this
  · rw [hv]
    exact dot_cross_left w u

/-- C19: on a platform with an exact square root, cosine and sine on the unit
circle and draws in `[0, 1)`, for a surface normal `n` longer than `1e-12` the
frame `(u, v, w)` of `generateCosineHemisphereRays` is orthonormal with
`w = n / |n|` (the cross product with the reference axis is longer than `1e-12`
in both branches), the returned directions are
`u sqrt(u2) cos(2 pi u1) + v sqrt(u2) sin(2 pi u1) + w sqrt(1 - u2)` for the
successive pairs of draws, and every direction has unit length and the positive
dot product `sqrt(1 - u2)` with `w`. -/
theorem hemisphere_directions (env : Platform R G) (hs : ExactSqrt env) (hc : UnitCircle env)
    (hu : UnitDraws env) (n : Vec3 R) (hn : length env n > 1e-12) (N : Nat) (rng : G) :
    let u := (hemisphereFrame env n).1
    let v := (hemisphereFrame env n).2.1
    let w := (hemisphereFrame env n).2.2
    (w = n.divide (length env n) ∧
      (|w.x| > 0.9999 → length env (cross ⟨0, 1, 0⟩ w) > 1e-12) ∧
      (¬ |w.x| > 0.9999 → length env (cross ⟨1, 0, 0⟩ w) > 1e-12) ∧
      dot u u = 1 ∧ dot v v = 1 ∧ dot w w = 1 ∧ dot u v = 0 ∧ dot u w = 0 ∧ dot v w = 0) ∧
    (generateCosineHemisphereRays env N n rng).1
      = (drawPairs env N rng).map (fun p => sampleDirection env u v w p.1 p.2) ∧
    (generateCosineHemisphereRays env N n rng).1.length = N ∧
    ∀ p ∈ drawPairs env N rng,
      dot (sampleDirection env u v w p.1 p.2) (sampleDirection env u v w p.1 p.2) = 1 ∧
      length env (sampleDirection env u v w p.1 p.2) = 1 ∧
      dot (sampleDirection env u v w p.1 p.2) w = env.sqrt (1 - p.2) ∧
      0 < env.sqrt (1 - p.2) := by
  intro u v w
  have hframe := hemisphereFrame_orthonormal env hs n hn
  obtain ⟨hw, hA, hB, huu, hvv, hww, huv, huw, hvw⟩ := hframe
  refine ⟨⟨hw, hA, hB, huu, hvv, hww, huv, huw, hvw⟩, generate_eq_map env N n rng,
    generateCosineHemisphereRays_length env N n rng, ?_⟩
  intro p hp
  obtain ⟨_, h2⟩ := drawPairs_range env hu N rng p hp
  obtain ⟨hA0, hAA⟩ := hs p.2 h2.1
  have h1m : 0 < 1 - p.2 := by linarith [h2.2]
  obtain ⟨hB0, hBB⟩ := hs (1 - p.2) (le_of_lt h1m)
  have hcs := hc (2 * M_PI * p.1)
  have hcomb := dot_combination _ _ _ (env.sqrt p.2 * env.cos (2 * M_PI * p.1))
    (env.sqrt p.2 * env.sin (2 * M_PI * p.1)) (env.sqrt (1 - p.2)) huu hvv hww huv huw hvw
  have hunit : dot (sampleDirection env u v w p.1 p.2) (sampleDirection env u v w p.1 p.2)
      = 1 := by
    unfold sampleDirection
    rw [hcomb.1]
    linear_combination (env.sqrt p.2 * env.sqrt p.2) * hcs + hAA + hBB
  refine ⟨hunit, length_of_dot_eq_one env hs _ hunit, hcomb.2, ?_⟩
  rcases lt_or_eq_of_le hB0 with hlt | heq
  · exact hlt
  · rw [← heq, mul_zero] at hBB
    linarith

end FrameLemmas

section RealPlatform

/-- Over the real numbers, the platform with `Real.sqrt`, `Real.cos`, `Real.sin`
and a generator that always draws `1/2` has an exact square root, cosine and
sine on the unit circle, and draws in `[0, 1)`. -/
theorem real_platform_ideal :
    ExactSqrt (Platform.mk Real.sqrt Real.cos Real.sin (fun g : Unit => ((1 / 2 : ℝ), g))
        (fun _ => ()) (fun _ => ()) (fun _ => none) (fun _ => none) (fun _ => 0) (fun _ => "")) ∧
    UnitCircle (Platform.mk Real.sqrt Real.cos Real.sin (fun g : Unit => ((1 / 2 : ℝ), g))
        (fun _ => ()) (fun _ => ()) (fun _ => none) (fun _ => none) (fun _ => 0) (fun _ => "")) ∧
    UnitDraws (Platform.mk Real.sqrt Real.cos Real.sin (fun g : Unit => ((1 / 2 : ℝ), g))
        (fun _ => ()) (fun _ => ()) (fun _ => none) (fun _ => none) (fun _ => 0) (fun _ => "")) := by
  refine ⟨?_, ?_, ?_⟩
  · intro x hx
    exact ⟨Real.sqrt_nonneg x, Real.mul_self_sqrt hx⟩
  · intro θ
    show Real.cos θ * Real.cos θ + Real.sin θ * Real.sin θ = 1
    have := Real.cos_sq_add_sin_sq θ
    rw [sq, sq] at this
    exact this
  · intro g
    show (0 : ℝ) ≤ 1 / 2 ∧ (1 / 2 : ℝ) < 1
    constructor <;> norm_num

theorem length_unit_z (R : Type) [LinearOrderedField R] (G : Type) (env : Platform R G)
    (hs : ExactSqrt env) : length env (⟨0, 0, 1⟩ : Vec3 R) = 1 := by
  apply length_of_dot_eq_one env hs
  simp [dot]

/-- C16 (witness): the triangle `(0,0,0), (1,0,0), (0,1,0)` on the real platform
has the unit normal `(0,0,1)`. -/
theorem getPolygonPlane_spec_witness :
    ∃ env : Platform ℝ Unit, ExactSqrt env ∧
      getPolygonPlane env [⟨0, 0, 0⟩, ⟨1, 0, 0⟩, ⟨0, 1, 0⟩]
        = some ⟨(⟨0, 0, 1⟩ : Vec3 ℝ).divide (length env ⟨0, 0, 1⟩), ⟨0, 0, 0⟩⟩ ∧
      dot ((⟨0, 0, 1⟩ : Vec3 ℝ).divide (length env ⟨0, 0, 1⟩))
        ((⟨0, 0, 1⟩ : Vec3 ℝ).divide (length env ⟨0, 0, 1⟩)) = 1 := by
  refine ⟨_, real_platform_ideal.1, ?_⟩
  have h := getPolygonPlane_spec _ real_platform_ideal.1
    ([⟨0, 0, 0⟩, ⟨1, 0, 0⟩, ⟨0, 1, 0⟩] : List (Vec3 ℝ))
  have hc : cross (((([⟨0, 0, 0⟩, ⟨1, 0, 0⟩, ⟨0, 1, 0⟩] : List (Vec3 ℝ)).getD 1 Vec3.zero).sub
        (([⟨0, 0, 0⟩, ⟨1, 0, 0⟩, ⟨0, 1, 0⟩] : List (Vec3 ℝ)).getD 0 Vec3.zero)))
      (((([⟨0, 0, 0⟩, ⟨1, 0, 0⟩, ⟨0, 1, 0⟩] : List (Vec3 ℝ)).getD 2 Vec3.zero).sub
        (([⟨0, 0, 0⟩, ⟨1, 0, 0⟩, ⟨0, 1, 0⟩] : List (Vec3 ℝ)).getD 0 Vec3.zero)))
      = (⟨0, 0, 1⟩ : Vec3 ℝ) := by
    simp [cross, Vec3.sub]
  simp only [hc] at h
  have hlen := length_unit_z ℝ Unit _ real_platform_ideal.1
  have hnot : ¬(([⟨0, 0, 0⟩, ⟨1, 0, 0⟩, ⟨0, 1, 0⟩] : List (Vec3 ℝ)).length < 3 ∨
      length (Platform.mk Real.sqrt Real.cos Real.sin (fun g : Unit => ((1 / 2 : ℝ), g))
        (fun _ => ()) (fun _ => ()) (fun _ => none) (fun _ => none) (fun _ => 0) (fun _ => ""))
        (⟨0, 0, 1⟩ : Vec3 ℝ) < 1e-9) := by
    rw [hlen]
    norm_num
  have h2 := h.2 hnot
  exact ⟨h2.1, h2.2.1⟩

/-- C19 (witness): the normal `(0,0,1)` and two rays on the real platform. -/
theorem hemisphere_directions_witness :
    ∃ env : Platform ℝ Unit, ExactSqrt env ∧ UnitCircle env ∧ UnitDraws env ∧
      length env (⟨0, 0, 1⟩ : Vec3 ℝ) > 1e-12 ∧
      (generateCosineHemisphereRays env 2 ⟨0, 0, 1⟩ ()).1.length = 2 ∧
      ∀ p ∈ drawPairs env 2 (),
        dot (sampleDirection env (hemisphereFrame env ⟨0, 0, 1⟩).1
            (hemisphereFrame env ⟨0, 0, 1⟩).2.1 (hemisphereFrame env ⟨0, 0, 1⟩).2.2 p.1 p.2)
          (sampleDirection env (hemisphereFrame env ⟨0, 0, 1⟩).1
            (hemisphereFrame env ⟨0, 0, 1⟩).2.1 (hemisphereFrame env ⟨0, 0, 1⟩).2.2 p.1 p.2)
          = 1 := by
  have hlen : length (Platform.mk Real.sqrt Real.cos Real.sin (fun g : Unit => ((1 / 2 : ℝ), g))
        (fun _ => ()) (fun _ => ()) (fun _ => none) (fun _ => none) (fun _ => 0) (fun _ => ""))
      (⟨0, 0, 1⟩ : Vec3 ℝ) > 1e-12 := by
    rw [length_unit_z ℝ Unit _ real_platform_ideal.1]
    norm_num
  have h := hemisphere_directions _ real_platform_ideal.1 real_platform_ideal.2.1
    real_platform_ideal.2.2 (⟨0, 0, 1⟩ : Vec3 ℝ) hlen 2 ()
  exact ⟨_, real_platform_ideal.1, real_platform_ideal.2.1, real_platform_ideal.2.2, hlen,
    h.2.2.1, fun p hp => (h.2.2.2 p hp).1⟩

/-- C20 (witness): the normals `(0,0,1)` and `2 (0,0,1)` on the real platform. -/
theorem normal_scale_invariance_witness :
    ∃ env : Platform ℝ Unit, ExactSqrt env ∧
      length env (⟨0, 0, 1⟩ : Vec3 ℝ) > 1e-12 ∧
      length env ((⟨0, 0, 1⟩ : Vec3 ℝ).scale 2) > 1e-12 ∧
      generateCosineHemisphereRays env 3 ((⟨0, 0, 1⟩ : Vec3 ℝ).scale 2) ()
        = generateCosineHemisphereRays env 3 ⟨0, 0, 1⟩ () := by
  have hlen : length (Platform.mk Real.sqrt Real.cos Real.sin (fun g : Unit => ((1 / 2 : ℝ), g))
        (fun _ => ()) (fun _ => ()) (fun _ => none) (fun _ => none) (fun _ => 0) (fun _ => ""))
      (⟨0, 0, 1⟩ : Vec3 ℝ) > 1e-12 := by
    rw [length_unit_z ℝ Unit _ real_platform_ideal.1]
    norm_num
  have hlen2 : length (Platform.mk Real.sqrt Real.cos Real.sin
        (fun g : Unit => ((1 / 2 : ℝ), g))
        (fun _ => ()) (fun _ => ()) (fun _ => none) (fun _ => none) (fun _ => 0) (fun _ => ""))
      ((⟨0, 0, 1⟩ : Vec3 ℝ).scale 2) > 1e-12 := by
    rw [length_scale _ real_platform_ideal.1 _ 2 (by norm_num),
      length_unit_z ℝ Unit _ real_platform_ideal.1]
    norm_num
  exact ⟨_, real_platform_ideal.1, hlen, hlen2,
    (normal_scale_invariance _ real_platform_ideal.1 (⟨0, 0, 1⟩ : Vec3 ℝ) 2 (by norm_num) hlen
      hlen2 ⟨0, 0, 0⟩ [] [] 3 ()).1⟩

end RealPlatform

section Rectangle
variable {R : Type} [LinearOrderedField R] {G : Type}

theorem isPointInPolygon2D_rectangle (x0 y0 x1 y1 x y : R) (hx : x0 < x1) (hy : y0 < y1) :
    isPointInPolygon2D [(x0, y0), (x1, y0), (x1, y1), (x0, y1)] x y
      = decide (x0 ≤ x ∧ x < x1 ∧ y0 ≤ y ∧ y < y1) := by
  have hr : List.range 4 = [0, 1, 2, 3] := by decide
  simp only [isPointInPolygon2D, List.length_cons, List.length_nil, hr, List.foldl_cons,
    List.foldl_nil, List.getD_cons_zero, List.getD_cons_succ, sub_self, zero_mul, zero_div,
    zero_add, gt_iff_lt, Nat.reduceAdd, Nat.reduceSub]
  by_cases h1 : y < y0
  · have h2 : y < y1 := lt_trans h1 hy
    have h3 : ¬ y0 ≤ y := not_le.mpr h1
    simp [h1, h2, h3]
  · have h1' : y0 ≤ y := not_lt.mp h1
    by_cases h2 : y < y1
    · by_cases h4 : x < x0
      · have h5 : x < x1 := lt_trans h4 hx
        have h6 : ¬ x0 ≤ x := not_le.mpr h4
        simp [h1, h2, h4, h5, h6]
      · have h4' : x0 ≤ x := not_lt.mp h4
        by_cases h5 : x < x1
        · simp [h1, h1', h2, h4, h4', h5]
        · simp [h1, h1', h2, h4, h4', h5]
    · simp [h1, h2]

end Rectangle

section SquareLemmas
variable {R : Type} [LinearOrderedField R] {G : Type}

theorem length_axis_z (env : Platform R G) (hs : ExactSqrt env) (c : R) (hc : 0 ≤ c) :
    length env (⟨0, 0, c⟩ : Vec3 R) = c := by
  unfold length dot
  simp only [mul_zero, zero_add]
  exact sqrt_mul_self env hs c hc

theorem mkPolyData_squareAt (env : Platform R G) (hs : ExactSqrt env) (h z : R)
    (hbig : ¬ 4 * h * h < 1e-9) :
    mkPolyData env (squareAt h z) = ⟨squareAt h z, ⟨0, 0, 1⟩, ⟨-h, -h, z⟩, true⟩ := by
  have hc : cross (((squareAt h z).getD 1 Vec3.zero).sub ((squareAt h z).getD 0 Vec3.zero))
      (((squareAt h z).getD 2 Vec3.zero).sub ((squareAt h z).getD 0 Vec3.zero))
      = ⟨0, 0, 4 * h * h⟩ := by
    simp only [squareAt, List.getD_cons_zero, List.getD_cons_succ, cross, Vec3.sub]
    congr 1 <;> ring
  have hnn : (0 : R) ≤ 4 * h * h := by
    have := mul_self_nonneg h
    linarith
  have hne : (4 * h * h : R) ≠ 0 := by
    intro h0
    apply hbig
    rw [h0]
    norm_num
  have hlen : (squareAt h z).length = 4 := rfl
  unfold mkPolyData getPolygonPlane
  simp only [hlen, hc, length_axis_z env hs _ hnn, hbig, if_false, Vec3.divide, zero_div,
    div_self hne]
  simp [squareAt]

theorem rayPlaneIntersect_flat (d : Vec3 R) (ax ay z : R) :
    rayPlaneIntersect ⟨0, 0, 0⟩ d ⟨0, 0, 1⟩ ⟨ax, ay, z⟩
      = if |d.z| < 1e-9 then (none, ⊤)
        else if z / d.z < 1e-7 then (none, ⊤)
        else (some ⟨d.x * (z / d.z), d.y * (z / d.z), d.z * (z / d.z)⟩, ((z / d.z : R) : WithTop R)) := by
  have h1 : dot (⟨0, 0, 1⟩ : Vec3 R) d = d.z := by simp [dot]
  have h2 : -dot (⟨0, 0, 1⟩ : Vec3 R) ((⟨0, 0, 0⟩ : Vec3 R).sub ⟨ax, ay, z⟩) / d.z = z / d.z := by
    simp [dot, Vec3.sub]
  unfold rayPlaneIntersect
  simp only [h1, h2, Vec3.add, Vec3.scale, zero_add]

theorem dropAxis_axis_z : dropAxis (⟨0, 0, 1⟩ : Vec3 R) = 2 := by
  have h : ¬ ((0 : R) = max 0 (max 0 1)) := by
    rw [max_eq_right (zero_le_one' R), max_eq_right (zero_le_one' R)]
    exact zero_ne_one
  simp only [dropAxis, abs_zero, abs_one]
  rw [if_neg h, if_neg h]

theorem isPointInPolygon3D_squareAt (q : Vec3 R) (h z : R) (hh : 0 < h) :
    isPointInPolygon3D q (squareAt h z) ⟨0, 0, 1⟩
      = decide (-h ≤ q.x ∧ q.x < h ∧ -h ≤ q.y ∧ q.y < h) := by
  have hneg : -h < h := by linarith
  rw [isPointInPolygon3D_eq, dropAxis_axis_z]
  simp only [squareAt, List.map_cons, List.map_nil, dropCoord]
  exact isPointInPolygon2D_rectangle (-h) (-h) h h q.x q.y hneg hneg

/-- Hit distance from the origin to a square `squareAt h z`. -/
theorem hitDist_squareAt (env : Platform R G) (hs : ExactSqrt env) (h z : R) (hh : 0 < h)
    (hbig : ¬ 4 * h * h < 1e-9) (d : Vec3 R) :
    hitDist ⟨0, 0, 0⟩ d (mkPolyData env (squareAt h z))
      = if |d.z| < 1e-9 then ⊤
        else if z / d.z < 1e-7 then ⊤
        else if -h ≤ d.x * (z / d.z) ∧ d.x * (z / d.z) < h ∧
            -h ≤ d.y * (z / d.z) ∧ d.y * (z / d.z) < h
          then ((z / d.z : R) : WithTop R) else ⊤ := by
  rw [mkPolyData_squareAt env hs h z hbig]
  unfold hitDist
  simp only [if_true, rayPlaneIntersect_flat]
  by_cases h1 : |d.z| < 1e-9
  · simp only [h1, if_true]
  · simp only [h1, if_false]
    by_cases h2 : z / d.z < 1e-7
    · simp only [h2, if_true]
    · simp only [h2, if_false, isPointInPolygon3D_squareAt _ h z hh, decide_eq_true_eq]

theorem sampled_dot_frame (env : Platform R G) (hs : ExactSqrt env) (hu : UnitDraws env)
    (n : Vec3 R) (hn : length env n > 1e-12) (N : Nat) (rng : G) :
    ∀ d ∈ (generateCosineHemisphereRays env N n rng).1,
      0 < dot d (hemisphereFrame env n).2.2 ∧ dot d (hemisphereFrame env n).2.2 ≤ 1 := by
  intro d hd
  rw [generate_eq_map] at hd
  obtain ⟨p, hp, rfl⟩ := List.mem_map.mp hd
  obtain ⟨_, _, _, huu, hvv, hww, huv, huw, hvw⟩ := hemisphereFrame_orthonormal env hs n hn
  obtain ⟨_, h2⟩ := drawPairs_range env hu N rng p hp
  have h1m : 0 < 1 - p.2 := by linarith [h2.2]
  obtain ⟨hB0, hBB⟩ := hs (1 - p.2) (le_of_lt h1m)
  have hcomb := dot_combination _ _ _ (env.sqrt p.2 * env.cos (2 * M_PI * p.1))
    (env.sqrt p.2 * env.sin (2 * M_PI * p.1)) (env.sqrt (1 - p.2)) huu hvv hww huv huw hvw
  unfold sampleDirection
  rw [hcomb.2]
  constructor
  · rcases lt_or_eq_of_le hB0 with hlt | heq
    · exact hlt
    · rw [← heq, mul_zero] at hBB
      linarith
  · by_contra hc
    have hgt : 1 < env.sqrt (1 - p.2) := not_le.mp hc
    have : 1 * 1 < env.sqrt (1 - p.2) * env.sqrt (1 - p.2) :=
      mul_lt_mul hgt (le_of_lt hgt) zero_lt_one hB0
    rw [hBB] at this
    linarith [h2.1]

theorem frame_axis_z (env : Platform R G) (hs : ExactSqrt env) :
    length env (⟨0, 0, 1⟩ : Vec3 R) > 1e-12 ∧
    (hemisphereFrame env (⟨0, 0, 1⟩ : Vec3 R)).2.2 = ⟨0, 0, 1⟩ := by
  have hlen : length env (⟨0, 0, 1⟩ : Vec3 R) = 1 := length_axis_z env hs 1 zero_le_one
  have hgt : length env (⟨0, 0, 1⟩ : Vec3 R) > 1e-12 := by
    rw [hlen]; norm_num
  refine ⟨hgt, ?_⟩
  have : (hemisphereFrame env (⟨0, 0, 1⟩ : Vec3 R)).2.2 = normalize env ⟨0, 0, 1⟩ := rfl
  rw [this, normalize_of_long env _ hgt, hlen]
  simp [Vec3.divide]

end SquareLemmas

section FullyBlocked
variable {R : Type} [LinearOrderedField R] {G : Type}

theorem blocked_of_direction (env : Platform R G) (hs : ExactSqrt env) (d : Vec3 R)
    (hz0 : 0 < d.z) (hz1 : d.z ≤ 1)
    (hhit : hitDist ⟨0, 0, 0⟩ d (mkPolyData env (squareAt 10 1)) < ⊤) :
    hitDist ⟨0, 0, 0⟩ d (mkPolyData env (squareAt 20 0.5))
      < hitDist ⟨0, 0, 0⟩ d (mkPolyData env (squareAt 10 1)) := by
  rw [hitDist_squareAt env hs 10 1 (by norm_num) (by norm_num) d] at hhit ⊢
  rw [hitDist_squareAt env hs 20 0.5 (by norm_num) (by norm_num) d]
  by_cases h1 : |d.z| < 1e-9
  · simp [h1] at hhit
  · simp only [h1, if_false] at hhit ⊢
    have hinv : 1 ≤ 1 / d.z := by
      rw [le_div_iff₀ hz0]; linarith
    have h2 : ¬ 1 / d.z < 1e-7 := by
      have : (1e-7 : R) < 1 := by norm_num
      intro hc; linarith
    have hhalf : (0.5 : R) / d.z = (1 / d.z) / 2 := by
      have e : (0.5 : R) = 1 / 2 := by norm_num
      rw [e]; ring
    have h3 : ¬ (0.5 : R) / d.z < 1e-7 := by
      rw [hhalf]
      have : (1e-7 : R) < 1 / 2 := by norm_num
      intro hc; linarith
    simp only [h2, h3, if_false] at hhit ⊢
    by_cases h4 : -10 ≤ d.x * (1 / d.z) ∧ d.x * (1 / d.z) < 10 ∧
        -10 ≤ d.y * (1 / d.z) ∧ d.y * (1 / d.z) < 10
    · have h5 : -20 ≤ d.x * (0.5 / d.z) ∧ d.x * (0.5 / d.z) < 20 ∧
          -20 ≤ d.y * (0.5 / d.z) ∧ d.y * (0.5 / d.z) < 20 := by
        rw [hhalf]
        obtain ⟨a1, a2, a3, a4⟩ := h4
        have e1 : d.x * (1 / d.z / 2) = d.x * (1 / d.z) / 2 := by ring
        have e2 : d.y * (1 / d.z / 2) = d.y * (1 / d.z) / 2 := by ring
        rw [e1, e2]
        refine ⟨by linarith, by linarith, by linarith, by linarith⟩
      rw [if_pos h4, if_pos h5, hhalf]
      rw [WithTop.coe_lt_coe]
      linarith
    · rw [if_neg h4] at hhit
      exact absurd hhit (lt_irrefl _)

/-- C11: scenario S2 on a platform with an exact square root and draws in
`[0, 1)`: from the receiver at the origin with normal `(0,0,1)`, every sampled ray
that hits the emitter square at height 1 hits the inert square at height 0.5
first, so for every ray count, generator state and emitter temperature the view
factor is 0 and the temperature is 0. -/
theorem scenario_fully_blocked (env : Platform R G) (hs : ExactSqrt env) (hu : UnitDraws env)
    (temperature : R) (N : Nat) (rng : G) :
    (∀ d ∈ (generateCosineHemisphereRays env N (⟨0, 0, 1⟩ : Vec3 R) rng).1,
      hitDist ⟨0, 0, 0⟩ d (mkPolyData env (squareAt 10 1)) < ⊤ →
      hitDist ⟨0, 0, 0⟩ d (mkPolyData env (squareAt 20 0.5))
        < hitDist ⟨0, 0, 0⟩ d (mkPolyData env (squareAt 10 1))) ∧
    (calculateViewFactorsWithBlockage env ⟨0, 0, 0⟩ ⟨0, 0, 1⟩ [⟨squareAt 10 1, temperature⟩]
        [squareAt 20 0.5] N rng).1.viewFactors = [0] ∧
    totalTemperature
      (calculateViewFactorsWithBlockage env ⟨0, 0, 0⟩ ⟨0, 0, 1⟩ [⟨squareAt 10 1, temperature⟩]
        [squareAt 20 0.5] N rng).1.viewFactors [⟨squareAt 10 1, temperature⟩] = 0 := by
  obtain ⟨hlen, hw⟩ := frame_axis_z env hs
  have hblocked : ∀ d ∈ (generateCosineHemisphereRays env N (⟨0, 0, 1⟩ : Vec3 R) rng).1,
      hitDist ⟨0, 0, 0⟩ d (mkPolyData env (squareAt 10 1)) < ⊤ →
      hitDist ⟨0, 0, 0⟩ d (mkPolyData env (squareAt 20 0.5))
        < hitDist ⟨0, 0, 0⟩ d (mkPolyData env (squareAt 10 1)) := by
    intro d hd hhit
    have hz := sampled_dot_frame env hs hu ⟨0, 0, 1⟩ hlen N rng d hd
    rw [hw] at hz
    have hdz : dot d (⟨0, 0, 1⟩ : Vec3 R) = d.z := by simp [dot]
    rw [hdz] at hz
    exact blocked_of_direction env hs d hz.1 hz.2 hhit
  have hVF : (calculateViewFactorsWithBlockage env ⟨0, 0, 0⟩ ⟨0, 0, 1⟩
      [⟨squareAt 10 1, temperature⟩] [squareAt 20 0.5] N rng).1.viewFactors = [0] := by
    have := viewFactors_zero_of_no_outcome env ⟨0, 0, 0⟩ ⟨0, 0, 1⟩
      [⟨squareAt 10 1, temperature⟩] [squareAt 20 0.5] N rng (by
        intro d hd
        rw [rayOutcome_eq]
        simp only [List.map_cons, List.map_nil, minDist_cons]
        have hE : minDist (⟨0, 0, 0⟩ : Vec3 R) d [] = ⊤ := rfl
        rw [hE, min_top_right, min_top_right]
        by_cases hhit : hitDist ⟨0, 0, 0⟩ d (mkPolyData env (squareAt 10 1)) < ⊤
        · rw [if_neg (not_lt.mpr (le_of_lt (hblocked d hd hhit)))]
        · rw [not_lt_top_iff.mp hhit, if_neg (not_lt.mpr le_top)])
    simpa using this
  refine ⟨hblocked, hVF, ?_⟩
  rw [hVF]
  apply totalTemperature_zero
  intro v hv
  simpa using hv

end FullyBlocked

section FullyBlockedExamples

/-- C11 (witness): scenario S2 with temperature 1000 and three rays on the real
platform. -/
theorem scenario_fully_blocked_witness :
    ∃ env : Platform ℝ Unit, ExactSqrt env ∧ UnitDraws env ∧
      (calculateViewFactorsWithBlockage env ⟨0, 0, 0⟩ ⟨0, 0, 1⟩ [⟨squareAt 10 1, 1000⟩]
        [squareAt 20 0.5] 3 ()).1.viewFactors = [0] :=
  ⟨_, real_platform_ideal.1, real_platform_ideal.2.2,
    (scenario_fully_blocked _ real_platform_ideal.1 real_platform_ideal.2.2 1000 3 ()).2.1⟩

end FullyBlockedExamples

section BackFacing
variable {R : Type} [LinearOrderedField R] {G : Type}

theorem rayPlaneIntersect_hit (o d n a q : Vec3 R) (t : WithTop R)
    (h : rayPlaneIntersect o d n a = (some q, t)) :
    ∃ s : R, 1e-7 ≤ s ∧ q = o.add (d.scale s) ∧ dot n (q.sub a) = 0 := by
  unfold rayPlaneIntersect at h
  simp only at h
  by_cases h1 : |dot n d| < 1e-9
  · rw [if_pos h1] at h
    cases h
  · rw [if_neg h1] at h
    by_cases h2 : -dot n (o.sub a) / dot n d < 1e-7
    · rw [if_pos h2] at h
      cases h
    · rw [if_neg h2] at h
      have hq : o.add (d.scale (-dot n (o.sub a) / dot n d)) = q := by
        have := congrArg Prod.fst h
        simpa using this
      refine ⟨-dot n (o.sub a) / dot n d, not_lt.mp h2, hq.symm, ?_⟩
      have hne : dot n d ≠ 0 := by
        intro h0
        apply h1
        rw [h0, abs_zero]
        norm_num
      rw [← hq, dot_add_scale_sub]
      field_simp

theorem dot_normal_sampled (env : Platform R G) (hs : ExactSqrt env) (hu : UnitDraws env)
    (n : Vec3 R) (hn : length env n > 1e-12) (N : Nat) (rng : G) :
    ∀ d ∈ (generateCosineHemisphereRays env N n rng).1, 0 < dot n d := by
  intro d hd
  have hw : (hemisphereFrame env n).2.2 = n.divide (length env n) :=
    (hemisphereFrame_orthonormal env hs n hn).1
  have hpos := (sampled_dot_frame env hs hu n hn N rng d hd).1
  have hlen : 0 < length env n := lt_trans (by norm_num) hn
  have hne : length env n ≠ 0 := ne_of_gt hlen
  have heq : dot n d = length env n * dot d (n.divide (length env n)) := by
    simp only [dot, Vec3.divide]
    field_simp
    ring
  rw [heq, ← hw]
  exact mul_pos hlen hpos

/-- C12 (amended): on a platform with an exact square root and draws in `[0, 1)`,
if every point of an emitter's supporting plane (the plane `getPolygonPlane`
computes from its first three vertices) that `isPointInPolygon3D` accepts lies
strictly behind the receiver, `n.(q - o) < 0`, then every view factor is 0 and the
temperature is 0, for every ray count, generator state and inert list. -/
theorem back_facing_receiver (env : Platform R G) (hs : ExactSqrt env) (hu : UnitDraws env)
    (o n : Vec3 R) (E : List (PolygonWithTemp R)) (O : List (List (Vec3 R))) (N : Nat) (rng : G)
    (hback : ∀ e ∈ E, ∀ pl, getPolygonPlane env e.vertices = some pl →
      ∀ q, dot pl.normal (q.sub pl.point) = 0 →
        isPointInPolygon3D q e.vertices pl.normal = true → dot n (q.sub o) < 0) :
    (calculateViewFactorsWithBlockage env o n E O N rng).1.viewFactors
      = List.replicate E.length 0 ∧
    totalTemperature (calculateViewFactorsWithBlockage env o n E O N rng).1.viewFactors E = 0 := by
  have hVF : (calculateViewFactorsWithBlockage env o n E O N rng).1.viewFactors
      = List.replicate E.length 0 := by
    apply viewFactors_zero_of_no_outcome
    intro d hd
    apply rayOutcome_none_of_never_hit
    intro pd hpd
    obtain ⟨e, he, rfl⟩ := List.mem_map.mp hpd
    by_cases hn : length env n ≤ 1e-12
    · have hzero : d = (⟨0, 0, 0⟩ : Vec3 R) := by
        rw [generate_eq_map, hemisphereFrame_of_short env n hn] at hd
        obtain ⟨p, _, rfl⟩ := List.mem_map.mp hd
        simp [sampleDirection, Vec3.add, Vec3.scale]
      rw [hzero]
      apply hitDist_of_parallel
      simp only [dot, mul_zero, add_zero, abs_zero]
      norm_num
    · have hnd := dot_normal_sampled env hs hu n (not_le.mp hn) N rng d hd
      unfold mkPolyData
      cases hpl : getPolygonPlane env e.vertices with
      | none => simp [hitDist]
      | some pl =>
        simp only [hitDist, if_true]
        cases hr : rayPlaneIntersect o d pl.normal pl.point with
        | mk hit t =>
          cases hit with
          | none => rfl
          | some q =>
            simp only
            by_cases hin : isPointInPolygon3D q e.vertices pl.normal = true
            · exfalso
              obtain ⟨s, hs7, hq, hon⟩ := rayPlaneIntersect_hit o d pl.normal pl.point q t hr
              have hb := hback e he pl hpl q hon hin
              have hqo : dot n (q.sub o) = s * dot n d := by
                rw [hq]
                simp only [dot, Vec3.add, Vec3.sub, Vec3.scale]
                ring
              rw [hqo] at hb
              have hs0 : (0 : R) < s := lt_of_lt_of_le (by norm_num) hs7
              have := mul_pos hs0 hnd
              linarith
            · simp [hin]
  exact ⟨hVF, by rw [hVF]; exact totalTemperature_replicate_zero _ _⟩

end BackFacing

section BackFacingExamples

/-- C12 (witness): scenario S3, the emitter square at height 1 seen from the
origin with normal `(0,0,-1)`, with three rays on the real platform. -/
theorem back_facing_receiver_witness :
    ∃ env : Platform ℝ Unit, ExactSqrt env ∧ UnitDraws env ∧
      (∀ p ∈ squareAt (10 : ℝ) 1, dot (⟨0, 0, -1⟩ : Vec3 ℝ) (p.sub ⟨0, 0, 0⟩) < 0) ∧
      (calculateViewFactorsWithBlockage env ⟨0, 0, 0⟩ ⟨0, 0, -1⟩ [⟨squareAt 10 1, 1000⟩]
        [] 3 ()).1.viewFactors = [0] := by
  refine ⟨_, real_platform_ideal.1, real_platform_ideal.2.2, ?_, ?_⟩
  · intro p hp
    simp only [squareAt, List.mem_cons, List.mem_singleton, List.mem_nil_iff, or_false] at hp
    rcases hp with rfl | rfl | rfl | rfl <;> simp [dot, Vec3.sub]
  · refine (back_facing_receiver _ real_platform_ideal.1 real_platform_ideal.2.2
      ⟨0, 0, 0⟩ ⟨0, 0, -1⟩ [⟨squareAt 10 1, 1000⟩] [] 3 () ?_).1
    intro e he pl hpl q hon _
    rw [List.mem_singleton] at he
    subst he
    have hmk := mkPolyData_squareAt _ real_platform_ideal.1 (10 : ℝ) 1 (by norm_num)
    unfold mkPolyData at hmk
    simp only at hpl
    rw [hpl] at hmk
    have hnormal : pl.normal = ⟨0, 0, 1⟩ := congrArg PolyData.normal hmk
    have hpoint : pl.point = ⟨-10, -10, 1⟩ := congrArg PolyData.point hmk
    rw [hnormal, hpoint] at hon
    simp only [dot, Vec3.sub] at hon ⊢
    linarith

/-- C12 (counterexample): two emitters, each with every vertex strictly behind the
receiver, that the single ray sampled on the test platform hits at a point in
front of it, so the view factor is 1. The first is a planar triangle whose
projection contains no point with `x > 1`, yet the biased crossing test accepts
the hit point `(3/2, 0, 0)`; the second is a hexagon whose third vertex is out of
the plane of the others, and the plane through its first three vertices is hit
at `(0, 0, 2)`. -/
theorem back_facing_receiver_counterexample :
    ((∀ e ∈ sliverEmitter, ∀ p ∈ e.vertices,
        dot (⟨1, 0, 0⟩ : Vec3 ℚ) (p.sub ⟨5 / 4, 0, 0⟩) < 0) ∧
      (calculateViewFactorsWithBlockage testPlatform ⟨5 / 4, 0, 0⟩ ⟨1, 0, 0⟩ sliverEmitter
        [] 1 []).1.viewFactors = [1]) ∧
    ((∀ e ∈ foldedHexagon, ∀ p ∈ e.vertices,
        dot (⟨0, 0, 1⟩ : Vec3 ℚ) (p.sub ⟨0, 0, 0⟩) < 0) ∧
      (calculateViewFactorsWithBlockage testPlatform ⟨0, 0, 0⟩ ⟨0, 0, 1⟩ foldedHexagon
        [] 1 []).1.viewFactors = [1]) := by
  decide!

end BackFacingExamples

section RequestErrors
variable {R : Type} [LinearOrderedField R] {G : Type}

theorem runCalculation_of_error (env : Platform R G) (fuel : Nat) (json : String)
    (rd : Nat → Nat) (msg : String) (h : parseInputJson env fuel json = Parsed.error msg) :
    runCalculation env fuel json rd = some ("\x7b\"error\": \"" ++ msg ++ "\"\x7d", false) := by
  unfold runCalculation
  rw [h]

theorem parseInputJson_of_loop (env : Platform R G) (fuel : Nat) (json : String) (i1 : Nat)
    (st : InputState R)
    (hopen : expectChar json.toList (skipSpaces json.toList 0) '{' = (true, i1))
    (hloop : inputLoop env json.toList fuel ⟨i1, JsonInput.init, false, false⟩ = Parsed.ok st) :
    parseInputJson env fuel json
      = if !st.haveReceiverPlanes then Parsed.error "Must provide 'receiver_planes' field"
        else if st.out.receiverPoints.isEmpty then Parsed.error "receiver_planes is empty"
        else if !st.havePolygons then Parsed.error "Missing polygons"
        else Parsed.ok st.out := by
  unfold parseInputJson
  simp only [hopen, hloop, Parsed.andThen]

end RequestErrors

section RectangleClaims
variable {R : Type} [LinearOrderedField R]

theorem rectangle_edges_unbiased (x0 y0 x1 y1 x y : R) :
    ∀ i, i < 4 →
      edgeCrossesBiased [(x0, y0), (x1, y0), (x1, y1), (x0, y1)] x y i
        = edgeCrosses [(x0, y0), (x1, y0), (x1, y1), (x0, y1)] x y i := by
  intro i hi
  interval_cases i <;>
    simp [edgeCrossesBiased, edgeCrosses]

theorem rectangle_denominators (x0 y0 x1 y1 y : R) (hy : y0 < y1) (hne : y1 - y0 ≠ 1e-30) :
    ∀ i, i < 4 →
      (decide (([(x0, y0), (x1, y0), (x1, y1), (x0, y1)].getD i (0, 0)).2 > y)
        != decide (([(x0, y0), (x1, y0), (x1, y1), (x0, y1)].getD ((i + 4 - 1) % 4) (0, 0)).2 > y))
        = true →
      (([(x0, y0), (x1, y0), (x1, y1), (x0, y1)].getD ((i + 4 - 1) % 4) (0, 0)).2
        - ([(x0, y0), (x1, y0), (x1, y1), (x0, y1)].getD i (0, 0)).2) + 1e-30 ≠ 0 := by
  intro i hi
  have hpos : (0 : R) < 1e-30 := by norm_num
  interval_cases i
  · intro _
    simp only [List.getD_cons_zero, List.getD_cons_succ, Nat.reduceAdd, Nat.reduceSub,
      Nat.reduceMod]
    have : 0 < y1 - y0 + 1e-30 := by linarith
    exact ne_of_gt this
  · intro h
    simp at h
  · intro _
    simp only [List.getD_cons_zero, List.getD_cons_succ, Nat.reduceAdd, Nat.reduceSub,
      Nat.reduceMod]
    intro h0
    apply hne
    linarith
  · intro h
    simp at h

/-- C24: for the rectangle `(x0,y0), (x1,y0), (x1,y1), (x0,y1)` with `x0 < x1`,
`y0 < y1` and `y1 - y0 != 1e-30`, `isPointInPolygon2D` is true exactly for
`x0 <= x < x1` and `y0 <= y < y1`; every division the loop evaluates has a
non-zero denominator, and each edge test gives the same answer with and without
the `1e-30` in the denominator. -/
theorem rectangle_classified (x0 y0 x1 y1 x y : R) (hx : x0 < x1) (hy : y0 < y1)
    (hne : y1 - y0 ≠ 1e-30) :
    (isPointInPolygon2D [(x0, y0), (x1, y0), (x1, y1), (x0, y1)] x y = true
      ↔ (x0 ≤ x ∧ x < x1 ∧ y0 ≤ y ∧ y < y1)) ∧
    (∀ i, i < 4 →
      (decide (([(x0, y0), (x1, y0), (x1, y1), (x0, y1)].getD i (0, 0)).2 > y)
        != decide (([(x0, y0), (x1, y0), (x1, y1), (x0, y1)].getD ((i + 4 - 1) % 4) (0, 0)).2 > y))
        = true →
      (([(x0, y0), (x1, y0), (x1, y1), (x0, y1)].getD ((i + 4 - 1) % 4) (0, 0)).2
        - ([(x0, y0), (x1, y0), (x1, y1), (x0, y1)].getD i (0, 0)).2) + 1e-30 ≠ 0) ∧
    (∀ i, i < 4 →
      edgeCrossesBiased [(x0, y0), (x1, y0), (x1, y1), (x0, y1)] x y i
        = edgeCrosses [(x0, y0), (x1, y0), (x1, y1), (x0, y1)] x y i) := by
  refine ⟨?_, rectangle_denominators x0 y0 x1 y1 y hy hne, rectangle_edges_unbiased x0 y0 x1 y1 x y⟩
  rw [isPointInPolygon2D_rectangle x0 y0 x1 y1 x y hx hy, decide_eq_true_iff]

end RectangleClaims

section RectangleExamples

/-- C24 (witness): the unit square contains `(1/2, 1/2)` and, being half-open on
its max edges, not the corner `(1, 1)`. -/
theorem rectangle_classified_witness :
    isPointInPolygon2D [((0 : ℚ), (0 : ℚ)), (1, 0), (1, 1), (0, 1)] (1 / 2) (1 / 2) = true ∧
    ¬ isPointInPolygon2D [((0 : ℚ), (0 : ℚ)), (1, 0), (1, 1), (0, 1)] 1 1 = true :=
  ⟨(rectangle_classified (0 : ℚ) 0 1 1 (1 / 2) (1 / 2) (by norm_num) (by norm_num)
      (by norm_num)).1.mpr (by norm_num),
    fun h => absurd ((rectangle_classified (0 : ℚ) 0 1 1 1 1 (by norm_num) (by norm_num)
      (by norm_num)).1.mp h).2.1 (by norm_num)⟩

end RectangleExamples

section Divergence
variable {R : Type} [LinearOrderedField R] {G : Type}

theorem inputLoop_unknownKey (env : Platform R G) :
    ∀ (fuel : Nat) (st : InputState R), st.i = 1 →
      inputLoop env requestUnknownKey.toList fuel st = Parsed.outOfFuel := by
  have hlen : requestUnknownKey.toList.length = 9 := by decide
  have hskip : skipSpaces requestUnknownKey.toList 1 = 1 := by decide
  have hc1 : charAt requestUnknownKey.toList 1 '}' = false := by decide
  have hc2 : charAt requestUnknownKey.toList 1 ',' = false := by decide
  have hk1 : parseKey requestUnknownKey.toList 1 "receiver_planes" = (false, 7) := by decide
  have hk2 : parseKey requestUnknownKey.toList 1 "polygons" = (false, 7) := by decide
  have hk3 : parseKey requestUnknownKey.toList 1 "inert_polygons" = (false, 7) := by decide
  have hk4 : parseKey requestUnknownKey.toList 1 "num_rays" = (false, 7) := by decide
  have hk5 : parseKey requestUnknownKey.toList 1 "seed" = (false, 7) := by decide
  intro fuel
  induction fuel with
  | zero => intro st _; rfl
  | succ n ih =>
    intro st hi
    rw [inputLoop]
    simp only [hi, hlen, hskip, hc1, hc2, hk1, hk2, hk3, hk4, hk5, keyReceiverPlanes,
      keyPolygons, keyInertPolygons, keyNumRays, keySeed, Parsed.andThen]
    simp only [Nat.one_lt_ofNat, if_true, Bool.false_eq_true, if_false]
    exact ih _ rfl

theorem planeDataLoop_unknownKey (env : Platform R G) :
    ∀ (fuel : Nat) (st : PlaneState R), st.i = 25 →
      planeDataLoop env requestUnknownPlaneKey.toList fuel st = Run.outOfFuel := by
  have hlen : requestUnknownPlaneKey.toList.length = 35 := by decide
  have hskip : skipSpaces requestUnknownPlaneKey.toList 25 = 25 := by decide
  have hc1 : charAt requestUnknownPlaneKey.toList 25 '}' = false := by decide
  have hc2 : charAt requestUnknownPlaneKey.toList 25 ',' = false := by decide
  have hk1 : parseKey requestUnknownPlaneKey.toList 25 "width" = (false, 31) := by decide
  have hk2 : parseKey requestUnknownPlaneKey.toList 25 "height" = (false, 31) := by decide
  have hk3 : parseKey requestUnknownPlaneKey.toList 25 "points" = (false, 31) := by decide
  intro fuel
  induction fuel with
  | zero => intro st _; rfl
  | succ n ih =>
    intro st hi
    rw [planeDataLoop]
    simp only [hi, hlen, hskip, hc1, hc2, hk1, hk2, hk3]
    simp only [Nat.reduceLT, if_true, Bool.false_eq_true, if_false]
    exact ih _ rfl

theorem inputLoop_unknownPlaneKey (env : Platform R G) (fuel : Nat) (st : InputState R)
    (hi : st.i = 1) :
    inputLoop env requestUnknownPlaneKey.toList fuel st = Parsed.outOfFuel := by
  have hlen : requestUnknownPlaneKey.toList.length = 35 := by decide
  have hskip : skipSpaces requestUnknownPlaneKey.toList 1 = 1 := by decide
  have hc1 : charAt requestUnknownPlaneKey.toList 1 '}' = false := by decide
  have hk1 : parseKey requestUnknownPlaneKey.toList 1 "receiver_planes" = (true, 19) := by decide
  have he1 : expectChar requestUnknownPlaneKey.toList 19 '{' = (true, 20) := by decide
  have hskip2 : skipSpaces requestUnknownPlaneKey.toList 20 = 20 := by decide
  have hc3 : charAt requestUnknownPlaneKey.toList 20 '}' = false := by decide
  have he2 : expectChar requestUnknownPlaneKey.toList 20 '"' = (true, 21) := by decide
  have htk : 21 + ((requestUnknownPlaneKey.toList.drop 21).takeWhile (fun c => c != '"')).length
      = 22 := by decide
  have hskip3 : skipSpaces requestUnknownPlaneKey.toList 23 = 23 := by decide
  have he3 : expectChar requestUnknownPlaneKey.toList 23 ':' = (true, 24) := by decide
  have he4 : expectChar requestUnknownPlaneKey.toList 24 '{' = (true, 25) := by decide
  have hskip4 : skipSpaces requestUnknownPlaneKey.toList 25 = 25 := by decide
  have hc4 : charAt requestUnknownPlaneKey.toList 25 '}' = false := by decide
  have hdata : ∀ f, parseReceiverPlaneData env requestUnknownPlaneKey.toList f 24 ⟨24, 0, 0, []⟩
      = Run.outOfFuel := by
    intro f
    unfold parseReceiverPlaneData
    simp only [he4, hskip4, hc4, Bool.false_eq_true, if_false]
    exact planeDataLoop_unknownKey env f _ rfl
  have hplanes : ∀ f (ps : PlanesState R), ps.i = 20 →
      planesLoop env requestUnknownPlaneKey.toList f ps = Run.outOfFuel := by
    intro f ps hps
    cases f with
    | zero => rfl
    | succ n =>
      rw [planesLoop]
      simp only [hps, hlen, hskip2, hc3, he2, htk, hskip3, he3, hdata]
      simp
  have hmulti : ∀ f (ps : PlanesState R), ps.i = 19 →
      parseReceiverPlanesMulti env requestUnknownPlaneKey.toList f ps = Run.outOfFuel := by
    intro f ps hps
    unfold parseReceiverPlanesMulti
    simp only [hps, he1, hskip2, hc3, Bool.false_eq_true, if_false]
    exact hplanes f _ rfl
  cases fuel with
  | zero => rfl
  | succ n =>
    have hm := hmulti n ⟨19, st.out.planeDataMap, st.out.receiverPoints⟩ rfl
    rw [inputLoop]
    simp only [hi, hlen, hskip, hc1, hk1, keyReceiverPlanes, hm, Parsed.andThen]
    simp

/-- C21: `parseInputJson` does not terminate on a body whose top-level object
has an unrecognised key, `{"foo":1}`, nor on a body whose plane object has an
unrecognised key: every key block restores the index, no comma follows, and the
loop repeats from the same index, so for every bound on the number of loop
iterations the run is cut off and `runCalculation` produces no response. -/
theorem unknown_key_never_returns (env : Platform R G) (fuel : Nat) (rd : Nat → Nat) :
    parseInputJson env fuel requestUnknownKey = Parsed.outOfFuel ∧
    runCalculation env fuel requestUnknownKey rd = none ∧
    parseInputJson env fuel requestUnknownPlaneKey = Parsed.outOfFuel ∧
    runCalculation env fuel requestUnknownPlaneKey rd = none := by
  have he : expectChar requestUnknownKey.toList (skipSpaces requestUnknownKey.toList 0) '{'
      = (true, 1) := by decide
  have he2 : expectChar requestUnknownPlaneKey.toList
      (skipSpaces requestUnknownPlaneKey.toList 0) '{' = (true, 1) := by decide
  have h1 : parseInputJson env fuel requestUnknownKey = Parsed.outOfFuel := by
    unfold parseInputJson
    simp only [he, inputLoop_unknownKey env fuel ⟨1, JsonInput.init, false, false⟩ rfl,
      Parsed.andThen]
  have h2 : parseInputJson env fuel requestUnknownPlaneKey = Parsed.outOfFuel := by
    unfold parseInputJson
    simp only [he2, inputLoop_unknownPlaneKey env fuel ⟨1, JsonInput.init, false, false⟩ rfl,
      Parsed.andThen]
  refine ⟨h1, ?_, h2, ?_⟩
  · unfold runCalculation
    rw [h1]
  · unfold runCalculation
    rw [h2]

end Divergence

section UnseededState
variable {R : Type} [LinearOrderedField R] {G : Type}

/-- C22: without a seed the driver passes the same generator state to the
estimator for every receiver point: `pointRng` is a copy of `rng`, and `rng` itself
is never advanced. On `requestTwoPointsNoSeed`, with device values giving the draws
`0, 0, 3/4, ...`, both points get the value 1000 from the draws `0, 0`; the state
the first call leaves behind, `3/4, 3/4, ...`, would give the second point 0. -/
theorem unseeded_points_share_state (env : Platform R G) (inp : JsonInput R) (rng : G)
    (g : Nat) :
    pointRng env { inp with seed := none } rng g = rng ∧
    pointTemperature env { inp with seed := none } rng g
      = totalTemperature
          (calculateViewFactorsWithBlockage env
            (inp.receiverPoints.getD g ⟨Vec3.zero, Vec3.zero⟩).origin
            (inp.receiverPoints.getD g ⟨Vec3.zero, Vec3.zero⟩).normal
            inp.polygons inp.inertPolygons inp.numRays rng).1.viewFactors inp.polygons ∧
    runCalculation testPlatform 40 requestTwoPointsNoSeed deviceDraws
      = some ("\x7b\"success\":true,\"planes\":[\x7b\"name\":\"a\",\"width\":2,\"height\":1,\"values\":[1000,1000]\x7d]\x7d", true) ∧
    (calculateViewFactorsWithBlockage testPlatform ⟨0, 0, 0⟩ ⟨0, 0, 1⟩ [⟨squareAt 1 1, 1000⟩] [] 1
        [0, 0, 3 / 4, 3 / 4, 3 / 4, 3 / 4]).2 = [3 / 4, 3 / 4, 3 / 4, 3 / 4] ∧
    totalTemperature
      (calculateViewFactorsWithBlockage testPlatform ⟨0, 0, 0⟩ ⟨0, 0, 1⟩ [⟨squareAt 1 1, 1000⟩] [] 1
        [3 / 4, 3 / 4, 3 / 4, 3 / 4]).1.viewFactors [⟨squareAt 1 1, 1000⟩] = 0 :=
  ⟨rfl, rfl, by decide!, by decide!, by decide!⟩

end UnseededState

section PlaneMapLemmas

theorem sumPoints_nil : sumPoints [] = 0 := rfl

theorem sumPoints_cons (e : String × PlaneData) (m : List (String × PlaneData)) :
    sumPoints (e :: m) = e.2.numPoints + sumPoints m := by
  simp [sumPoints]

theorem sumPoints_append (m1 m2 : List (String × PlaneData)) :
    sumPoints (m1 ++ m2) = sumPoints m1 + sumPoints m2 := by
  simp [sumPoints]

theorem assignAll_nil (m : List (String × PlaneData)) : assignAll m [] = m := rfl

theorem assignAll_cons (m : List (String × PlaneData)) (d : String × PlaneData)
    (rest : List (String × PlaneData)) :
    assignAll m (d :: rest) = assignAll (mapAssign m d.1 d.2) rest := rfl

theorem assignAll_append (m l1 l2 : List (String × PlaneData)) :
    assignAll m (l1 ++ l2) = assignAll (assignAll m l1) l2 := by
  simp [assignAll, List.foldl_append]

theorem mem_keys_mapAssign (m : List (String × PlaneData)) (name : String) (pd : PlaneData)
    (k : String) :
    k ∈ (mapAssign m name pd).map Prod.fst ↔ k = name ∨ k ∈ m.map Prod.fst := by
  induction m with
  | nil => simp [mapAssign]
  | cons e rest ih =>
    obtain ⟨k0, v0⟩ := e
    simp only [mapAssign]
    split_ifs with h1 h2
    · simp
    · subst h2
      simp
    · simp only [List.map_cons, List.mem_cons, ih]
      tauto

theorem keys_sorted_mapAssign (m : List (String × PlaneData)) (name : String) (pd : PlaneData)
    (hm : (m.map Prod.fst).Pairwise (· < ·)) :
    ((mapAssign m name pd).map Prod.fst).Pairwise (· < ·) := by
  induction m with
  | nil => simp [mapAssign]
  | cons e rest ih =>
    obtain ⟨k0, v0⟩ := e
    simp only [List.map_cons, List.pairwise_cons] at hm
    simp only [mapAssign]
    split_ifs with h1 h2
    · simp only [List.map_cons, List.pairwise_cons, List.mem_cons]
      refine ⟨?_, hm⟩
      intro a ha
      rcases ha with rfl | ha
      · exact h1
      · exact lt_trans h1 (hm.1 a ha)
    · subst h2
      simp only [List.map_cons, List.pairwise_cons]
      exact hm
    · simp only [List.map_cons, List.pairwise_cons]
      refine ⟨?_, ih hm.2⟩
      intro a ha
      rcases (mem_keys_mapAssign rest name pd a).mp ha with rfl | ha
      · rcases lt_trichotomy a k0 with h | h | h
        · exact absurd h h1
        · exact absurd h h2
        · exact h
      · exact hm.1 a ha

theorem mem_mapAssign (m : List (String × PlaneData)) (name : String) (pd : PlaneData)
    (hm : (m.map Prod.fst).Pairwise (· < ·)) (k : String) (v : PlaneData) :
    (k, v) ∈ mapAssign m name pd ↔ (k = name ∧ v = pd) ∨ (k ≠ name ∧ (k, v) ∈ m) := by
  induction m with
  | nil => simp [mapAssign]
  | cons e rest ih =>
    obtain ⟨k0, v0⟩ := e
    simp only [List.map_cons, List.pairwise_cons] at hm
    have hrest : ∀ a w, (a, w) ∈ rest → k0 < a := fun a w haw =>
      hm.1 a (List.mem_map.mpr ⟨(a, w), haw, rfl⟩)
    simp only [mapAssign]
    split_ifs with h1 h2
    · simp only [List.mem_cons, Prod.mk.injEq]
      constructor
      · rintro (⟨rfl, rfl⟩ | ⟨rfl, rfl⟩ | h)
        · exact Or.inl ⟨rfl, rfl⟩
        · exact Or.inr ⟨ne_of_gt h1, Or.inl ⟨rfl, rfl⟩⟩
        · exact Or.inr ⟨ne_of_gt (lt_trans h1 (hrest k v h)), Or.inr h⟩
      · rintro (⟨rfl, rfl⟩ | ⟨_, h⟩)
        · exact Or.inl ⟨rfl, rfl⟩
        · exact Or.inr h
    · subst h2
      simp only [List.mem_cons, Prod.mk.injEq]
      constructor
      · rintro (⟨rfl, rfl⟩ | h)
        · exact Or.inl ⟨rfl, rfl⟩
        · exact Or.inr ⟨ne_of_gt (hrest k v h), Or.inr h⟩
      · rintro (⟨rfl, rfl⟩ | ⟨hne, h⟩)
        · exact Or.inl ⟨rfl, rfl⟩
        · rcases h with ⟨rfl, _⟩ | h
          · exact absurd rfl hne
          · exact Or.inr h
    · simp only [List.mem_cons, Prod.mk.injEq, ih hm.2]
      constructor
      · rintro (⟨rfl, rfl⟩ | ⟨rfl, rfl⟩ | ⟨hne, h⟩)
        · exact Or.inr ⟨fun h => h2 h.symm, Or.inl ⟨rfl, rfl⟩⟩
        · exact Or.inl ⟨rfl, rfl⟩
        · exact Or.inr ⟨hne, Or.inr h⟩
      · rintro (⟨rfl, rfl⟩ | ⟨hne, h⟩)
        · exact Or.inr (Or.inl ⟨rfl, rfl⟩)
        · rcases h with ⟨rfl, rfl⟩ | h
          · exact Or.inl ⟨rfl, rfl⟩
          · exact Or.inr (Or.inr ⟨hne, h⟩)

theorem sumPoints_mapAssign_le (m : List (String × PlaneData)) (name : String) (pd : PlaneData) :
    sumPoints (mapAssign m name pd) ≤ sumPoints m + pd.numPoints := by
  induction m with
  | nil => simp [mapAssign, sumPoints]
  | cons e rest ih =>
    obtain ⟨k0, v0⟩ := e
    simp only [mapAssign]
    split_ifs with h1 h2
    · simp only [sumPoints_cons]; omega
    · simp only [sumPoints_cons]; omega
    · simp only [sumPoints_cons]; omega

theorem sumPoints_mapAssign_new (m : List (String × PlaneData)) (name : String) (pd : PlaneData)
    (hnew : name ∉ m.map Prod.fst) :
    sumPoints (mapAssign m name pd) = sumPoints m + pd.numPoints := by
  induction m with
  | nil => simp [mapAssign, sumPoints]
  | cons e rest ih =>
    obtain ⟨k0, v0⟩ := e
    simp only [List.map_cons, List.mem_cons, not_or] at hnew
    simp only [mapAssign]
    split_ifs with h1 h2
    · simp only [sumPoints_cons]; omega
    · exact absurd h2 hnew.1
    · simp only [sumPoints_cons, ih hnew.2]; omega

theorem sumPoints_mapAssign_old (m : List (String × PlaneData)) (name : String)
    (pd old : PlaneData) (hm : (m.map Prod.fst).Pairwise (· < ·)) (hold : (name, old) ∈ m) :
    sumPoints (mapAssign m name pd) + old.numPoints = sumPoints m + pd.numPoints := by
  induction m with
  | nil => cases hold
  | cons e rest ih =>
    obtain ⟨k0, v0⟩ := e
    simp only [List.map_cons, List.pairwise_cons] at hm
    have hrest : ∀ w, (name, w) ∈ rest → k0 < name := fun w haw =>
      hm.1 name (List.mem_map.mpr ⟨(name, w), haw, rfl⟩)
    simp only [List.mem_cons, Prod.mk.injEq] at hold
    simp only [mapAssign]
    split_ifs with h1 h2
    · rcases hold with ⟨rfl, _⟩ | h
      · exact absurd h1 (lt_irrefl _)
      · exact absurd (lt_trans h1 (hrest old h)) (lt_irrefl _)
    · subst h2
      rcases hold with ⟨_, rfl⟩ | h
      · simp only [sumPoints_cons]; omega
      · exact absurd (hrest old h) (lt_irrefl _)
    · rcases hold with ⟨rfl, _⟩ | h
      · exact absurd rfl h2
      · have := ih hm.2 h
        simp only [sumPoints_cons]; omega

theorem keys_sorted_assignAll (decls m : List (String × PlaneData))
    (hm : (m.map Prod.fst).Pairwise (· < ·)) :
    ((assignAll m decls).map Prod.fst).Pairwise (· < ·) := by
  induction decls generalizing m with
  | nil => exact hm
  | cons d rest ih =>
    rw [assignAll_cons]
    exact ih _ (keys_sorted_mapAssign m d.1 d.2 hm)

theorem mem_keys_assignAll (decls m : List (String × PlaneData)) (k : String) :
    k ∈ (assignAll m decls).map Prod.fst ↔ k ∈ decls.map Prod.fst ∨ k ∈ m.map Prod.fst := by
  induction decls generalizing m with
  | nil => simp [assignAll]
  | cons d rest ih =>
    rw [assignAll_cons, ih, mem_keys_mapAssign]
    simp only [List.map_cons, List.mem_cons]
    tauto

theorem sumPoints_assignAll_le (decls m : List (String × PlaneData)) :
    sumPoints (assignAll m decls) ≤ sumPoints m + sumPoints decls := by
  induction decls generalizing m with
  | nil => simp [assignAll, sumPoints]
  | cons d rest ih =>
    rw [assignAll_cons, sumPoints_cons]
    have h1 := ih (mapAssign m d.1 d.2)
    have h2 := sumPoints_mapAssign_le m d.1 d.2
    omega

/-- The total is kept exactly when no entry or declaration that carries a point
is overwritten. -/
theorem sumPoints_assignAll_eq_iff (decls m : List (String × PlaneData))
    (hm : (m.map Prod.fst).Pairwise (· < ·)) :
    sumPoints (assignAll m decls) = sumPoints m + sumPoints decls ↔
      (overwritesPoints decls = false ∧
        ∀ k v, (k, v) ∈ m → k ∈ decls.map Prod.fst → v.numPoints = 0) := by
  induction decls generalizing m with
  | nil => simp [assignAll, sumPoints, overwritesPoints]
  | cons d rest ih =>
    obtain ⟨n, pd⟩ := d
    have hm' := keys_sorted_mapAssign m n pd hm
    have hle := sumPoints_assignAll_le rest (mapAssign m n pd)
    have hle2 := sumPoints_mapAssign_le m n pd
    rw [assignAll_cons, sumPoints_cons]
    have hsplit : sumPoints (assignAll (mapAssign m n pd) rest)
          = sumPoints m + (pd.numPoints + sumPoints rest) ↔
        (sumPoints (assignAll (mapAssign m n pd) rest)
            = sumPoints (mapAssign m n pd) + sumPoints rest ∧
          sumPoints (mapAssign m n pd) = sumPoints m + pd.numPoints) := by
      constructor
      · intro h; constructor <;> omega
      · rintro ⟨h1, h2⟩; omega
    show sumPoints (assignAll (mapAssign m n pd) rest)
          = sumPoints m + (pd.numPoints + sumPoints rest) ↔ _
    rw [hsplit, ih _ hm']
    have hstep : sumPoints (mapAssign m n pd) = sumPoints m + pd.numPoints ↔
        ∀ v, (n, v) ∈ m → v.numPoints = 0 := by
      constructor
      · intro h v hv
        have := sumPoints_mapAssign_old m n pd v hm hv
        omega
      · intro h
        by_cases hin : n ∈ m.map Prod.fst
        · obtain ⟨e, he, hen⟩ := List.mem_map.mp hin
          obtain ⟨k0, v0⟩ := e
          simp only at hen
          subst hen
          have := sumPoints_mapAssign_old m k0 pd v0 hm he
          have := h v0 he
          omega
        · exact sumPoints_mapAssign_new m n pd hin
    rw [hstep]
    simp only [overwritesPoints, Bool.or_eq_false_iff, Bool.and_eq_false_iff,
      decide_eq_false_iff_not, List.map_cons, List.mem_cons]
    constructor
    · rintro ⟨⟨hov, hmem⟩, hold⟩
      refine ⟨⟨?_, hov⟩, ?_⟩
      · by_cases hin : n ∈ rest.map Prod.fst
        · left
          have := hmem n pd ((mem_mapAssign m n pd hm n pd).mpr (Or.inl ⟨rfl, rfl⟩)) hin
          omega
        · right; exact hin
      · intro k v hkv hk
        rcases hk with rfl | hk
        · exact hold v hkv
        · by_cases hkn : k = n
          · subst hkn; exact hold v hkv
          · exact hmem k v ((mem_mapAssign m n pd hm k v).mpr (Or.inr ⟨hkn, hkv⟩)) hk
    · rintro ⟨⟨hd, hov⟩, hmem⟩
      refine ⟨⟨hov, ?_⟩, ?_⟩
      · intro k v hkv hk
        rcases (mem_mapAssign m n pd hm k v).mp hkv with ⟨rfl, rfl⟩ | ⟨_, hkv'⟩
        · rcases hd with hd | hd
          · omega
          · exact absurd hk hd
        · exact hmem k v hkv' (Or.inr hk)
      · intro v hv
        exact hmem n v hv (Or.inl rfl)

theorem overwritesPoints_of_nodup (decls : List (String × PlaneData))
    (h : (decls.map Prod.fst).Nodup) : overwritesPoints decls = false := by
  induction decls with
  | nil => rfl
  | cons d rest ih =>
    simp only [List.map_cons, List.nodup_cons] at h
    simp only [overwritesPoints, Bool.or_eq_false_iff, Bool.and_eq_false_iff,
      decide_eq_false_iff_not]
    exact ⟨Or.inr h.1, ih h.2⟩

end PlaneMapLemmas

section KeyBlockLemmas
variable {R : Type} {G : Type}

theorem keyInertPolygons_planes (env : Platform R G) (s : List Char) (fuel : Nat)
    (st st' : InputState R) (h : keyInertPolygons env s fuel st = Parsed.ok st') :
    st'.out.planeDataMap = st.out.planeDataMap ∧
    st'.out.receiverPoints = st.out.receiverPoints := by
  unfold keyInertPolygons at h
  cases hk : parseKey s st.i "inert_polygons" with
  | mk b i1 =>
    cases b with
    | false =>
      simp only [hk] at h
      cases h
      exact ⟨rfl, rfl⟩
    | true =>
      simp only [hk] at h
      cases hq : parsePolygons env s fuel i1 [] with
      | ok r =>
        simp only [hq] at h
        cases h
        exact ⟨rfl, rfl⟩
      | outOfFuel => simp [hq] at h
      | fail => simp [hq] at h

theorem keySeed_planes (env : Platform R G) (s : List Char)
    (st st' : InputState R) (h : keySeed env s st = Parsed.ok st') :
    st'.out.planeDataMap = st.out.planeDataMap ∧
    st'.out.receiverPoints = st.out.receiverPoints := by
  unfold keySeed at h
  cases hk : parseKey s st.i "seed" with
  | mk b i1 =>
    cases b with
    | false =>
      simp only [hk] at h
      cases h
      exact ⟨rfl, rfl⟩
    | true =>
      simp only [hk] at h
      cases hq : parseUInt64 env s i1 with
      | none => simp [hq] at h
      | some r =>
        simp only [hq] at h
        cases h
        exact ⟨rfl, rfl⟩

end KeyBlockLemmas

section DeclarationLemmas
variable {R : Type} [LinearOrderedField R] {G : Type}

theorem planesLoop_decls (env : Platform R G) (s : List Char) :
    ∀ (fuel : Nat) (st st' : PlanesState R), planesLoop env s fuel st = Run.ok st' →
      st'.planeMap = assignAll st.planeMap (planesLoopDecls env s fuel st.i) ∧
      st'.allPoints.length
        = st.allPoints.length + sumPoints (planesLoopDecls env s fuel st.i) := by
  intro fuel
  induction fuel with
  | zero =>
    intro st st' h
    simp [planesLoop] at h
  | succ n ih =>
    intro st st' h
    rw [planesLoop] at h
    rw [planesLoopDecls]
    by_cases h1 : st.i < s.length
    · simp only [h1, if_true] at h ⊢
      by_cases h2 : charAt s (skipSpaces s st.i) '}' = true
      · simp only [h2, if_true] at h ⊢
        cases h
        simp [assignAll, sumPoints]
      · simp only [h2, Bool.false_eq_true, if_false] at h ⊢
        cases he : expectChar s (skipSpaces s st.i) '"' with
        | mk b nameStart =>
          cases b with
          | false => simp [he] at h
          | true =>
            simp only [he] at h ⊢
            by_cases hk : nameStart +
                ((s.drop nameStart).takeWhile (fun c => c != '"')).length ≥ s.length
            · simp [hk] at h
            · simp only [hk, if_false] at h ⊢
              cases he2 : expectChar s (skipSpaces s (nameStart +
                  ((s.drop nameStart).takeWhile (fun c => c != '"')).length + 1)) ':' with
              | mk b2 i2 =>
                cases b2 with
                | false => simp [he2] at h
                | true =>
                  simp only [he2] at h ⊢
                  cases hd : parseReceiverPlaneData env s n i2 ⟨i2, 0, 0, []⟩ with
                  | fail => simp [hd] at h
                  | outOfFuel => simp [hd] at h
                  | ok pst =>
                    simp only [hd] at h ⊢
                    by_cases h3 : charAt s (skipSpaces s pst.i) ',' = true
                    · simp only [h3, if_true] at h ⊢
                      obtain ⟨hmap, hlen⟩ := ih _ _ h
                      refine ⟨?_, ?_⟩
                      · rw [hmap, assignAll_cons]
                      · rw [hlen, sumPoints_cons]
                        simp only [List.length_append]
                        omega
                    · simp only [h3, Bool.false_eq_true, if_false] at h ⊢
                      obtain ⟨hmap, hlen⟩ := ih _ _ h
                      refine ⟨?_, ?_⟩
                      · rw [hmap, assignAll_cons]
                      · rw [hlen, sumPoints_cons]
                        simp only [List.length_append]
                        omega
    · simp only [h1, if_false] at h ⊢
      cases h
      simp [assignAll, sumPoints]

theorem parseReceiverPlanesMulti_decls (env : Platform R G) (s : List Char) (fuel : Nat)
    (st st' : PlanesState R) (h : parseReceiverPlanesMulti env s fuel st = Run.ok st') :
    st'.planeMap = assignAll st.planeMap (parseReceiverPlanesMultiDecls env s fuel st.i) ∧
    st'.allPoints.length
      = st.allPoints.length + sumPoints (parseReceiverPlanesMultiDecls env s fuel st.i) := by
  unfold parseReceiverPlanesMulti at h
  unfold parseReceiverPlanesMultiDecls
  cases he : expectChar s st.i '{' with
  | mk b i1 =>
    cases b with
    | false => simp [he] at h
    | true =>
      simp only [he] at h ⊢
      by_cases h2 : charAt s (skipSpaces s i1) '}' = true
      · simp only [h2, if_true] at h ⊢
        cases h
        simp [assignAll, sumPoints]
      · simp only [h2, Bool.false_eq_true, if_false] at h ⊢
        exact planesLoop_decls env s fuel _ _ h

theorem keyReceiverPlanes_decls (env : Platform R G) (s : List Char) (fuel : Nat)
    (st st' : InputState R) (h : keyReceiverPlanes env s fuel st = Parsed.ok st') :
    st'.out.planeDataMap
        = assignAll st.out.planeDataMap (keyReceiverPlanesDecls env s fuel st.i) ∧
    st'.out.receiverPoints.length
      = st.out.receiverPoints.length + sumPoints (keyReceiverPlanesDecls env s fuel st.i) := by
  unfold keyReceiverPlanes at h
  unfold keyReceiverPlanesDecls
  cases hk : parseKey s st.i "receiver_planes" with
  | mk b i1 =>
    cases b with
    | false =>
      simp only [hk] at h ⊢
      cases h
      simp [assignAll, sumPoints]
    | true =>
      simp only [hk] at h ⊢
      cases hm : parseReceiverPlanesMulti env s fuel
          ⟨i1, st.out.planeDataMap, st.out.receiverPoints⟩ with
      | fail => simp [hm] at h
      | outOfFuel => simp [hm] at h
      | ok ps =>
        simp only [hm] at h
        cases h
        exact parseReceiverPlanesMulti_decls env s fuel _ _ hm

theorem keyPolygons_planes (env : Platform R G) (s : List Char) (fuel : Nat)
    (st st' : InputState R) (h : keyPolygons env s fuel st = Parsed.ok st') :
    st'.out.planeDataMap = st.out.planeDataMap ∧
    st'.out.receiverPoints = st.out.receiverPoints := by
  unfold keyPolygons at h
  cases hk : parseKey s st.i "polygons" with
  | mk b i1 =>
    cases b with
    | false =>
      simp only [hk] at h
      cases h
      exact ⟨rfl, rfl⟩
    | true =>
      simp only [hk] at h
      cases hp : parsePolygonsWithTemp env s fuel i1 st.out.polygons with
      | ok r =>
        simp only [hp] at h
        cases h
        exact ⟨rfl, rfl⟩
      | outOfFuel => simp [hp] at h
      | fail =>
        simp only [hp] at h
        cases hq : parsePolygons env s fuel i1 [] with
        | ok r =>
          simp only [hq] at h
          cases h
          exact ⟨rfl, rfl⟩
        | outOfFuel => simp [hq] at h
        | fail => simp [hq] at h

theorem keyNumRays_planes (env : Platform R G) (s : List Char)
    (st st' : InputState R) (h : keyNumRays env s st = Parsed.ok st') :
    st'.out.planeDataMap = st.out.planeDataMap ∧
    st'.out.receiverPoints = st.out.receiverPoints := by
  unfold keyNumRays at h
  cases hk : parseKey s st.i "num_rays" with
  | mk b i1 =>
    cases b with
    | false =>
      simp only [hk] at h
      cases h
      exact ⟨rfl, rfl⟩
    | true =>
      simp only [hk] at h
      cases hq : parseNumber env s i1 with
      | none => simp [hq] at h
      | some r =>
        simp only [hq] at h
        cases h
        exact ⟨rfl, rfl⟩

end DeclarationLemmas

section InputDeclarations
variable {R : Type} [LinearOrderedField R] {G : Type}

theorem inputLoop_decls (env : Platform R G) (s : List Char) :
    ∀ (fuel : Nat) (st st' : InputState R), inputLoop env s fuel st = Parsed.ok st' →
      st'.out.planeDataMap = assignAll st.out.planeDataMap (inputLoopDecls env s fuel st) ∧
      st'.out.receiverPoints.length
        = st.out.receiverPoints.length + sumPoints (inputLoopDecls env s fuel st) := by
  intro fuel
  induction fuel with
  | zero =>
    intro st st' h
    simp [inputLoop] at h
  | succ n ih =>
    intro st st' h
    rw [inputLoop] at h
    rw [inputLoopDecls]
    by_cases h1 : st.i < s.length
    · simp only [h1, if_true] at h ⊢
      by_cases h2 : charAt s (skipSpaces s st.i) '}' = true
      · simp only [h2, if_true] at h ⊢
        cases h
        simp [assignAll, sumPoints]
      · simp only [h2, Bool.false_eq_true, if_false] at h ⊢
        cases hr1 : keyReceiverPlanes env s n { st with i := skipSpaces s st.i } with
        | error msg => simp [hr1, Parsed.andThen] at h
        | outOfFuel => simp [hr1, Parsed.andThen] at h
        | ok st1 =>
          simp only [hr1, Parsed.andThen] at h ⊢
          cases hr2 : keyPolygons env s n st1 with
          | error msg => simp [hr2] at h
          | outOfFuel => simp [hr2] at h
          | ok st2 =>
            simp only [hr2] at h ⊢
            cases hr3 : keyInertPolygons env s n st2 with
            | error msg => simp [hr3] at h
            | outOfFuel => simp [hr3] at h
            | ok st3 =>
              simp only [hr3] at h ⊢
              cases hr4 : keyNumRays env s st3 with
              | error msg => simp [hr4] at h
              | outOfFuel => simp [hr4] at h
              | ok st4 =>
                simp only [hr4] at h ⊢
                cases hr5 : keySeed env s st4 with
                | error msg => simp [hr5] at h
                | outOfFuel => simp [hr5] at h
                | ok st5 =>
                  simp only [hr5] at h ⊢
                  obtain ⟨hm1, hp1⟩ := keyReceiverPlanes_decls env s n _ _ hr1
                  obtain ⟨hm2, hp2⟩ := keyPolygons_planes env s n _ _ hr2
                  obtain ⟨hm3, hp3⟩ := keyInertPolygons_planes env s n _ _ hr3
                  obtain ⟨hm4, hp4⟩ := keyNumRays_planes env s _ _ hr4
                  obtain ⟨hm5, hp5⟩ := keySeed_planes env s _ _ hr5
                  have hmap : st5.out.planeDataMap
                      = assignAll st.out.planeDataMap
                          (keyReceiverPlanesDecls env s n (skipSpaces s st.i)) := by
                    rw [hm5, hm4, hm3, hm2, hm1]
                  have hpts : st5.out.receiverPoints.length
                      = st.out.receiverPoints.length
                        + sumPoints (keyReceiverPlanesDecls env s n (skipSpaces s st.i)) := by
                    rw [hp5, hp4, hp3, hp2, hp1]
                  by_cases h3 : charAt s (skipSpaces s st5.i) ',' = true
                  · simp only [h3, if_true] at h ⊢
                    obtain ⟨hmap', hlen'⟩ := ih _ _ h
                    refine ⟨?_, ?_⟩
                    · rw [hmap', assignAll_append]
                      simp only [hmap]
                    · rw [hlen', sumPoints_append]
                      simp only [hpts]
                      omega
                  · simp only [h3, Bool.false_eq_true, if_false] at h ⊢
                    obtain ⟨hmap', hlen'⟩ := ih _ _ h
                    refine ⟨?_, ?_⟩
                    · rw [hmap', assignAll_append]
                      simp only [hmap]
                    · rw [hlen', sumPoints_append]
                      simp only [hpts]
                      omega
    · simp only [h1, if_false] at h ⊢
      cases h
      simp [assignAll, sumPoints]

theorem parseInputJson_decls (env : Platform R G) (fuel : Nat) (json : String)
    (inp : JsonInput R) (h : parseInputJson env fuel json = Parsed.ok inp) :
    inp.planeDataMap = assignAll [] (declarations env fuel json) ∧
    inp.receiverPoints.length = sumPoints (declarations env fuel json) := by
  unfold parseInputJson at h
  unfold declarations
  simp only [String.toList] at h ⊢
  cases he : expectChar json.data (skipSpaces json.data 0) '{' with
  | mk b i1 =>
    cases b with
    | false => simp [he] at h
    | true =>
      simp only [he] at h ⊢
      cases hl : inputLoop env json.data fuel ⟨i1, JsonInput.init, false, false⟩ with
      | error msg => simp [hl, Parsed.andThen] at h
      | outOfFuel => simp [hl, Parsed.andThen] at h
      | ok st =>
        simp only [hl, Parsed.andThen] at h
        have hinp : st.out = inp := by
          split_ifs at h
          cases h
          rfl
        obtain ⟨hmap, hlen⟩ := inputLoop_decls env json.data fuel _ _ hl
        rw [← hinp, hmap, hlen]
        simp [JsonInput.init]

theorem planeDataMap_sorted (env : Platform R G) (fuel : Nat) (json : String)
    (inp : JsonInput R) (h : parseInputJson env fuel json = Parsed.ok inp) :
    (inp.planeDataMap.map Prod.fst).Pairwise (· < ·) := by
  rw [(parseInputJson_decls env fuel json inp h).1]
  exact keys_sorted_assignAll _ [] List.Pairwise.nil

theorem planeLoop_names (env : Platform R G) (inp : JsonInput R) (rng : G)
    (m : List (String × PlaneData)) (g : Nat) :
    (planeLoop env inp rng m g).map (fun p => p.1) = m.map Prod.fst := by
  induction m generalizing g with
  | nil => rfl
  | cons e rest ih =>
    obtain ⟨name, pd⟩ := e
    simp only [planeLoop, List.map_cons, ih]

theorem pointLoop_exact (env : Platform R G) (inp : JsonInput R) (rng : G) (k : Nat)
    (temps : List R) (g : Nat) (hg : g + k ≤ inp.receiverPoints.length) :
    pointLoop env inp rng k temps g
      = (temps ++ (List.range k).map (fun j => pointTemperature env inp rng (g + j)), g + k) := by
  induction k generalizing temps g with
  | zero => simp [pointLoop]
  | succ k ih =>
    unfold pointLoop
    have hlt : ¬ g ≥ inp.receiverPoints.length := by omega
    simp only [hlt, if_false]
    rw [ih _ _ (by omega), List.range_succ_eq_map]
    have hj : ∀ j : Nat, g + 1 + j = g + (j + 1) := fun j => by omega
    have hlast : g + 1 + k = g + (k + 1) := by omega
    simp only [List.map_cons, List.map_map, List.append_assoc, List.singleton_append,
      Nat.add_zero, hj, hlast, Function.comp_def]

theorem planeLoop_getElem (env : Platform R G) (inp : JsonInput R) (rng : G)
    (name : String) (pd : PlaneData) (post : List (String × PlaneData)) :
    ∀ (pre : List (String × PlaneData)) (g : Nat),
      g + sumPoints (pre ++ (name, pd) :: post) ≤ inp.receiverPoints.length →
      (planeLoop env inp rng (pre ++ (name, pd) :: post) g)[pre.length]?
        = some (name, pd, (List.range pd.numPoints).map
            (fun j => pointTemperature env inp rng (g + sumPoints pre + j))) := by
  intro pre
  induction pre with
  | nil =>
    intro g hg
    rw [sumPoints_append, sumPoints_cons] at hg
    simp only [List.nil_append, planeLoop, List.length_nil, List.getElem?_cons_zero,
      sumPoints_nil, Nat.add_zero]
    rw [pointLoop_exact env inp rng pd.numPoints [] g (by simp only at hg; omega)]
    simp
  | cons e pre ih =>
    intro g hg
    obtain ⟨n0, pd0⟩ := e
    rw [List.cons_append, sumPoints_cons] at hg
    simp only [List.cons_append, planeLoop, List.length_cons, List.getElem?_cons_succ,
      List.append_eq]
    rw [pointLoop_exact env inp rng pd0.numPoints [] g (by
      rw [sumPoints_append] at hg; simp only at hg; omega)]
    simp only
    rw [ih (g + pd0.numPoints) (by simp only at hg; omega)]
    have hj : ∀ j : Nat, g + pd0.numPoints + sumPoints pre + j
        = g + sumPoints ((n0, pd0) :: pre) + j := fun j => by
      rw [sumPoints_cons]; simp only; omega
    simp only [hj]

end InputDeclarations

section PointCountClaims
variable {R : Type} [LinearOrderedField R] {G : Type}

/-- C25 (amended): for a scene that `parseInputJson` returns, the sum of
`numPoints` over `planeDataMap` is at most the number of receiver points; the two
are equal exactly when no declaration that carries a point is followed by a
declaration of the same name, in particular when the declared names are
distinct. Hence for every plane of the map the cursor stays below the number of
receiver points, the point loop runs all its `numPoints` iterations without
taking the branch that breaks, and the plane emits exactly `numPoints` values,
those of the receiver points at the cursor positions. -/
theorem plane_points_in_bounds (env : Platform R G) (fuel : Nat) (json : String)
    (inp : JsonInput R) (rng : G) (h : parseInputJson env fuel json = Parsed.ok inp) :
    sumPoints inp.planeDataMap ≤ inp.receiverPoints.length ∧
    (sumPoints inp.planeDataMap = inp.receiverPoints.length
      ↔ overwritesPoints (declarations env fuel json) = false) ∧
    (((declarations env fuel json).map Prod.fst).Nodup →
      sumPoints inp.planeDataMap = inp.receiverPoints.length) ∧
    (∀ pre name pd post, inp.planeDataMap = pre ++ (name, pd) :: post →
      (∀ j, j < pd.numPoints → sumPoints pre + j < inp.receiverPoints.length) ∧
      pointLoop env inp rng pd.numPoints [] (sumPoints pre)
        = ((List.range pd.numPoints).map
            (fun j => pointTemperature env inp rng (sumPoints pre + j)),
          sumPoints pre + pd.numPoints) ∧
      (planeLoop env inp rng inp.planeDataMap 0)[pre.length]?
        = some (name, pd, (List.range pd.numPoints).map
            (fun j => pointTemperature env inp rng (sumPoints pre + j))) ∧
      ((List.range pd.numPoints).map
        (fun j => pointTemperature env inp rng (sumPoints pre + j))).length = pd.numPoints) := by
  obtain ⟨hmap, hlen⟩ := parseInputJson_decls env fuel json inp h
  have hle : sumPoints inp.planeDataMap ≤ inp.receiverPoints.length := by
    rw [hmap, hlen]
    have := sumPoints_assignAll_le (declarations env fuel json) []
    simpa [sumPoints_nil] using this
  have hiff : sumPoints inp.planeDataMap = inp.receiverPoints.length
      ↔ overwritesPoints (declarations env fuel json) = false := by
    rw [hmap, hlen]
    have := sumPoints_assignAll_eq_iff (declarations env fuel json) [] List.Pairwise.nil
    simpa [sumPoints_nil] using this
  refine ⟨hle, hiff, ?_, ?_⟩
  · intro hnd
    exact hiff.mpr (overwritesPoints_of_nodup _ hnd)
  · intro pre name pd post hsplit
    have hbound : sumPoints pre + pd.numPoints ≤ inp.receiverPoints.length := by
      have h1 := hle
      rw [hsplit, sumPoints_append, sumPoints_cons] at h1
      simp only at h1
      omega
    refine ⟨?_, ?_, ?_, ?_⟩
    · intro j hj
      omega
    · have := pointLoop_exact env inp rng pd.numPoints [] (sumPoints pre) hbound
      simpa using this
    · have := planeLoop_getElem env inp rng name pd post pre 0 (by
        rw [← hsplit]; omega)
      rw [hsplit]
      simpa using this
    · simp

end PointCountClaims

section PointCountExamples

/-- C25 (witness): `requestRepeatedPlane` declares plane `a` twice with one point
each; the map keeps one entry with one point while two points are stored. -/
theorem plane_points_in_bounds_witness :
    parseInputJson testPlatform 40 requestRepeatedPlane = Parsed.ok parsedRepeatedPlane ∧
    overwritesPoints (declarations testPlatform 40 requestRepeatedPlane) = true ∧
    sumPoints parsedRepeatedPlane.planeDataMap ≤ parsedRepeatedPlane.receiverPoints.length ∧
    sumPoints parsedRepeatedPlane.planeDataMap ≠ parsedRepeatedPlane.receiverPoints.length :=
  ⟨by decide!, by decide!,
    (plane_points_in_bounds testPlatform 40 requestRepeatedPlane parsedRepeatedPlane []
      (by decide!)).1,
    by decide⟩

/-- C25 (counterexample): `requestRepeatedEmpty` declares plane `a` twice, the
first time without points; the name is repeated and the map entry is
overwritten, yet the sum of `numPoints` equals the number of receiver points. -/
theorem plane_points_repeated_counterexample :
    parseInputJson testPlatform 40 requestRepeatedEmpty = Parsed.ok parsedRepeatedEmpty ∧
    (declarations testPlatform 40 requestRepeatedEmpty).map Prod.fst = ["a", "a"] ∧
    sumPoints parsedRepeatedEmpty.planeDataMap = 1 ∧
    parsedRepeatedEmpty.receiverPoints.length = 1 := by
  decide!

end PointCountExamples

section LexerLemmas

theorem drop_takeWhile_length (p : Char → Bool) (l : List Char) :
    l.drop (l.takeWhile p).length = l.dropWhile p := by
  induction l with
  | nil => rfl
  | cons a l ih =>
    by_cases h : p a = true
    · simp [List.takeWhile, List.dropWhile, h, ih]
    · simp [List.takeWhile, List.dropWhile, h]

theorem takeWhile_dropWhile (p : Char → Bool) (l : List Char) :
    (l.dropWhile p).takeWhile p = [] := by
  induction l with
  | nil => rfl
  | cons a l ih =>
    by_cases h : p a = true
    · simp [List.dropWhile, h, ih]
    · simp [List.dropWhile, List.takeWhile, h]

theorem skipSpaces_idem (s : List Char) (i : Nat) :
    skipSpaces s (skipSpaces s i) = skipSpaces s i := by
  unfold skipSpaces
  have h : s.drop (i + ((s.drop i).takeWhile isBlank).length)
      = (s.drop i).dropWhile isBlank := by
    rw [← List.drop_drop, drop_takeWhile_length]
  rw [h, takeWhile_dropWhile]
  simp

theorem le_skipSpaces (s : List Char) (i : Nat) : i ≤ skipSpaces s i := by
  unfold skipSpaces
  omega

theorem lt_length_of_charAt (s : List Char) (j : Nat) (c : Char) (h : charAt s j c = true) :
    j < s.length := by
  unfold charAt at h
  by_contra hc
  rw [List.getElem?_eq_none (by omega)] at h
  simp at h

theorem charAt_other (s : List Char) (j : Nat) (c d : Char) (h : charAt s j c = true)
    (hcd : d ≠ c) : charAt s j d = false := by
  unfold charAt at h ⊢
  simp only [decide_eq_true_eq] at h
  rw [h]
  simp only [Option.some.injEq, decide_eq_false_iff_not]
  exact fun hh => hcd hh.symm

theorem parseKey_quote (s : List Char) (i : Nat) (key : String)
    (h : (parseKey s i key).1 = true) : charAt s (skipSpaces s i) '"' = true := by
  unfold parseKey expectChar at h
  simp only [skipSpaces_idem] at h
  by_contra hc
  simp [hc] at h

theorem parseKey_of_no_quote (s : List Char) (i : Nat) (key : String)
    (h : charAt s (skipSpaces s i) '"' = false) : (parseKey s i key).1 = false := by
  unfold parseKey expectChar
  simp only [skipSpaces_idem]
  simp [h]

theorem parseKey_other (s : List Char) (i : Nat) (key other : String)
    (h : (parseKey s i key).1 = true) (hne : other ≠ key) : (parseKey s i other).1 = false := by
  have hlist : other.toList ≠ key.toList := fun hh => hne (String.ext hh)
  unfold parseKey at h ⊢
  cases he : expectChar s (skipSpaces s i) '"' with
  | mk b i1 =>
    cases b with
    | false => simp [he] at h
    | true =>
      simp only [he] at h ⊢
      by_cases hk : i1 + ((s.drop i1).takeWhile (fun c => c != '"')).length ≥ s.length
      · simp [hk] at h
      · simp only [hk, if_false] at h ⊢
        cases he2 : expectChar s (skipSpaces s (i1 +
            ((s.drop i1).takeWhile (fun c => c != '"')).length + 1)) ':' with
        | mk b2 i3 =>
          cases b2 with
          | false => simp [he2] at h
          | true =>
            simp only [he2, decide_eq_true_eq] at h ⊢
            simp only [decide_eq_false_iff_not]
            intro hother
            exact hlist (hother.symm.trans h)

end LexerLemmas

section BlockLemmas
variable {R : Type} [LinearOrderedField R] {G : Type}

theorem keyReceiverPlanes_skip (env : Platform R G) (s : List Char) (fuel : Nat)
    (st : InputState R) (h : (parseKey s st.i "receiver_planes").1 = false) :
    keyReceiverPlanes env s fuel st = Parsed.ok st := by
  unfold keyReceiverPlanes
  cases hk : parseKey s st.i "receiver_planes" with
  | mk b i1 =>
    rw [hk] at h
    simp only at h
    subst h
    rfl

theorem keyPolygons_skip (env : Platform R G) (s : List Char) (fuel : Nat)
    (st : InputState R) (h : (parseKey s st.i "polygons").1 = false) :
    keyPolygons env s fuel st = Parsed.ok st := by
  unfold keyPolygons
  cases hk : parseKey s st.i "polygons" with
  | mk b i1 =>
    rw [hk] at h
    simp only at h
    subst h
    rfl

theorem keyNumRays_skip (env : Platform R G) (s : List Char)
    (st : InputState R) (h : (parseKey s st.i "num_rays").1 = false) :
    keyNumRays env s st = Parsed.ok st := by
  unfold keyNumRays
  cases hk : parseKey s st.i "num_rays" with
  | mk b i1 =>
    rw [hk] at h
    simp only at h
    subst h
    rfl

theorem keyReceiverPlanes_flags (env : Platform R G) (s : List Char) (fuel : Nat)
    (st st1 : InputState R) (h : keyReceiverPlanes env s fuel st = Parsed.ok st1) :
    st1.haveReceiverPlanes
        = (st.haveReceiverPlanes || (parseKey s st.i "receiver_planes").1) ∧
    st1.havePolygons = st.havePolygons := by
  unfold keyReceiverPlanes at h
  cases hk : parseKey s st.i "receiver_planes" with
  | mk b i1 =>
    cases b with
    | false =>
      simp only [hk] at h
      cases h
      simp
    | true =>
      simp only [hk] at h
      cases hm : parseReceiverPlanesMulti env s fuel
          ⟨i1, st.out.planeDataMap, st.out.receiverPoints⟩ with
      | fail => simp [hm] at h
      | outOfFuel => simp [hm] at h
      | ok ps =>
        simp only [hm] at h
        cases h
        simp

theorem keyPolygons_flags (env : Platform R G) (s : List Char) (fuel : Nat)
    (st st1 : InputState R) (h : keyPolygons env s fuel st = Parsed.ok st1) :
    st1.haveReceiverPlanes = st.haveReceiverPlanes ∧
    st1.havePolygons = (st.havePolygons || (parseKey s st.i "polygons").1) := by
  unfold keyPolygons at h
  cases hk : parseKey s st.i "polygons" with
  | mk b i1 =>
    cases b with
    | false =>
      simp only [hk] at h
      cases h
      simp
    | true =>
      simp only [hk] at h
      cases hp : parsePolygonsWithTemp env s fuel i1 st.out.polygons with
      | ok r =>
        simp only [hp] at h
        cases h
        simp
      | outOfFuel => simp [hp] at h
      | fail =>
        simp only [hp] at h
        cases hq : parsePolygons env s fuel i1 [] with
        | ok r =>
          simp only [hq] at h
          cases h
          simp
        | outOfFuel => simp [hq] at h
        | fail => simp [hq] at h

theorem keyNumRays_flags (env : Platform R G) (s : List Char)
    (st st1 : InputState R) (h : keyNumRays env s st = Parsed.ok st1) :
    st1.haveReceiverPlanes = st.haveReceiverPlanes ∧ st1.havePolygons = st.havePolygons := by
  unfold keyNumRays at h
  cases hk : parseKey s st.i "num_rays" with
  | mk b i1 =>
    cases b with
    | false =>
      simp only [hk] at h
      cases h
      exact ⟨rfl, rfl⟩
    | true =>
      simp only [hk] at h
      cases hq : parseNumber env s i1 with
      | none => simp [hq] at h
      | some r =>
        simp only [hq] at h
        cases h
        exact ⟨rfl, rfl⟩

end BlockLemmas

section PlainBlockLemmas
variable {R : Type} {G : Type}

theorem keyInertPolygons_skip (env : Platform R G) (s : List Char) (fuel : Nat)
    (st : InputState R) (h : (parseKey s st.i "inert_polygons").1 = false) :
    keyInertPolygons env s fuel st = Parsed.ok st := by
  unfold keyInertPolygons
  cases hk : parseKey s st.i "inert_polygons" with
  | mk b i1 =>
    rw [hk] at h
    simp only at h
    subst h
    rfl

theorem keySeed_skip (env : Platform R G) (s : List Char)
    (st : InputState R) (h : (parseKey s st.i "seed").1 = false) :
    keySeed env s st = Parsed.ok st := by
  unfold keySeed
  cases hk : parseKey s st.i "seed" with
  | mk b i1 =>
    rw [hk] at h
    simp only at h
    subst h
    rfl

theorem keyInertPolygons_flags (env : Platform R G) (s : List Char) (fuel : Nat)
    (st st1 : InputState R) (h : keyInertPolygons env s fuel st = Parsed.ok st1) :
    st1.haveReceiverPlanes = st.haveReceiverPlanes ∧ st1.havePolygons = st.havePolygons := by
  unfold keyInertPolygons at h
  cases hk : parseKey s st.i "inert_polygons" with
  | mk b i1 =>
    cases b with
    | false =>
      simp only [hk] at h
      cases h
      exact ⟨rfl, rfl⟩
    | true =>
      simp only [hk] at h
      cases hq : parsePolygons env s fuel i1 [] with
      | ok r =>
        simp only [hq] at h
        cases h
        exact ⟨rfl, rfl⟩
      | outOfFuel => simp [hq] at h
      | fail => simp [hq] at h

theorem keySeed_flags (env : Platform R G) (s : List Char)
    (st st1 : InputState R) (h : keySeed env s st = Parsed.ok st1) :
    st1.haveReceiverPlanes = st.haveReceiverPlanes ∧ st1.havePolygons = st.havePolygons := by
  unfold keySeed at h
  cases hk : parseKey s st.i "seed" with
  | mk b i1 =>
    cases b with
    | false =>
      simp only [hk] at h
      cases h
      exact ⟨rfl, rfl⟩
    | true =>
      simp only [hk] at h
      cases hq : parseUInt64 env s i1 with
      | none => simp [hq] at h
      | some r =>
        simp only [hq] at h
        cases h
        exact ⟨rfl, rfl⟩

end PlainBlockLemmas

section WellFormedLemmas
variable {R : Type} [LinearOrderedField R] {G : Type}

/-- One iteration of the key loop on a field with a recognised key: the blocks
before the one of the key fail on the key and restore the index, the block of
the key reads the value, and the blocks after it find no key. -/
theorem field_chain (env : Platform R G) (s : List Char) (fuel : Nat) (key : String)
    (st0 st1 : InputState R) (hk : key ∈ recognisedKeys)
    (hkey : (parseKey s st0.i key).1 = true)
    (hblock : fieldBlock env s fuel key st0 = Parsed.ok st1)
    (hafter : charAt s (skipSpaces s st1.i) '"' = false) :
    (∃ a b c d, keyReceiverPlanes env s fuel st0 = Parsed.ok a ∧
      keyPolygons env s fuel a = Parsed.ok b ∧ keyInertPolygons env s fuel b = Parsed.ok c ∧
      keyNumRays env s c = Parsed.ok d ∧ keySeed env s d = Parsed.ok st1) ∧
    (st1.haveReceiverPlanes = true ↔ (st0.haveReceiverPlanes = true ∨ key = "receiver_planes")) ∧
    (st1.havePolygons = true ↔ (st0.havePolygons = true ∨ key = "polygons")) := by
  have n12 : ("receiver_planes" : String) ≠ "polygons" := by decide
  have n13 : ("receiver_planes" : String) ≠ "inert_polygons" := by decide
  have n14 : ("receiver_planes" : String) ≠ "num_rays" := by decide
  have n15 : ("receiver_planes" : String) ≠ "seed" := by decide
  have n23 : ("polygons" : String) ≠ "inert_polygons" := by decide
  have n24 : ("polygons" : String) ≠ "num_rays" := by decide
  have n25 : ("polygons" : String) ≠ "seed" := by decide
  have n34 : ("inert_polygons" : String) ≠ "num_rays" := by decide
  have n35 : ("inert_polygons" : String) ≠ "seed" := by decide
  have n45 : ("num_rays" : String) ≠ "seed" := by decide
  have hno : ∀ k, (parseKey s st1.i k).1 = false := fun k => parseKey_of_no_quote s st1.i k hafter
  simp only [recognisedKeys, List.mem_cons, List.mem_singleton, List.mem_nil_iff, or_false] at hk
  rcases hk with rfl | rfl | rfl | rfl | rfl
  · have hb : keyReceiverPlanes env s fuel st0 = Parsed.ok st1 := by
      simpa [fieldBlock] using hblock
    have hf := keyReceiverPlanes_flags env s fuel st0 st1 hb
    rw [hkey] at hf
    refine ⟨⟨st1, st1, st1, st1, hb, keyPolygons_skip env s fuel st1 (hno _),
      keyInertPolygons_skip env s fuel st1 (hno _), keyNumRays_skip env s st1 (hno _),
      keySeed_skip env s st1 (hno _)⟩, ?_, ?_⟩
    · simp [hf.1]
    · simp [hf.2, n12]
  · have hb : keyPolygons env s fuel st0 = Parsed.ok st1 := by
      simpa [fieldBlock, n12.symm] using hblock
    have hf := keyPolygons_flags env s fuel st0 st1 hb
    rw [hkey] at hf
    refine ⟨⟨st0, st1, st1, st1,
      keyReceiverPlanes_skip env s fuel st0 (parseKey_other s st0.i _ _ hkey n12), hb,
      keyInertPolygons_skip env s fuel st1 (hno _), keyNumRays_skip env s st1 (hno _),
      keySeed_skip env s st1 (hno _)⟩, ?_, ?_⟩
    · simp [hf.1, n12.symm]
    · simp [hf.2]
  · have hb : keyInertPolygons env s fuel st0 = Parsed.ok st1 := by
      simpa [fieldBlock, n13.symm, n23.symm] using hblock
    have hf := keyInertPolygons_flags env s fuel st0 st1 hb
    refine ⟨⟨st0, st0, st1, st1,
      keyReceiverPlanes_skip env s fuel st0 (parseKey_other s st0.i _ _ hkey n13),
      keyPolygons_skip env s fuel st0 (parseKey_other s st0.i _ _ hkey n23), hb,
      keyNumRays_skip env s st1 (hno _), keySeed_skip env s st1 (hno _)⟩, ?_, ?_⟩
    · simp [hf.1, n13.symm]
    · simp [hf.2, n23.symm]
  · have hb : keyNumRays env s st0 = Parsed.ok st1 := by
      simpa [fieldBlock, n14.symm, n24.symm, n34.symm] using hblock
    have hf := keyNumRays_flags env s st0 st1 hb
    refine ⟨⟨st0, st0, st0, st1,
      keyReceiverPlanes_skip env s fuel st0 (parseKey_other s st0.i _ _ hkey n14),
      keyPolygons_skip env s fuel st0 (parseKey_other s st0.i _ _ hkey n24),
      keyInertPolygons_skip env s fuel st0 (parseKey_other s st0.i _ _ hkey n34), hb,
      keySeed_skip env s st1 (hno _)⟩, ?_, ?_⟩
    · simp [hf.1, n14.symm]
    · simp [hf.2, n24.symm]
  · have hb : keySeed env s st0 = Parsed.ok st1 := by
      simpa [fieldBlock, n15.symm, n25.symm, n35.symm, n45.symm] using hblock
    have hf := keySeed_flags env s st0 st1 hb
    refine ⟨⟨st0, st0, st0, st0,
      keyReceiverPlanes_skip env s fuel st0 (parseKey_other s st0.i _ _ hkey n15),
      keyPolygons_skip env s fuel st0 (parseKey_other s st0.i _ _ hkey n25),
      keyInertPolygons_skip env s fuel st0 (parseKey_other s st0.i _ _ hkey n35),
      keyNumRays_skip env s st0 (parseKey_other s st0.i _ _ hkey n45), hb⟩, ?_, ?_⟩
    · simp [hf.1, n15.symm]
    · simp [hf.2, n25.symm]

theorem fieldsWellFormed_nil (env : Platform R G) (s : List Char) (fuel : Nat)
    (st : InputState R) (h : fieldsWellFormed env s fuel [] st = true) :
    charAt s (skipSpaces s st.i) '}' = true := by
  cases fuel with
  | zero => simp [fieldsWellFormed] at h
  | succ n => simpa [fieldsWellFormed] using h

/-- On a well-formed object body the key loop returns, and its flags record
exactly whether the keys `receiver_planes` and `polygons` occur among the fields. -/
theorem inputLoop_of_wellFormed (env : Platform R G) (s : List Char) :
    ∀ (fuel : Nat) (keys : List String) (st : InputState R),
      fieldsWellFormed env s fuel keys st = true →
      ∃ st', inputLoop env s fuel st = Parsed.ok st' ∧
        (st'.haveReceiverPlanes = true
          ↔ (st.haveReceiverPlanes = true ∨ "receiver_planes" ∈ keys)) ∧
        (st'.havePolygons = true ↔ (st.havePolygons = true ∨ "polygons" ∈ keys)) := by
  intro fuel
  induction fuel with
  | zero =>
    intro keys st h
    simp [fieldsWellFormed] at h
  | succ n ih =>
    intro keys st h
    cases keys with
    | nil =>
      have hc : charAt s (skipSpaces s st.i) '}' = true := fieldsWellFormed_nil env s _ st h
      have hlt : st.i < s.length :=
        lt_of_le_of_lt (le_skipSpaces s st.i) (lt_length_of_charAt s _ _ hc)
      refine ⟨{ st with i := skipSpaces s st.i + 1 }, ?_, ?_, ?_⟩
      · rw [inputLoop]
        simp only [hlt, if_true, hc]
      · simp
      · simp
    | cons key rest =>
      rw [fieldsWellFormed] at h
      simp only [Bool.and_eq_true, decide_eq_true_eq] at h
      obtain ⟨⟨hk, hkey⟩, hmatch⟩ := h
      have hq : charAt s (skipSpaces s st.i) '"' = true := by
        have := parseKey_quote s _ key hkey
        rwa [skipSpaces_idem] at this
      have hlt : st.i < s.length :=
        lt_of_le_of_lt (le_skipSpaces s st.i) (lt_length_of_charAt s _ _ hq)
      have hnb : charAt s (skipSpaces s st.i) '}' = false :=
        charAt_other s _ '"' '}' hq (by decide)
      cases hb : fieldBlock env s n key { st with i := skipSpaces s st.i } with
      | error msg => simp [hb] at hmatch
      | outOfFuel => simp [hb] at hmatch
      | ok st1 =>
        simp only [hb] at hmatch
        cases rest with
        | nil =>
          simp only at hmatch
          have hc : charAt s (skipSpaces s st1.i) '}' = true := by
            have := fieldsWellFormed_nil env s n _ hmatch
            simpa [skipSpaces_idem] using this
          have hafter : charAt s (skipSpaces s st1.i) '"' = false :=
            charAt_other s _ '}' '"' hc (by decide)
          have hcomma : charAt s (skipSpaces s st1.i) ',' = false :=
            charAt_other s _ '}' ',' hc (by decide)
          obtain ⟨⟨a, b, c, d, h1, h2, h3, h4, h5⟩, hf1, hf2⟩ :=
            field_chain env s n key { st with i := skipSpaces s st.i } st1 hk hkey hb hafter
          obtain ⟨st', hloop, hg1, hg2⟩ := ih [] _ hmatch
          refine ⟨st', ?_, ?_, ?_⟩
          · rw [inputLoop]
            simp only [hlt, if_true, hnb, Bool.false_eq_true, if_false, h1, h2, h3, h4, h5,
              Parsed.andThen, hcomma]
            exact hloop
          · have e := hf1.trans (or_congr Iff.rfl eq_comm)
            refine hg1.trans ?_
            constructor
            · rintro (h | h)
              · rcases e.mp h with h | h
                · exact Or.inl h
                · exact Or.inr (List.mem_cons.mpr (Or.inl h))
              · exact Or.inr (List.mem_cons_of_mem _ h)
            · rintro (h | h)
              · exact Or.inl (e.mpr (Or.inl h))
              · rcases List.mem_cons.mp h with h | h
                · exact Or.inl (e.mpr (Or.inr h))
                · exact Or.inr h
          · have e := hf2.trans (or_congr Iff.rfl eq_comm)
            refine hg2.trans ?_
            constructor
            · rintro (h | h)
              · rcases e.mp h with h | h
                · exact Or.inl h
                · exact Or.inr (List.mem_cons.mpr (Or.inl h))
              · exact Or.inr (List.mem_cons_of_mem _ h)
            · rintro (h | h)
              · exact Or.inl (e.mpr (Or.inl h))
              · rcases List.mem_cons.mp h with h | h
                · exact Or.inl (e.mpr (Or.inr h))
                · exact Or.inr h
        | cons k2 rest2 =>
          simp only [Bool.and_eq_true] at hmatch
          obtain ⟨hcomma, hrest⟩ := hmatch
          have hafter : charAt s (skipSpaces s st1.i) '"' = false :=
            charAt_other s _ ',' '"' hcomma (by decide)
          obtain ⟨⟨a, b, c, d, h1, h2, h3, h4, h5⟩, hf1, hf2⟩ :=
            field_chain env s n key { st with i := skipSpaces s st.i } st1 hk hkey hb hafter
          obtain ⟨st', hloop, hg1, hg2⟩ := ih (k2 :: rest2) _ hrest
          refine ⟨st', ?_, ?_, ?_⟩
          · rw [inputLoop]
            simp only [hlt, if_true, hnb, Bool.false_eq_true, if_false, h1, h2, h3, h4, h5,
              Parsed.andThen, hcomma]
            exact hloop
          · have e := hf1.trans (or_congr Iff.rfl eq_comm)
            refine hg1.trans ?_
            constructor
            · rintro (h | h)
              · rcases e.mp h with h | h
                · exact Or.inl h
                · exact Or.inr (List.mem_cons.mpr (Or.inl h))
              · exact Or.inr (List.mem_cons_of_mem _ h)
            · rintro (h | h)
              · exact Or.inl (e.mpr (Or.inl h))
              · rcases List.mem_cons.mp h with h | h
                · exact Or.inl (e.mpr (Or.inr h))
                · exact Or.inr h
          · have e := hf2.trans (or_congr Iff.rfl eq_comm)
            refine hg2.trans ?_
            constructor
            · rintro (h | h)
              · rcases e.mp h with h | h
                · exact Or.inl h
                · exact Or.inr (List.mem_cons.mpr (Or.inl h))
              · exact Or.inr (List.mem_cons_of_mem _ h)
            · rintro (h | h)
              · exact Or.inl (e.mpr (Or.inl h))
              · rcases List.mem_cons.mp h with h | h
                · exact Or.inl (e.mpr (Or.inr h))
                · exact Or.inr h

end WellFormedLemmas

section RequestErrorClaims
variable {R : Type} [LinearOrderedField R] {G : Type}

theorem declarations_of_open (env : Platform R G) (fuel : Nat) (json : String) (i1 : Nat)
    (hopen : expectChar json.toList (skipSpaces json.toList 0) '{' = (true, i1)) :
    declarations env fuel json
      = inputLoopDecls env json.toList fuel ⟨i1, JsonInput.init, false, false⟩ := by
  unfold declarations
  simp only [String.toList] at hopen ⊢
  simp only [hopen]

/-- C14: for a request whose text is a well-formed object with recognised keys
only (`wellFormedRequest`, with the list `keys` of the keys of its fields),
`parseInputJson` returns, and `runCalculation` answers. If `receiver_planes` is
not among the keys the message is "Must provide 'receiver_planes' field"; if it
is, but the plane declarations of the request carry no receiver point, the
message is "receiver_planes is empty"; if points are declared but `polygons` is
not among the keys, the message is "Missing polygons". In each of these cases
`runCalculation` returns `ok = false` and the body is exactly the error object
with that message; otherwise the parse succeeds. -/
theorem missing_fields_errors (env : Platform R G) (fuel : Nat) (json : String)
    (rd : Nat → Nat) (keys : List String)
    (hwf : wellFormedRequest env fuel json keys = true) :
    (∃ r, runCalculation env fuel json rd = some r) ∧
    ("receiver_planes" ∉ keys →
      parseInputJson env fuel json = Parsed.error "Must provide 'receiver_planes' field" ∧
      runCalculation env fuel json rd
        = some ("\x7b\"error\": \"Must provide 'receiver_planes' field\"\x7d", false)) ∧
    ("receiver_planes" ∈ keys → sumPoints (declarations env fuel json) = 0 →
      parseInputJson env fuel json = Parsed.error "receiver_planes is empty" ∧
      runCalculation env fuel json rd
        = some ("\x7b\"error\": \"receiver_planes is empty\"\x7d", false)) ∧
    ("receiver_planes" ∈ keys → sumPoints (declarations env fuel json) ≠ 0 →
      "polygons" ∉ keys →
      parseInputJson env fuel json = Parsed.error "Missing polygons" ∧
      runCalculation env fuel json rd
        = some ("\x7b\"error\": \"Missing polygons\"\x7d", false)) ∧
    ("receiver_planes" ∈ keys → sumPoints (declarations env fuel json) ≠ 0 →
      "polygons" ∈ keys → ∃ inp, parseInputJson env fuel json = Parsed.ok inp) := by
  unfold wellFormedRequest at hwf
  cases he0 : expectChar json.data (skipSpaces json.data 0) '{' with
  | mk b i1 =>
    cases b with
    | false => simp [he0] at hwf
    | true =>
      have he : expectChar json.toList (skipSpaces json.toList 0) '{' = (true, i1) := he0
      have hwf' : fieldsWellFormed env json.toList fuel keys
          ⟨i1, JsonInput.init, false, false⟩ = true := by
        simpa [he0] using hwf
      obtain ⟨st, hloop, hg1, hg2⟩ := inputLoop_of_wellFormed env json.toList fuel keys _ hwf'
      have hp := parseInputJson_of_loop env fuel json i1 st he hloop
      have hlen := (inputLoop_decls env json.toList fuel _ _ hloop).2
      rw [← declarations_of_open env fuel json i1 he] at hlen
      have hpts : st.out.receiverPoints.length = sumPoints (declarations env fuel json) := by
        rw [hlen]
        simp [JsonInput.init]
      have hrp : st.haveReceiverPlanes = true ↔ "receiver_planes" ∈ keys := by
        rw [hg1]
        simp
      have hpoly : st.havePolygons = true ↔ "polygons" ∈ keys := by
        rw [hg2]
        simp
      have hempty : st.out.receiverPoints.isEmpty = true
          ↔ sumPoints (declarations env fuel json) = 0 := by
        rw [← hpts, List.isEmpty_iff, List.length_eq_zero]
      have hA : "receiver_planes" ∉ keys →
          parseInputJson env fuel json
            = Parsed.error "Must provide 'receiver_planes' field" := by
        intro h1
        have : st.haveReceiverPlanes = false := by
          cases hb : st.haveReceiverPlanes with
          | false => rfl
          | true => exact absurd (hrp.mp hb) h1
        rw [hp, this]
        rfl
      have hB : "receiver_planes" ∈ keys → sumPoints (declarations env fuel json) = 0 →
          parseInputJson env fuel json = Parsed.error "receiver_planes is empty" := by
        intro h1 h2
        rw [hp, hrp.mpr h1, hempty.mpr h2]
        rfl
      have hnot : sumPoints (declarations env fuel json) ≠ 0 →
          st.out.receiverPoints.isEmpty = false := by
        intro h2
        cases hb : st.out.receiverPoints.isEmpty with
        | false => rfl
        | true => exact absurd (hempty.mp hb) h2
      have hC : "receiver_planes" ∈ keys → sumPoints (declarations env fuel json) ≠ 0 →
          "polygons" ∉ keys →
          parseInputJson env fuel json = Parsed.error "Missing polygons" := by
        intro h1 h2 h3
        have : st.havePolygons = false := by
          cases hb : st.havePolygons with
          | false => rfl
          | true => exact absurd (hpoly.mp hb) h3
        rw [hp, hrp.mpr h1, hnot h2, this]
        rfl
      have hD : "receiver_planes" ∈ keys → sumPoints (declarations env fuel json) ≠ 0 →
          "polygons" ∈ keys → parseInputJson env fuel json = Parsed.ok st.out := by
        intro h1 h2 h3
        rw [hp, hrp.mpr h1, hnot h2, hpoly.mpr h3]
        rfl
      refine ⟨?_, ?_, ?_, ?_, ?_⟩
      · by_cases h1 : "receiver_planes" ∈ keys
        · by_cases h2 : sumPoints (declarations env fuel json) = 0
          · exact ⟨_, runCalculation_of_error env fuel json rd _ (hB h1 h2)⟩
          · by_cases h3 : "polygons" ∈ keys
            · unfold runCalculation
              rw [hD h1 h2 h3]
              exact ⟨_, rfl⟩
            · exact ⟨_, runCalculation_of_error env fuel json rd _ (hC h1 h2 h3)⟩
        · exact ⟨_, runCalculation_of_error env fuel json rd _ (hA h1)⟩
      · intro h1
        exact ⟨hA h1, runCalculation_of_error env fuel json rd _ (hA h1)⟩
      · intro h1 h2
        exact ⟨hB h1 h2, runCalculation_of_error env fuel json rd _ (hB h1 h2)⟩
      · intro h1 h2 h3
        exact ⟨hC h1 h2 h3, runCalculation_of_error env fuel json rd _ (hC h1 h2 h3)⟩
      · intro h1 h2 h3
        exact ⟨_, hD h1 h2 h3⟩

end RequestErrorClaims

section RequestErrorExamples

/-- C14 (witness): on the test platform, the request with the only key
`polygons`, the request with an empty `receiver_planes` object and the request
with the only key `receiver_planes` are well formed and are answered with the
three error objects. -/
theorem missing_fields_errors_witness :
    wellFormedRequest testPlatform 40 requestNoPlanes ["polygons"] = true ∧
    runCalculation testPlatform 40 requestNoPlanes (fun _ => 0)
      = some ("\x7b\"error\": \"Must provide 'receiver_planes' field\"\x7d", false) ∧
    wellFormedRequest testPlatform 40 requestEmptyPlanes ["receiver_planes", "polygons"] = true ∧
    runCalculation testPlatform 40 requestEmptyPlanes (fun _ => 0)
      = some ("\x7b\"error\": \"receiver_planes is empty\"\x7d", false) ∧
    wellFormedRequest testPlatform 40 requestNoPolygons ["receiver_planes"] = true ∧
    runCalculation testPlatform 40 requestNoPolygons (fun _ => 0)
      = some ("\x7b\"error\": \"Missing polygons\"\x7d", false) :=
  ⟨by decide!,
    ((missing_fields_errors testPlatform 40 requestNoPlanes (fun _ => 0) ["polygons"]
      (by decide!)).2.1 (by decide)).2,
    by decide!,
    ((missing_fields_errors testPlatform 40 requestEmptyPlanes (fun _ => 0)
      ["receiver_planes", "polygons"] (by decide!)).2.2.1 (by decide) (by decide!)).2,
    by decide!,
    ((missing_fields_errors testPlatform 40 requestNoPolygons (fun _ => 0) ["receiver_planes"]
      (by decide!)).2.2.2.1 (by decide) (by decide!) (by decide)).2⟩

end RequestErrorExamples

section PlaneOrderClaims
variable {R : Type} [LinearOrderedField R] {G : Type}

theorem planeLoop_entries (env : Platform R G) (inp : JsonInput R) (rng : G)
    (m : List (String × PlaneData)) (g : Nat) :
    (planeLoop env inp rng m g).map (fun p => (p.1, p.2.1)) = m := by
  induction m generalizing g with
  | nil => rfl
  | cons e rest ih =>
    obtain ⟨name, pd⟩ := e
    simp only [planeLoop, List.map_cons, ih]

/-- C23: for a request that `parseInputJson` accepts, the text `runCalculation`
returns is `{"success":true,"planes":[` followed by one object per entry of the
plane loop, separated by commas, each object being
`{"name":"<name>","width":..,"height":..,"values":[..]}` with the name of the
entry, and `]}`. The entries of the plane loop carry the names and metadata of
`planeDataMap` in its order, so the names written are the keys of the map:
strictly increasing in the order of strings (lexicographic by character, which
for UTF-8 text is byte-wise), hence without repetition, and a name is written
exactly when the parser assigned a declaration of that name, whatever the order
of the declarations in the text. -/
theorem planes_sorted_by_name (env : Platform R G) (fuel : Nat) (json : String)
    (inp : JsonInput R) (rd : Nat → Nat) (rng : G)
    (h : parseInputJson env fuel json = Parsed.ok inp) :
    runCalculation env fuel json rd
      = some ("\x7b" ++ "\"success\":true," ++ "\"planes\":["
          ++ ",".intercalate
              ((planeLoop env inp (initialRng env inp rd) inp.planeDataMap 0).map
                (fun p => "\x7b" ++ "\"name\":\"" ++ p.1 ++ "\"," ++ "\"width\":"
                  ++ toString p.2.1.width ++ "," ++ "\"height\":" ++ toString p.2.1.height
                  ++ "," ++ "\"values\":[" ++ ",".intercalate (p.2.2.map env.showDouble)
                  ++ "]" ++ "\x7d"))
          ++ "]" ++ "\x7d", true) ∧
    (planeLoop env inp rng inp.planeDataMap 0).map (fun p => (p.1, p.2.1))
      = inp.planeDataMap ∧
    (planeLoop env inp rng inp.planeDataMap 0).map (fun p => p.1)
      = inp.planeDataMap.map Prod.fst ∧
    ((planeLoop env inp rng inp.planeDataMap 0).map (fun p => p.1)).Pairwise (· < ·) ∧
    ((planeLoop env inp rng inp.planeDataMap 0).map (fun p => p.1)).Nodup ∧
    (∀ name, name ∈ (planeLoop env inp rng inp.planeDataMap 0).map (fun p => p.1)
      ↔ name ∈ (declarations env fuel json).map Prod.fst) := by
  have hsorted := planeDataMap_sorted env fuel json inp h
  have hnames := planeLoop_names env inp rng inp.planeDataMap 0
  refine ⟨?_, planeLoop_entries env inp rng inp.planeDataMap 0, hnames, ?_, ?_, ?_⟩
  · unfold runCalculation
    rw [h]
    rfl
  · rw [hnames]
    exact hsorted
  · rw [hnames]
    exact hsorted.imp (fun hab => ne_of_lt hab)
  · intro name
    rw [hnames, (parseInputJson_decls env fuel json inp h).1, mem_keys_assignAll]
    simp

end PlaneOrderClaims

section PlaneOrderExamples

/-- C23 (witness): `requestTwoPlanes` declares plane `b` before plane `a`; the
plane loop yields `a` before `b`, and the returned text lists the object named
`a` before the object named `b`. -/
theorem planes_sorted_by_name_witness :
    (declarations testPlatform 40 requestTwoPlanes).map Prod.fst = ["b", "a"] ∧
    (planeLoop testPlatform parsedTwoPlanes [] parsedTwoPlanes.planeDataMap 0).map (fun p => p.1)
      = ["a", "b"] ∧
    runCalculation testPlatform 40 requestTwoPlanes (fun _ => 0)
      = some ("\x7b\"success\":true,\"planes\":[\x7b\"name\":\"a\",\"width\":1,\"height\":1,\"values\":[1000]\x7d,\x7b\"name\":\"b\",\"width\":1,\"height\":1,\"values\":[0]\x7d]\x7d", true) :=
  ⟨by decide!,
    (planes_sorted_by_name testPlatform 40 requestTwoPlanes parsedTwoPlanes (fun _ => 0) []
      (by decide!)).2.2.1,
    by decide!⟩

end PlaneOrderExamples

end TRA
